import Mathlib

/-!
Cloth simulation: mass-spring step, collisions and topology.

A shallow embedding of `src/cloth.cpp`, `src/collision/plane.cpp` and
`src/collision/sphere.cpp`.

Scalars (`double`/`float` in the source) are taken from an arbitrary linearly
ordered field `K` with a floor function; the square root is passed in as
`sqrt : K → K`.  All definitions are computable for a computable `K`
(for instance `ℚ`).  The theorems are stated over exact real arithmetic,
`K = ℝ` and `sqrt = Real.sqrt`; rounding of floating point numbers is not
modelled.

Pointers into the `point_masses` vector are array indices.
-/

namespace ClothSim

/-! ## Vectors -/

/-- Modelled from the spec: the `Vector3D` type of the vector library used by
the sources (it is not among the source files): a triple of scalars with
componentwise arithmetic. -/
@[ext]
structure Vector3D (K : Type) where
  x : K
  y : K
  z : K

variable {K : Type} [LinearOrderedField K]

namespace Vector3D

/-- The vector `Vector3D(0, 0, 0)`. -/
def zero : Vector3D K := ⟨0, 0, 0⟩

/-- Componentwise sum, `a + b`. -/
def add (a b : Vector3D K) : Vector3D K := ⟨a.x + b.x, a.y + b.y, a.z + b.z⟩

/-- Componentwise difference, `a - b`. -/
def sub (a b : Vector3D K) : Vector3D K := ⟨a.x - b.x, a.y - b.y, a.z - b.z⟩

/-- Scaling by a scalar, written `c * a` or `a * c` in the source. -/
def smul (a : Vector3D K) (c : K) : Vector3D K := ⟨c * a.x, c * a.y, c * a.z⟩

/-- Division by a scalar, written `a / c` in the source. -/
def sdiv (a : Vector3D K) (c : K) : Vector3D K := ⟨a.x / c, a.y / c, a.z / c⟩

/-- Dot product, `dot(a, b)`. -/
def dot (a b : Vector3D K) : K := a.x * b.x + a.y * b.y + a.z * b.z

/-- Squared Euclidean length, `a.norm2()`. -/
def norm2 (a : Vector3D K) : K := a.x * a.x + a.y * a.y + a.z * a.z

/-- Euclidean length, `a.norm()`. -/
def norm (sqrt : K → K) (a : Vector3D K) : K := sqrt (norm2 a)

/-- Normalisation, `a.unit()`: every component is multiplied by `1 / norm`.
For the zero vector the source divides by zero; here `1 / 0 = 0`, so the
result is the zero vector.  Theorems that depend on a direction assume the
vector is not zero. -/
def unit (sqrt : K → K) (a : Vector3D K) : Vector3D K :=
  let rNorm := 1 / norm sqrt a
  ⟨rNorm * a.x, rNorm * a.y, rNorm * a.z⟩

instance : Add (Vector3D K) := ⟨add⟩
instance : Sub (Vector3D K) := ⟨sub⟩

end Vector3D

/-! ## Point masses and collision primitives -/

/-- Modelled from the spec: the `PointMass` record (declared in a header that
is not among the source files), with the fields the sources read and write. -/
structure PointMass (K : Type) where
  position : Vector3D K
  last_position : Vector3D K
  start_position : Vector3D K
  forces : Vector3D K
  pinned : Bool

/-- Modelled from the spec: the constructor `PointMass(position, pinned)`:
current, previous and start position are the given position, no force. -/
def PointMass.new (pos : Vector3D K) (is_pinned : Bool) : PointMass K :=
  { position := pos, last_position := pos, start_position := pos,
    forces := Vector3D.zero, pinned := is_pinned }

/-- The immutable geometry of a sphere primitive. -/
structure Sphere (K : Type) where
  origin : Vector3D K
  radius : K
  friction : K

/-- The immutable geometry of a plane primitive. -/
structure Plane (K : Type) where
  point : Vector3D K
  normal : Vector3D K
  friction : K

/-- The constant `SURFACE_OFFSET` of `plane.cpp`, 0.0001. -/
def SURFACE_OFFSET : K := 1 / 10000

/-- `Sphere::collide` of `sphere.cpp`. -/
def Sphere.collide (sqrt : K → K) (s : Sphere K) (pm : PointMass K) : PointMass K :=
  if (pm.position - s.origin).norm sqrt < s.radius then
    let tangent := ((pm.position - s.origin).unit sqrt).smul s.radius + s.origin
    let new_position := (tangent - pm.last_position).smul (1 - s.friction) + pm.last_position
    { pm with position := new_position }
  else pm

/-- `Plane::collide` of `plane.cpp`. -/
def Plane.collide (p : Plane K) (pm : PointMass K) : PointMass K :=
  let dist_to_last := Vector3D.dot p.normal (pm.last_position - p.point)
  let dist_to_cur := Vector3D.dot p.normal (pm.position - p.point)
  let last_in_front : Bool := decide (dist_to_last ≥ 0)
  let cur_in_front : Bool := decide (dist_to_cur ≥ 0)
  if last_in_front = cur_in_front then pm
  else
    let bumped := pm.position - p.normal.smul dist_to_cur
    let bump_dir := bumped - pm.last_position
    let tangent := bump_dir - p.normal.smul (Vector3D.dot bump_dir p.normal - SURFACE_OFFSET)
    { pm with position := tangent.smul (1 - p.friction) + pm.last_position }

/-- The closed set of collision primitives, `CollisionObject`. -/
inductive CollisionObject (K : Type) where
  | plane : Plane K → CollisionObject K
  | sphere : Sphere K → CollisionObject K

/-- The virtual call `co->collide(pm)`. -/
def CollisionObject.collide (sqrt : K → K) : CollisionObject K → PointMass K → PointMass K
  | .plane p, pm => p.collide pm
  | .sphere s, pm => s.collide sqrt pm

/-! ## The cloth -/

/-- The spring kinds, `e_spring_type`. -/
inductive e_spring_type where
  | STRUCTURAL
  | SHEARING
  | BENDING
deriving DecidableEq, Repr

/-- The cloth orientations, `e_orientation`. -/
inductive e_orientation where
  | HORIZONTAL
  | VERTICAL
deriving DecidableEq, Repr

/-- Modelled from the spec: the `Spring` record (declared in a header that is
not among the source files).  The endpoint pointers `pm_a`, `pm_b` are indices
into `point_masses`. -/
structure Spring (K : Type) where
  pm_a : Nat
  pm_b : Nat
  spring_type : e_spring_type
  rest_length : K

/-- The configuration bundle `ClothParameters`. -/
structure ClothParameters (K : Type) where
  enable_structural_constraints : Bool
  enable_shearing_constraints : Bool
  enable_bending_constraints : Bool
  damping : K
  density : K
  ks : K

/-- The state of a `Cloth` object.  `map` is the spatial hash: an association
list from a cell key to the bucket of point-mass indices, in insertion
order. -/
structure Cloth (K : Type) where
  width : K
  height : K
  num_width_points : Int
  num_height_points : Int
  thickness : K
  orientation : e_orientation
  pinned : List (List Int)
  point_masses : List (PointMass K)
  springs : List (Spring K)
  map : List (K × List Nat)

/-- The lookup `map[key]` when it is read: the bucket stored under `key`, or
`none` for the null pointer of a missing key. -/
def mapLookup : List (K × List Nat) → K → Option (List Nat)
  | [], _ => none
  | (k, b) :: rest, key => if k = key then some b else mapLookup rest key

/-- The body of the loop of `build_spatial_map`: push index `i` on the bucket
of `key`, creating the bucket when the key is new. -/
def mapPush : List (K × List Nat) → K → Nat → List (K × List Nat)
  | [], key, i => [(key, [i])]
  | (k, b) :: rest, key, i =>
    if k = key then (k, b ++ [i]) :: rest else (k, b) :: mapPush rest key i

/-- The C standard library function `fmod` over exact arithmetic: `a - b * n`
with `n` the quotient `a / b` truncated toward zero, so that the result has the
sign of `a`. -/
def fmod [FloorRing K] (a b : K) : K :=
  a - b * (((if 0 ≤ a / b then ⌊a / b⌋ else ⌈a / b⌉) : Int) : K)

/-- `Cloth::hash_position` of `cloth.cpp`. -/
def Cloth.hash_position [FloorRing K] (c : Cloth K) (pos : Vector3D K) : K :=
  let p : K := 223
  let w := (c.width / (c.num_width_points : K)) * 3
  let h := (c.height / (c.num_height_points : K)) * 3
  let t := max w h
  let x := pos.x - fmod pos.x w
  let y := pos.y - fmod pos.y h
  let z := pos.z - fmod pos.z t
  p * p * x + p * y + z

/-- The loop of `build_spatial_map` over the point masses from index `i` on. -/
def buildMapFrom (hash : Vector3D K → K) :
    List (PointMass K) → Nat → List (K × List Nat) → List (K × List Nat)
  | [], _, m => m
  | pm :: rest, i, m => buildMapFrom hash rest (i + 1) (mapPush m (hash pm.position) i)

/-- `Cloth::build_spatial_map` of `cloth.cpp`: the map is cleared, then every
point mass is pushed on the bucket of its position. -/
def Cloth.build_spatial_map [FloorRing K] (c : Cloth K) : Cloth K :=
  { c with map := buildMapFrom c.hash_position c.point_masses 0 [] }

/-- The body of the neighbour loop of `self_collide` for the point mass at
index `i` with position `pos`: `acc` is the pair `(correction, n)`, `j` the
index of `temp_pm`. -/
def selfCollideAcc (sqrt : K → K) (pms : List (PointMass K)) (thickness : K) (i : Nat)
    (pos : Vector3D K) (acc : Vector3D K × Nat) (j : Nat) : Vector3D K × Nat :=
  if j = i then acc
  else
    match pms[j]? with
    | none => acc
    | some temp_pm =>
      let dir := pos - temp_pm.position
      let dist := dir.norm sqrt
      if dist ≤ 2 * thickness then
        let overlap := 2 * thickness - dist
        (acc.1 + (dir.unit sqrt).smul overlap, acc.2 + 1)
      else acc

/-- `Cloth::self_collide` of `cloth.cpp` for the point mass at index `i`. -/
def Cloth.self_collide [FloorRing K] (sqrt : K → K) (c : Cloth K) (i : Nat) (simulation_steps : K) :
    Cloth K :=
  match c.point_masses[i]? with
  | none => c
  | some pm =>
    let bucket := c.hash_position pm.position
    match mapLookup c.map bucket with
    | none => c
    | some pms =>
      let acc := pms.foldl (selfCollideAcc sqrt c.point_masses c.thickness i pm.position)
        (Vector3D.zero, 0)
      if acc.2 > 0 then
        let new_pm : PointMass K :=
          { pm with position := pm.position + (acc.1.sdiv simulation_steps).sdiv (acc.2 : K) }
        { c with point_masses := c.point_masses.set i new_pm }
      else c

/-- The body of the spring-force loop of `simulate` (lines 126-146). -/
def springForceStep (sqrt : K → K) (cp : ClothParameters K) (pms : List (PointMass K))
    (s : Spring K) : List (PointMass K) :=
  if (s.spring_type = e_spring_type.STRUCTURAL ∧ cp.enable_structural_constraints = false) ∨
     (s.spring_type = e_spring_type.SHEARING ∧ cp.enable_shearing_constraints = false) ∨
     (s.spring_type = e_spring_type.BENDING ∧ cp.enable_bending_constraints = false) then pms
  else
    match pms[s.pm_a]?, pms[s.pm_b]? with
    | some pa, some pb =>
      let diff := pb.position - pa.position
      let normalized_diff := diff.unit sqrt
      let correction := cp.ks * (diff.norm sqrt - s.rest_length)
      let correction :=
        if s.spring_type = e_spring_type.BENDING then correction * (1 / 5) else correction
      let spring_force := normalized_diff.smul correction
      let pms1 := List.modify (fun pm => { pm with forces := pm.forces + spring_force })
        s.pm_a pms
      List.modify (fun pm => { pm with forces := pm.forces - spring_force }) s.pm_b pms1
    | _, _ => pms

/-- The body of the Verlet integration loop of `simulate` (lines 150-161). -/
def verletStep (cp : ClothParameters K) (mass delta_t : K) (pm : PointMass K) : PointMass K :=
  if pm.pinned = false then
    let acceleration := pm.forces.sdiv mass
    let new_position :=
      pm.position + (pm.position - pm.last_position).smul (1 - cp.damping / 100)
        + (acceleration.smul delta_t).smul delta_t
    { pm with last_position := pm.position, position := new_position }
  else pm

/-- The body of the length-constraint loop of `simulate` (lines 179-196). -/
def lengthConstraintStep (sqrt : K → K) (pms : List (PointMass K)) (s : Spring K) :
    List (PointMass K) :=
  match pms[s.pm_a]?, pms[s.pm_b]? with
  | some pa, some pb =>
    let pb_to_pa := pa.position - pb.position
    let distance := pb_to_pa.norm sqrt
    let maximum_deformation := s.rest_length * (11 / 10)
    if distance > maximum_deformation then
      let correction := (pb_to_pa.unit sqrt).smul (distance - maximum_deformation)
      if pa.pinned = true ∧ pb.pinned = false then
        List.modify (fun pm => { pm with position := pm.position + correction }) s.pm_b pms
      else if pa.pinned = false ∧ pb.pinned = true then
        List.modify (fun pm => { pm with position := pm.position - correction }) s.pm_a pms
      else if pa.pinned = false ∧ pb.pinned = false then
        let pms1 := List.modify
          (fun pm => { pm with position := pm.position - correction.smul (1 / 2) }) s.pm_a pms
        List.modify
          (fun pm => { pm with position := pm.position + correction.smul (1 / 2) }) s.pm_b pms1
      else pms
    else pms
  | _, _ => pms

/-- The self-collision loop of `simulate` (lines 165-167): `self_collide` on
every point mass in array order, each call seeing the positions the earlier
calls have written. -/
def Cloth.selfCollidePass [FloorRing K] (sqrt : K → K) (c : Cloth K) (simulation_steps : K) : Cloth K :=
  (List.range c.point_masses.length).foldl
    (fun c i => c.self_collide sqrt i simulation_steps) c

/-- `Cloth::simulate` of `cloth.cpp`, statement by statement. -/
def Cloth.simulate [FloorRing K] (sqrt : K → K) (c : Cloth K) (frames_per_sec simulation_steps : K)
    (cp : ClothParameters K) (external_accelerations : List (Vector3D K))
    (collision_objects : List (CollisionObject K)) : Cloth K :=
  let mass := c.width * c.height * cp.density / (c.num_width_points : K)
    / (c.num_height_points : K)
  let delta_t := 1 / frames_per_sec / simulation_steps
  -- sum all external forces
  let external_forces :=
    external_accelerations.foldl (fun f accel => f + accel.smul mass) Vector3D.zero
  -- reset all existing forces on point masses
  let pms1 := c.point_masses.map (fun pm =>
    { pm with forces := ⟨external_forces.x, external_forces.y, external_forces.z⟩ })
  -- spring correction forces
  let pms2 := c.springs.foldl (springForceStep sqrt cp) pms1
  -- Verlet integration
  let pms3 := pms2.map (verletStep cp mass delta_t)
  -- self-collisions
  let c4 := ({ c with point_masses := pms3 }).build_spatial_map
  let c5 := c4.selfCollidePass sqrt simulation_steps
  -- collisions with other primitives
  let pms6 := c5.point_masses.map (fun pm =>
    collision_objects.foldl (fun pm co => co.collide sqrt pm) pm)
  -- length constraint
  let pms7 := c5.springs.foldl (lengthConstraintStep sqrt) pms6
  { c5 with point_masses := pms7 }

/-- `Cloth::reset` of `cloth.cpp`. -/
def Cloth.reset (c : Cloth K) : Cloth K :=
  { c with point_masses := c.point_masses.map (fun pm =>
      { pm with position := pm.start_position, last_position := pm.start_position }) }

/-! ## The stages of a step, one function each -/

/-- The mass of one point mass, as computed at the start of `simulate`. -/
def Cloth.mass (c : Cloth K) (cp : ClothParameters K) : K :=
  c.width * c.height * cp.density / (c.num_width_points : K) / (c.num_height_points : K)

/-- The time step, as computed at the start of `simulate`. -/
def delta_t (frames_per_sec simulation_steps : K) : K :=
  1 / frames_per_sec / simulation_steps

/-- Force accumulation (lines 113-146 of `cloth.cpp`). -/
def Cloth.accumulateForces (sqrt : K → K) (c : Cloth K) (cp : ClothParameters K)
    (external_accelerations : List (Vector3D K)) : Cloth K :=
  let external_forces :=
    external_accelerations.foldl (fun f accel => f + accel.smul (c.mass cp)) Vector3D.zero
  let pms1 := c.point_masses.map (fun pm =>
    { pm with forces := ⟨external_forces.x, external_forces.y, external_forces.z⟩ })
  { c with point_masses := c.springs.foldl (springForceStep sqrt cp) pms1 }

/-- Verlet integration (lines 150-161 of `cloth.cpp`). -/
def Cloth.integrate (c : Cloth K) (cp : ClothParameters K)
    (frames_per_sec simulation_steps : K) : Cloth K :=
  { c with point_masses :=
      c.point_masses.map (verletStep cp (c.mass cp) (delta_t frames_per_sec simulation_steps)) }

/-- External collision resolution (lines 171-175 of `cloth.cpp`): every
collision object on every point mass. -/
def Cloth.externalCollide (sqrt : K → K) (c : Cloth K)
    (collision_objects : List (CollisionObject K)) : Cloth K :=
  { c with point_masses := c.point_masses.map (fun pm =>
      collision_objects.foldl (fun pm co => co.collide sqrt pm) pm) }

/-- Length-constraint correction (lines 179-196 of `cloth.cpp`) over every
spring in order. -/
def Cloth.lengthConstraint (sqrt : K → K) (c : Cloth K) : Cloth K :=
  { c with point_masses := c.springs.foldl (lengthConstraintStep sqrt) c.point_masses }

/-- The step as the specification words it: force accumulation, integration,
external collision, length-constraint correction, spatial-hash rebuild,
self-collision, in this order. -/
def Cloth.simulateSpecOrder [FloorRing K] (sqrt : K → K) (c : Cloth K) (frames_per_sec simulation_steps : K)
    (cp : ClothParameters K) (external_accelerations : List (Vector3D K))
    (collision_objects : List (CollisionObject K)) : Cloth K :=
  (((((c.accumulateForces sqrt cp external_accelerations).integrate cp frames_per_sec
    simulation_steps).externalCollide sqrt collision_objects).lengthConstraint
    sqrt).build_spatial_map).selfCollidePass sqrt simulation_steps

/-- The n-fold iteration of `simulate` with fixed arguments. -/
def Cloth.simulateN [FloorRing K] (sqrt : K → K) (frames_per_sec simulation_steps : K)
    (cp : ClothParameters K) (external_accelerations : List (Vector3D K))
    (collision_objects : List (CollisionObject K)) : Nat → Cloth K → Cloth K
  | 0, c => c
  | n + 1, c =>
    simulateN sqrt frames_per_sec simulation_steps cp external_accelerations collision_objects n
      (c.simulate sqrt frames_per_sec simulation_steps cp external_accelerations
        collision_objects)

/-! ## Topology construction -/

/-- The position read through a point-mass pointer; the zero vector stands for
a pointer outside the array. -/
def positionAt (pms : List (PointMass K)) (i : Nat) : Vector3D K :=
  match pms[i]? with
  | some pm => pm.position
  | none => Vector3D.zero

/-- Modelled from the spec: the constructor `Spring(a, b, type)` (declared in
a header that is not among the source files): the rest length is the distance
between the endpoints at construction. -/
def Spring.new (sqrt : K → K) (pms : List (PointMass K)) (a b : Nat) (t : e_spring_type) :
    Spring K :=
  { pm_a := a, pm_b := b, spring_type := t,
    rest_length := (positionAt pms a - positionAt pms b).norm sqrt }

/-- The body of the point-mass loop of `buildGrid` at grid coordinate `(x, y)`,
`rand_offset` being the perturbation drawn for this point. -/
def gridPointMass (c : Cloth K) (rand_offset : K) (x y : Nat) : PointMass K :=
  let pos : Vector3D K :=
    if c.orientation = e_orientation.VERTICAL then
      ⟨((x : K) * c.width) / (c.num_width_points : K),
       ((y : K) * c.height) / (c.num_height_points : K), rand_offset⟩
    else
      ⟨((x : K) * c.width) / (c.num_width_points : K), 1,
       ((y : K) * c.height) / (c.num_height_points : K)⟩
  let is_pinned := c.pinned.any (fun t => decide (t = [(x : Int), (y : Int)]))
  PointMass.new pos is_pinned

/-- The body of the spring loop of `buildGrid` at grid coordinate `(x, y)` of a
grid `W` points wide: the springs pushed, as (index of `pm`, index of the
other endpoint, type), the indices computed as the pointer arithmetic does. -/
def cellSprings (W : Int) (x y : Int) : List (Int × Int × e_spring_type) :=
  let idx := y * W + x
  (if x ≠ 0 then [(idx, idx - 1, e_spring_type.STRUCTURAL)] else []) ++
  (if y ≠ 0 then [(idx, idx - W, e_spring_type.STRUCTURAL)] else []) ++
  (if x > 0 ∧ y > 0 then [(idx, idx - W - 1, e_spring_type.SHEARING)] else []) ++
  (if x < W - 1 ∧ y > 0 then [(idx, idx - W + 1, e_spring_type.SHEARING)] else []) ++
  (if y > 1 then [(idx, idx - 2 * W, e_spring_type.BENDING)] else []) ++
  (if x < W - 2 then [(idx, idx + 2, e_spring_type.BENDING)] else [])

/-- The spring loop of `buildGrid` (lines 64-102 of `cloth.cpp`): all springs
in the order they are pushed. -/
def gridSprings (W H : Int) : List (Int × Int × e_spring_type) :=
  (List.range H.toNat).flatMap (fun y =>
    (List.range W.toNat).flatMap (fun x => cellSprings W (x : Int) (y : Int)))

/-- `Cloth::buildGrid` of `cloth.cpp`.  `rand_offset k` is the perturbation of
the k-th point mass built (the source draws it with `rand()`, between 0 and
0.001). -/
def Cloth.buildGrid (sqrt : K → K) (rand_offset : Nat → K) (c : Cloth K) : Cloth K :=
  let W := c.num_width_points.toNat
  let pms := c.point_masses ++
    (List.range c.num_height_points.toNat).flatMap (fun y =>
      (List.range W).map (fun x => gridPointMass c (rand_offset (y * W + x)) x y))
  let springs := c.springs ++
    (gridSprings c.num_width_points c.num_height_points).map (fun s =>
      Spring.new sqrt pms s.1.toNat s.2.1.toNat s.2.2)
  { c with point_masses := pms, springs := springs }

/-! ## Notions used to state the properties -/

/-- The signed distance of `v` to the plane along its normal, the quantity
`Plane::collide` computes as `dist_to_last` and `dist_to_cur`. -/
def Plane.signedDistance (p : Plane K) (v : Vector3D K) : K :=
  Vector3D.dot p.normal (v - p.point)

/-- The distance between the positions of two point masses. -/
def distance (sqrt : K → K) (a b : Vector3D K) : K := (a - b).norm sqrt

/-! ## Concrete inputs of the examples -/

/-- Inputs of the plane example: the plane `z = 0` with normal `(0, 0, 1)` and
no friction. -/
def exPlane : Plane K := ⟨⟨0, 0, 0⟩, ⟨0, 0, 1⟩, 0⟩

/-- A point mass that moved from `(0, 0, 1)` to `(0, 0, -1)`. -/
def exCrossing : PointMass K := ⟨⟨0, 0, -1⟩, ⟨0, 0, 1⟩, ⟨0, 0, 1⟩, ⟨0, 0, 0⟩, false⟩

/-- Two free point masses at `(0,0,0)` and `(1,0,0)`, at rest, joined by one
structural spring of rest length 1; thickness 1, a 1 x 1 grid of size 1 x 1. -/
def exTwo : Cloth K :=
  { width := 1, height := 1, num_width_points := 1, num_height_points := 1, thickness := 1
    orientation := e_orientation.VERTICAL, pinned := []
    point_masses := [PointMass.new ⟨0, 0, 0⟩ false, PointMass.new ⟨1, 0, 0⟩ false]
    springs := [⟨0, 1, e_spring_type.STRUCTURAL, 1⟩]
    map := [] }

/-- Parameters of the examples: every spring type enabled, no damping, density
1, stiffness 0. -/
def exParams : ClothParameters K := ⟨true, true, true, 0, 1, 0⟩

/-- The cloth object of the pinned example before `buildGrid`: width and
height 1, two points wide and one high, thickness 0.5, vertical, the corner
`(0, 0)` in the pin list. -/
def exPinnedSetup : Cloth K :=
  { width := 1, height := 1, num_width_points := 2, num_height_points := 1
    thickness := 1 / 2
    orientation := e_orientation.VERTICAL, pinned := [[0, 0]]
    point_masses := [], springs := [], map := [] }

/-- The cloth `buildGrid` makes of `exPinnedSetup` without perturbation: a pinned
point mass at `(0,0,0)`, a free one at `(0.5,0,0)`, one structural spring of
rest length 0.5 from the second to the first. -/
def exPinned : Cloth K :=
  { width := 1, height := 1, num_width_points := 2, num_height_points := 1
    thickness := 1 / 2
    orientation := e_orientation.VERTICAL, pinned := [[0, 0]]
    point_masses := [PointMass.new ⟨0, 0, 0⟩ true, PointMass.new ⟨1 / 2, 0, 0⟩ false]
    springs := [⟨1, 0, e_spring_type.STRUCTURAL, 1 / 2⟩]
    map := [] }

/-- The stretch bound of a spring in a list of point masses: its endpoints are
at most `1.1 * rest_length` apart. -/
def stretchBound (sqrt : K → K) (pms : List (PointMass K)) (s : Spring K) : Prop :=
  distance sqrt (positionAt pms s.pm_a) (positionAt pms s.pm_b) ≤ s.rest_length * (11 / 10)

/-- Three free point masses on a line at x = 0, 1, 4 and two springs of rest
length 1, between the first two and between the last two. -/
def exChain : Cloth K :=
  { width := 1, height := 1, num_width_points := 1, num_height_points := 1, thickness := 1
    orientation := e_orientation.VERTICAL, pinned := []
    point_masses := [PointMass.new ⟨0, 0, 0⟩ false, PointMass.new ⟨1, 0, 0⟩ false,
      PointMass.new ⟨4, 0, 0⟩ false]
    springs := [⟨0, 1, e_spring_type.STRUCTURAL, 1⟩, ⟨1, 2, e_spring_type.STRUCTURAL, 1⟩]
    map := [] }

/-- The indices, counted from `i`, of the point masses whose position has the
cell key `key`, in array order. -/
def bucketFrom (hash : Vector3D K → K) : List (PointMass K) → Nat → K → List Nat
  | [], _, _ => []
  | pm :: rest, i, key =>
    if hash pm.position = key then i :: bucketFrom hash rest (i + 1) key
    else bucketFrom hash rest (i + 1) key

/-- The position `self_collide` gives a point mass at `p` whose only other
bucket member is at `q`: moved away from `q` by `(2 * thickness - dist) /
simulation_steps` when `dist <= 2 * thickness`. -/
def pushApart (sqrt : K → K) (thickness simulation_steps : K) (p q : Vector3D K) :
    Vector3D K :=
  if (p - q).norm sqrt ≤ 2 * thickness then
    p + ((p - q).unit sqrt).smul ((2 * thickness - (p - q).norm sqrt) / simulation_steps)
  else p

/-- The distance after `pushApart` as a function of the distance before. -/
def pushedDistance (thickness simulation_steps n : K) : K :=
  if n ≤ 2 * thickness then n + (2 * thickness - n) / simulation_steps else n

/-- Three free point masses on a line, in array order at x = 1, 0, 4, no
spring; thickness 1 and a 10 x 10 cloth on a 1 x 1 grid, so that one hash
cell holds all three. -/
def exThree : Cloth K :=
  { width := 10, height := 10, num_width_points := 1, num_height_points := 1, thickness := 1
    orientation := e_orientation.VERTICAL, pinned := []
    point_masses := [PointMass.new ⟨1, 0, 0⟩ false, PointMass.new ⟨0, 0, 0⟩ false,
      PointMass.new ⟨4, 0, 0⟩ false]
    springs := []
    map := [] }

/-- The spring set of the specification for a `W x H` grid: the spring from
index `a` to index `b` of type `ty` is one of the six listed for the grid point
`(x, y)` with `a = y * W + x`. -/
def isGridSpring (W H : Int) (a b : Int) (ty : e_spring_type) : Prop :=
  ∃ x y : Int, 0 ≤ x ∧ x < W ∧ 0 ≤ y ∧ y < H ∧ a = y * W + x ∧
    ((ty = e_spring_type.STRUCTURAL ∧ b = a - 1 ∧ x > 0) ∨
     (ty = e_spring_type.STRUCTURAL ∧ b = a - W ∧ y > 0) ∨
     (ty = e_spring_type.SHEARING ∧ b = a - W - 1 ∧ x > 0 ∧ y > 0) ∨
     (ty = e_spring_type.SHEARING ∧ b = a - W + 1 ∧ x < W - 1 ∧ y > 0) ∨
     (ty = e_spring_type.BENDING ∧ b = a - 2 * W ∧ y > 1) ∨
     (ty = e_spring_type.BENDING ∧ b = a + 2 ∧ x < W - 2))

/-- The grid offsets `(dx, dy)` a spring of each type is meant to span. -/
def intendedOffset : e_spring_type → Int → Int → Prop
  | e_spring_type.STRUCTURAL, dx, dy => (dx = -1 ∧ dy = 0) ∨ (dx = 0 ∧ dy = -1)
  | e_spring_type.SHEARING, dx, dy => (dx = -1 ∧ dy = -1) ∨ (dx = 1 ∧ dy = -1)
  | e_spring_type.BENDING, dx, dy => (dx = 0 ∧ dy = -2) ∨ (dx = 2 ∧ dy = 0)

/-- The cloth object of the 2 x 2 scenario before `buildGrid`: width and height
1, two by two points, vertical, the given thickness and pin list, no point
mass and no spring yet. -/
def grid22 (thickness : K) (pinned : List (List Int)) : Cloth K :=
  { width := 1, height := 1, num_width_points := 2, num_height_points := 2
    thickness := thickness
    orientation := e_orientation.VERTICAL, pinned := pinned
    point_masses := [], springs := [], map := [] }

/-- The plane `z = 0` with normal `(0, 0, 1)` and friction 0.5. -/
def exPlaneHalf : Plane K := ⟨⟨0, 0, 0⟩, ⟨0, 0, 1⟩, 1 / 2⟩

/-- The integration of one point mass as the specification words it, with
`mass = width * height * density / (num_width_points * num_height_points)` and
`dt = 1 / (frames_per_sec * simulation_steps)`. -/
def verletSpec (c : Cloth K) (cp : ClothParameters K) (frames_per_sec simulation_steps : K)
    (pm : PointMass K) : PointMass K :=
  let mass := c.width * c.height * cp.density
    / ((c.num_width_points : K) * (c.num_height_points : K))
  let dt := 1 / (frames_per_sec * simulation_steps)
  if pm.pinned = true then pm
  else
    { pm with
      position := pm.position + (pm.position - pm.last_position).smul (1 - cp.damping / 100)
        + (pm.forces.sdiv mass).smul (dt ^ 2)
      last_position := pm.position }

/-- The quotient `a / b` truncated toward zero, the integer `fmod` removes. -/
def truncQuot [FloorRing K] (a b : K) : Int := if 0 ≤ a / b then ⌊a / b⌋ else ⌈a / b⌉

/-- The truncated coordinate `coord - fmod(coord, cell)` of `hash_position`. -/
def truncCoord [FloorRing K] (coord cell : K) : K := coord - fmod coord cell

/-- The sum of a list of vectors, by components. -/
def sumVectors (vs : List (Vector3D K)) : Vector3D K :=
  ⟨(vs.map (fun v => v.x)).sum, (vs.map (fun v => v.y)).sum, (vs.map (fun v => v.z)).sum⟩

/-- The sum of the forces of all point masses. -/
def sumForces (pms : List (PointMass K)) : Vector3D K :=
  sumVectors (pms.map (fun pm => pm.forces))

/-- The part of a point mass fixed at construction: start position and pinned
flag. -/
def PointMass.static (pm : PointMass K) : Vector3D K × Bool := (pm.start_position, pm.pinned)

/-- The start position read through a point-mass pointer; the zero vector
stands for a pointer outside the array. -/
def startPositionAt (pms : List (PointMass K)) (i : Nat) : Vector3D K :=
  match pms[i]? with
  | some pm => pm.start_position
  | none => Vector3D.zero

/-- The positions of the close neighbours as `self_collide` tests them: the
other members of the bucket `b` at distance at most `2 * thickness` of `pos`. -/
def closeNeighbours (sqrt : K → K) (pms : List (PointMass K)) (thickness : K) (i : Nat)
    (pos : Vector3D K) (b : List Nat) : List (Vector3D K) :=
  b.filterMap (fun j =>
    if j = i then none
    else
      match pms[j]? with
      | none => none
      | some q =>
        if (pos - q.position).norm sqrt ≤ 2 * thickness then some q.position else none)

/-- The sum of the push-apart corrections `(2 * thickness - |pos - q|) *
unit(pos - q)` over the positions `q` of a list, added to `acc`. -/
def pushSum (sqrt : K → K) (thickness : K) (pos : Vector3D K) (acc : Vector3D K)
    (qs : List (Vector3D K)) : Vector3D K :=
  qs.foldl (fun acc q =>
    acc + ((pos - q).unit sqrt).smul (2 * thickness - (pos - q).norm sqrt)) acc

/-- The cloth object of the row example before `buildGrid`: width 3, height 1,
three points wide and one high, thickness 1, vertical, nothing pinned. -/
def exRowSetup : Cloth K :=
  { width := 3, height := 1, num_width_points := 3, num_height_points := 1
    thickness := 1
    orientation := e_orientation.VERTICAL, pinned := []
    point_masses := [], springs := [], map := [] }

/-- The cloth `buildGrid` makes of `exRowSetup` without perturbation: free point
masses at x = 0, 1, 2 on a line, with the three springs of a 3 x 1 grid. -/
def exRow : Cloth K :=
  { width := 3, height := 1, num_width_points := 3, num_height_points := 1
    thickness := 1
    orientation := e_orientation.VERTICAL, pinned := []
    point_masses := [PointMass.new ⟨0, 0, 0⟩ false, PointMass.new ⟨1, 0, 0⟩ false,
      PointMass.new ⟨2, 0, 0⟩ false]
    springs := [⟨0, 2, e_spring_type.BENDING, 2⟩, ⟨1, 0, e_spring_type.STRUCTURAL, 1⟩,
      ⟨2, 1, e_spring_type.STRUCTURAL, 1⟩]
    map := [] }

/-- The self-collision pass as the specification words it: the new entry of
every point mass is computed by `self_collide` from the cloth as it was when
the pass started. -/
def Cloth.selfCollidePassSnapshot [FloorRing K] (sqrt : K → K) (c : Cloth K)
    (simulation_steps : K) : Cloth K :=
  { c with point_masses := c.point_masses.mapIdx (fun i pm =>
      ((c.self_collide sqrt i simulation_steps).point_masses[i]?).getD pm) }

/-- The self-collision loop run over the point masses in a given order of
indices, each call seeing the positions the earlier calls have written. -/
def Cloth.selfCollideInOrder [FloorRing K] (sqrt : K → K) (c : Cloth K)
    (simulation_steps : K) (order : List Nat) : Cloth K :=
  order.foldl (fun c i => c.self_collide sqrt i simulation_steps) c

/-! ## The step with normalisation as a partial operation -/

/-- `a.unit()` as a partial operation: no result for a vector of length 0,
where the source divides by zero. -/
def Vector3D.unitChecked (sqrt : K → K) (a : Vector3D K) : Option (Vector3D K) :=
  if a.norm sqrt = 0 then none else some (a.unit sqrt)

/-- The body of the spring-force loop of `simulate` (lines 126-146) with
partial normalisation: `none` when it normalises a vector of length 0. -/
def springForceStepChecked (sqrt : K → K) (cp : ClothParameters K) (pms : List (PointMass K))
    (s : Spring K) : Option (List (PointMass K)) :=
  if (s.spring_type = e_spring_type.STRUCTURAL ∧ cp.enable_structural_constraints = false) ∨
     (s.spring_type = e_spring_type.SHEARING ∧ cp.enable_shearing_constraints = false) ∨
     (s.spring_type = e_spring_type.BENDING ∧ cp.enable_bending_constraints = false) then
    some pms
  else
    match pms[s.pm_a]?, pms[s.pm_b]? with
    | some pa, some pb =>
      let diff := pb.position - pa.position
      match diff.unitChecked sqrt with
      | none => none
      | some normalized_diff =>
        let correction := cp.ks * (diff.norm sqrt - s.rest_length)
        let correction :=
          if s.spring_type = e_spring_type.BENDING then correction * (1 / 5) else correction
        let spring_force := normalized_diff.smul correction
        let pms1 := List.modify (fun pm => { pm with forces := pm.forces + spring_force })
          s.pm_a pms
        some (List.modify (fun pm => { pm with forces := pm.forces - spring_force }) s.pm_b pms1)
    | _, _ => some pms

/-- The body of the neighbour loop of `self_collide` with partial
normalisation. -/
def selfCollideAccChecked (sqrt : K → K) (pms : List (PointMass K)) (thickness : K) (i : Nat)
    (pos : Vector3D K) (acc : Vector3D K × Nat) (j : Nat) : Option (Vector3D K × Nat) :=
  if j = i then some acc
  else
    match pms[j]? with
    | none => some acc
    | some temp_pm =>
      let dir := pos - temp_pm.position
      let dist := dir.norm sqrt
      if dist ≤ 2 * thickness then
        let overlap := 2 * thickness - dist
        match dir.unitChecked sqrt with
        | none => none
        | some u => some (acc.1 + u.smul overlap, acc.2 + 1)
      else some acc

/-- `Cloth::self_collide` with partial normalisation. -/
def Cloth.self_collide_checked [FloorRing K] (sqrt : K → K) (c : Cloth K) (i : Nat)
    (simulation_steps : K) : Option (Cloth K) :=
  match c.point_masses[i]? with
  | none => some c
  | some pm =>
    let bucket := c.hash_position pm.position
    match mapLookup c.map bucket with
    | none => some c
    | some pms =>
      match pms.foldlM (selfCollideAccChecked sqrt c.point_masses c.thickness i pm.position)
          (Vector3D.zero, 0) with
      | none => none
      | some acc =>
        if acc.2 > 0 then
          let new_pm : PointMass K :=
            { pm with position := pm.position + (acc.1.sdiv simulation_steps).sdiv (acc.2 : K) }
          some { c with point_masses := c.point_masses.set i new_pm }
        else some c

/-- The body of the length-constraint loop of `simulate` (lines 179-196) with
partial normalisation. -/
def lengthConstraintStepChecked (sqrt : K → K) (pms : List (PointMass K)) (s : Spring K) :
    Option (List (PointMass K)) :=
  match pms[s.pm_a]?, pms[s.pm_b]? with
  | some pa, some pb =>
    let pb_to_pa := pa.position - pb.position
    let distance := pb_to_pa.norm sqrt
    let maximum_deformation := s.rest_length * (11 / 10)
    if distance > maximum_deformation then
      match pb_to_pa.unitChecked sqrt with
      | none => none
      | some u =>
        let correction := u.smul (distance - maximum_deformation)
        if pa.pinned = true ∧ pb.pinned = false then
          some (List.modify (fun pm => { pm with position := pm.position + correction })
            s.pm_b pms)
        else if pa.pinned = false ∧ pb.pinned = true then
          some (List.modify (fun pm => { pm with position := pm.position - correction })
            s.pm_a pms)
        else if pa.pinned = false ∧ pb.pinned = false then
          let pms1 := List.modify
            (fun pm => { pm with position := pm.position - correction.smul (1 / 2) }) s.pm_a pms
          some (List.modify
            (fun pm => { pm with position := pm.position + correction.smul (1 / 2) }) s.pm_b pms1)
        else some pms
    else some pms
  | _, _ => some pms

/-- `Sphere::collide` with partial normalisation. -/
def Sphere.collideChecked (sqrt : K → K) (s : Sphere K) (pm : PointMass K) :
    Option (PointMass K) :=
  if (pm.position - s.origin).norm sqrt < s.radius then
    match (pm.position - s.origin).unitChecked sqrt with
    | none => none
    | some u =>
      let tangent := u.smul s.radius + s.origin
      let new_position := (tangent - pm.last_position).smul (1 - s.friction) + pm.last_position
      some { pm with position := new_position }
  else some pm

/-- The virtual call `co->collide(pm)` with partial normalisation
(`Plane::collide` normalises nothing). -/
def CollisionObject.collideChecked (sqrt : K → K) :
    CollisionObject K → PointMass K → Option (PointMass K)
  | .plane p, pm => some (p.collide pm)
  | .sphere s, pm => s.collideChecked sqrt pm

/-- `Cloth::simulate` with partial normalisation: `none` when some loop
normalises a vector of length 0. -/
def Cloth.simulateChecked [FloorRing K] (sqrt : K → K) (c : Cloth K)
    (frames_per_sec simulation_steps : K)
    (cp : ClothParameters K) (external_accelerations : List (Vector3D K))
    (collision_objects : List (CollisionObject K)) : Option (Cloth K) := do
  let mass := c.width * c.height * cp.density / (c.num_width_points : K)
    / (c.num_height_points : K)
  let delta_t := 1 / frames_per_sec / simulation_steps
  let external_forces :=
    external_accelerations.foldl (fun f accel => f + accel.smul mass) Vector3D.zero
  let pms1 := c.point_masses.map (fun pm =>
    { pm with forces := ⟨external_forces.x, external_forces.y, external_forces.z⟩ })
  let pms2 ← c.springs.foldlM (springForceStepChecked sqrt cp) pms1
  let pms3 := pms2.map (verletStep cp mass delta_t)
  let c4 := ({ c with point_masses := pms3 }).build_spatial_map
  let c5 ← (List.range c4.point_masses.length).foldlM
    (fun c i => c.self_collide_checked sqrt i simulation_steps) c4
  let pms6 ← c5.point_masses.mapM (fun pm =>
    collision_objects.foldlM (fun pm co => co.collideChecked sqrt pm) pm)
  let pms7 ← c5.springs.foldlM (lengthConstraintStepChecked sqrt) pms6
  pure { c5 with point_masses := pms7 }

/-- A 2 x 1 grid of size 2 x 1 whose two free point masses have come to the
same position `(0,0,0)`, with the structural spring of rest length 1 that
`buildGrid` makes for it; thickness 1. -/
def exCoincident : Cloth K :=
  { width := 2, height := 1, num_width_points := 2, num_height_points := 1, thickness := 1
    orientation := e_orientation.VERTICAL, pinned := []
    point_masses := [PointMass.new ⟨0, 0, 0⟩ false, PointMass.new ⟨0, 0, 0⟩ false]
    springs := [⟨1, 0, e_spring_type.STRUCTURAL, 1⟩]
    map := [] }

/-- Parameters with every spring type disabled: no damping, density 1,
stiffness 0. -/
def exParamsOff : ClothParameters K := ⟨false, false, false, 0, 1, 0⟩

/-! ## Where a step normalises a vector of length 0 -/

/-- The test of the spring-force loop that lets a spring through: its type is
not disabled in the parameters (the negation of the `continue` test). -/
def springEnabled (cp : ClothParameters K) (s : Spring K) : Prop :=
  ¬ ((s.spring_type = e_spring_type.STRUCTURAL ∧ cp.enable_structural_constraints = false) ∨
     (s.spring_type = e_spring_type.SHEARING ∧ cp.enable_shearing_constraints = false) ∨
     (s.spring_type = e_spring_type.BENDING ∧ cp.enable_bending_constraints = false))

/-- Force accumulation (lines 113-146 of `cloth.cpp`) with partial
normalisation. -/
def Cloth.accumulateForcesChecked (sqrt : K → K) (c : Cloth K) (cp : ClothParameters K)
    (external_accelerations : List (Vector3D K)) : Option (Cloth K) :=
  let external_forces :=
    external_accelerations.foldl (fun f accel => f + accel.smul (c.mass cp)) Vector3D.zero
  let pms1 := c.point_masses.map (fun pm =>
    { pm with forces := ⟨external_forces.x, external_forces.y, external_forces.z⟩ })
  match c.springs.foldlM (springForceStepChecked sqrt cp) pms1 with
  | none => none
  | some pms => some { c with point_masses := pms }

/-- The spring-force loop over `springs` meets a separation of length 0: an
enabled spring has both endpoints in the array `pms` and the vector between
their positions has length 0. -/
def springLoopFails (sqrt : K → K) (cp : ClothParameters K) (pms : List (PointMass K))
    (springs : List (Spring K)) : Prop :=
  ∃ s ∈ springs, springEnabled cp s ∧ s.pm_a < pms.length ∧ s.pm_b < pms.length ∧
    (positionAt pms s.pm_b - positionAt pms s.pm_a).norm sqrt = 0

/-- The self-collision pass on the cloth `c` meets a separation of length 0:
when the pass reaches some point mass `i`, a member `j` of its bucket other
than `i` itself is at separation 0 from it, the thickness not being negative. -/
def selfCollideFails [FloorRing K] (sqrt : K → K) (c : Cloth K) (simulation_steps : K) : Prop :=
  ∃ i pm b j, i < c.point_masses.length ∧
    (c.selfCollideInOrder sqrt simulation_steps (List.range i)).point_masses[i]? = some pm ∧
    mapLookup c.map (c.hash_position pm.position) = some b ∧ j ∈ b ∧ j ≠ i ∧
    j < c.point_masses.length ∧
    (pm.position - positionAt
      (c.selfCollideInOrder sqrt simulation_steps (List.range i)).point_masses j).norm sqrt = 0 ∧
    0 ≤ 2 * c.thickness

/-- The collision loop meets a separation of length 0: some point mass of
`pms`, after the collision objects before a sphere of positive radius have
handled it, is at separation 0 from the centre of that sphere. -/
def collideFails (sqrt : K → K) (collision_objects : List (CollisionObject K))
    (pms : List (PointMass K)) : Prop :=
  ∃ pm ∈ pms, ∃ pre s post, collision_objects = pre ++ CollisionObject.sphere s :: post ∧
    ((pre.foldl (fun pm co => co.collide sqrt pm) pm).position - s.origin).norm sqrt = 0 ∧
    0 < s.radius

/-- The length-constraint loop over `springs` meets a separation of length 0:
when the loop reaches some spring, its endpoints (both in the array) are at
separation 0 and this is more than 1.1 times the rest length. -/
def lengthLoopFails (sqrt : K → K) (pms : List (PointMass K)) (springs : List (Spring K)) :
    Prop :=
  ∃ pre s post, springs = pre ++ s :: post ∧ s.pm_a < pms.length ∧ s.pm_b < pms.length ∧
    (positionAt (pre.foldl (lengthConstraintStep sqrt) pms) s.pm_a
      - positionAt (pre.foldl (lengthConstraintStep sqrt) pms) s.pm_b).norm sqrt = 0 ∧
    s.rest_length * (11 / 10) < 0

/-- A step meets a separation of length 0 in one of its loops: in the
spring-force loop on the positions at entry, in the self-collision pass on the
cloth after integration and hash rebuild, in the collision loop on the point
masses after the pass, or in the length-constraint loop on the point masses
after the collisions. -/
def Cloth.stepFails [FloorRing K] (sqrt : K → K) (c : Cloth K)
    (frames_per_sec simulation_steps : K) (cp : ClothParameters K)
    (external_accelerations : List (Vector3D K))
    (collision_objects : List (CollisionObject K)) : Prop :=
  springLoopFails sqrt cp c.point_masses c.springs
  ∨ selfCollideFails sqrt
      (((c.accumulateForces sqrt cp external_accelerations).integrate cp frames_per_sec
        simulation_steps).build_spatial_map) simulation_steps
  ∨ collideFails sqrt collision_objects
      ((((c.accumulateForces sqrt cp external_accelerations).integrate cp frames_per_sec
        simulation_steps).build_spatial_map).selfCollidePass sqrt simulation_steps).point_masses
  ∨ lengthLoopFails sqrt
      (((((c.accumulateForces sqrt cp external_accelerations).integrate cp frames_per_sec
        simulation_steps).build_spatial_map).selfCollidePass sqrt
        simulation_steps).externalCollide sqrt collision_objects).point_masses c.springs

/-- The correction of spring `t` in the state `pms` moves neither endpoint of
spring `s`: the positions of `s.pm_a` and `s.pm_b` are the same after it. -/
def leavesEndpoints (sqrt : K → K) (pms : List (PointMass K)) (t s : Spring K) : Prop :=
  positionAt (lengthConstraintStep sqrt pms t) s.pm_a = positionAt pms s.pm_a ∧
  positionAt (lengthConstraintStep sqrt pms t) s.pm_b = positionAt pms s.pm_b

/-- The row example after its middle point mass has moved from x = 1 to
x = 2, onto the third one. -/
def exRowPulled : Cloth K :=
  { width := 3, height := 1, num_width_points := 3, num_height_points := 1
    thickness := 1
    orientation := e_orientation.VERTICAL, pinned := []
    point_masses := [PointMass.new ⟨0, 0, 0⟩ false,
      ⟨⟨2, 0, 0⟩, ⟨1, 0, 0⟩, ⟨1, 0, 0⟩, ⟨0, 0, 0⟩, false⟩,
      PointMass.new ⟨2, 0, 0⟩ false]
    springs := [⟨0, 2, e_spring_type.BENDING, 2⟩, ⟨1, 0, e_spring_type.STRUCTURAL, 1⟩,
      ⟨2, 1, e_spring_type.STRUCTURAL, 1⟩]
    map := [] }

/-- Two pinned point masses 2 apart, joined by a structural spring of rest
length 1. -/
def exPinnedPair : Cloth K :=
  { width := 2, height := 1, num_width_points := 2, num_height_points := 1, thickness := 1
    orientation := e_orientation.VERTICAL, pinned := [[0, 0], [1, 0]]
    point_masses := [PointMass.new ⟨0, 0, 0⟩ true,
      ⟨⟨2, 0, 0⟩, ⟨1, 0, 0⟩, ⟨1, 0, 0⟩, ⟨0, 0, 0⟩, true⟩]
    springs := [⟨1, 0, e_spring_type.STRUCTURAL, 1⟩]
    map := [] }

/-! ## Basic lemmas -/

namespace Vector3D
@[simp] theorem add_x (a b : Vector3D K) : (a + b).x = a.x + b.x := rfl
@[simp] theorem add_y (a b : Vector3D K) : (a + b).y = a.y + b.y := rfl
@[simp] theorem add_z (a b : Vector3D K) : (a + b).z = a.z + b.z := rfl
@[simp] theorem sub_x (a b : Vector3D K) : (a - b).x = a.x - b.x := rfl
@[simp] theorem sub_y (a b : Vector3D K) : (a - b).y = a.y - b.y := rfl
@[simp] theorem sub_z (a b : Vector3D K) : (a - b).z = a.z - b.z := rfl
@[simp] theorem smul_x (a : Vector3D K) (c : K) : (a.smul c).x = c * a.x := rfl
@[simp] theorem smul_y (a : Vector3D K) (c : K) : (a.smul c).y = c * a.y := rfl
@[simp] theorem smul_z (a : Vector3D K) (c : K) : (a.smul c).z = c * a.z := rfl
@[simp] theorem sdiv_x (a : Vector3D K) (c : K) : (a.sdiv c).x = a.x / c := rfl
@[simp] theorem sdiv_y (a : Vector3D K) (c : K) : (a.sdiv c).y = a.y / c := rfl
@[simp] theorem sdiv_z (a : Vector3D K) (c : K) : (a.sdiv c).z = a.z / c := rfl
@[simp] theorem zero_x : (zero : Vector3D K).x = 0 := rfl
@[simp] theorem zero_y : (zero : Vector3D K).y = 0 := rfl
@[simp] theorem zero_z : (zero : Vector3D K).z = 0 := rfl
@[simp] theorem unit_x (sqrt : K → K) (a : Vector3D K) : (a.unit sqrt).x = 1 / a.norm sqrt * a.x := rfl
@[simp] theorem unit_y (sqrt : K → K) (a : Vector3D K) : (a.unit sqrt).y = 1 / a.norm sqrt * a.y := rfl
@[simp] theorem unit_z (sqrt : K → K) (a : Vector3D K) : (a.unit sqrt).z = 1 / a.norm sqrt * a.z := rfl

theorem norm2_nonneg (a : Vector3D K) : 0 ≤ a.norm2 := by
  unfold norm2; nlinarith [mul_self_nonneg a.x, mul_self_nonneg a.y, mul_self_nonneg a.z]

theorem norm_nonneg (a : Vector3D ℝ) : 0 ≤ a.norm Real.sqrt := Real.sqrt_nonneg _

theorem norm_mul_self (a : Vector3D ℝ) : a.norm Real.sqrt * a.norm Real.sqrt = a.norm2 :=
  Real.mul_self_sqrt (norm2_nonneg a)

theorem norm2_smul (a : Vector3D K) (c : K) : (a.smul c).norm2 = c * c * a.norm2 := by
  simp only [norm2, smul_x, smul_y, smul_z]; ring

theorem norm_smul_of_nonneg (a : Vector3D ℝ) {c : ℝ} (hc : 0 ≤ c) :
    (a.smul c).norm Real.sqrt = c * a.norm Real.sqrt := by
  unfold norm
  rw [norm2_smul, Real.sqrt_mul (mul_self_nonneg c), Real.sqrt_mul_self hc]

theorem norm_unit (a : Vector3D ℝ) (h : 0 < a.norm Real.sqrt) :
    (a.unit Real.sqrt).norm Real.sqrt = 1 := by
  have hu : a.unit Real.sqrt = a.smul (1 / a.norm Real.sqrt) := rfl
  rw [hu, norm_smul_of_nonneg a (by positivity)]
  field_simp

end Vector3D

/-! ## Collision primitives -/

/-- C4: a point mass strictly inside a sphere of positive radius and zero
friction, not at the origin of the sphere, is moved by `Sphere::collide` to
`origin + radius * (p - origin) / |p - origin|`, which is at distance exactly
`radius` from the origin; `last_position` is not changed. -/
theorem sphere_collide_zero_friction (s : Sphere ℝ) (pm : PointMass ℝ)
    (hr : 0 < s.radius) (hf : s.friction = 0)
    (h0 : 0 < (pm.position - s.origin).norm Real.sqrt)
    (h1 : (pm.position - s.origin).norm Real.sqrt < s.radius) :
    (s.collide Real.sqrt pm).position
        = s.origin + ((pm.position - s.origin).sdiv
            ((pm.position - s.origin).norm Real.sqrt)).smul s.radius
      ∧ ((s.collide Real.sqrt pm).position - s.origin).norm Real.sqrt = s.radius
      ∧ (s.collide Real.sqrt pm).last_position = pm.last_position := by
  have hpos : (s.collide Real.sqrt pm).position
      = ((pm.position - s.origin).unit Real.sqrt).smul s.radius + s.origin := by
    unfold Sphere.collide
    rw [if_pos h1]
    ext <;> simp [hf]
  refine ⟨?_, ?_, ?_⟩
  · rw [hpos]; ext <;> simp <;> ring
  · rw [hpos]
    have : ((pm.position - s.origin).unit Real.sqrt).smul s.radius + s.origin - s.origin
        = ((pm.position - s.origin).unit Real.sqrt).smul s.radius := by
      ext <;> simp
    rw [this, Vector3D.norm_smul_of_nonneg _ hr.le, Vector3D.norm_unit _ h0, mul_one]
  · unfold Sphere.collide
    rw [if_pos h1]

/-- Witness of C4: the sphere of radius 2 at the origin and a point mass at
`(1, 0, 0)`. -/
theorem sphere_collide_zero_friction_witness :
    ((⟨⟨0, 0, 0⟩, 2, 0⟩ : Sphere ℝ).collide Real.sqrt
        ⟨⟨1, 0, 0⟩, ⟨5, 5, 5⟩, ⟨1, 0, 0⟩, ⟨0, 0, 0⟩, false⟩).position
      = (⟨0, 0, 0⟩ : Vector3D ℝ) + (((⟨1, 0, 0⟩ : Vector3D ℝ) - ⟨0, 0, 0⟩).sdiv
            (((⟨1, 0, 0⟩ : Vector3D ℝ) - ⟨0, 0, 0⟩).norm Real.sqrt)).smul 2 := by
  have hn : ((⟨1, 0, 0⟩ : Vector3D ℝ) - ⟨0, 0, 0⟩).norm Real.sqrt = 1 := by
    simp [Vector3D.norm, Vector3D.norm2]
  exact (sphere_collide_zero_friction ⟨⟨0, 0, 0⟩, 2, 0⟩
    ⟨⟨1, 0, 0⟩, ⟨5, 5, 5⟩, ⟨1, 0, 0⟩, ⟨0, 0, 0⟩, false⟩ (by norm_num) rfl
    (by rw [hn]; norm_num) (by rw [hn]; norm_num)).1

/-- The position `Plane::collide` writes on a crossing. -/
theorem plane_collide_position (p : Plane K) (pm : PointMass K)
    (hcross : decide (p.signedDistance pm.last_position ≥ 0)
      ≠ decide (p.signedDistance pm.position ≥ 0)) :
    (p.collide pm).position =
      ((pm.position - p.normal.smul (p.signedDistance pm.position) - pm.last_position)
        - p.normal.smul (Vector3D.dot
            (pm.position - p.normal.smul (p.signedDistance pm.position) - pm.last_position)
            p.normal - SURFACE_OFFSET)).smul (1 - p.friction) + pm.last_position := by
  unfold Plane.collide
  simp only [Plane.signedDistance] at hcross ⊢
  rw [if_neg hcross]

/-- With a unit normal, the normal component of `bump_dir` is minus the signed
distance of `last_position`. -/
theorem plane_bump_dot (p : Plane K) (pm : PointMass K) (hn : p.normal.norm2 = 1) :
    Vector3D.dot
        (pm.position - p.normal.smul (p.signedDistance pm.position) - pm.last_position)
        p.normal = -p.signedDistance pm.last_position := by
  have h1 : p.normal.x * p.normal.x + p.normal.y * p.normal.y + p.normal.z * p.normal.z = 1 := hn
  simp only [Plane.signedDistance, Vector3D.dot, Vector3D.sub_x, Vector3D.sub_y, Vector3D.sub_z,
    Vector3D.smul_x, Vector3D.smul_y, Vector3D.smul_z]
  linear_combination
    (-(p.normal.x * (pm.position.x - p.point.x) + p.normal.y * (pm.position.y - p.point.y)
      + p.normal.z * (pm.position.z - p.point.z))) * h1

/-- With a unit normal, moving by `c` along the normal adds `c` to the signed
distance. -/
theorem plane_signedDistance_add_smul (p : Plane K) (v : Vector3D K) (c : K)
    (hn : p.normal.norm2 = 1) :
    p.signedDistance (v + p.normal.smul c) = p.signedDistance v + c := by
  have h1 : p.normal.x * p.normal.x + p.normal.y * p.normal.y + p.normal.z * p.normal.z = 1 := hn
  simp only [Plane.signedDistance, Vector3D.dot, Vector3D.sub_x, Vector3D.sub_y, Vector3D.sub_z,
    Vector3D.smul_x, Vector3D.smul_y, Vector3D.smul_z, Vector3D.add_x, Vector3D.add_y,
    Vector3D.add_z]
  linear_combination c * h1

/-- C5 (amended): for a plane with unit normal and zero friction and a point
mass that crosses it (exactly one of the signed distances of `last_position`
and `position` is non-negative, the test of `Plane::collide`), the new
position is the orthogonal projection of the old position onto the plane,
displaced along the normal by `signedDistance last_position + SURFACE_OFFSET`;
its signed distance is `signedDistance last_position + SURFACE_OFFSET`. -/
theorem plane_collide_zero_friction (p : Plane ℝ) (pm : PointMass ℝ)
    (hn : p.normal.norm2 = 1) (hf : p.friction = 0)
    (hcross : decide (p.signedDistance pm.last_position ≥ 0)
      ≠ decide (p.signedDistance pm.position ≥ 0)) :
    (p.collide pm).position
        = (pm.position - p.normal.smul (p.signedDistance pm.position))
            + p.normal.smul (p.signedDistance pm.last_position + SURFACE_OFFSET)
      ∧ p.signedDistance (pm.position - p.normal.smul (p.signedDistance pm.position)) = 0
      ∧ p.signedDistance (p.collide pm).position
        = p.signedDistance pm.last_position + SURFACE_OFFSET := by
  have key : (p.collide pm).position
        = (pm.position - p.normal.smul (p.signedDistance pm.position))
            + p.normal.smul (p.signedDistance pm.last_position + SURFACE_OFFSET) := by
    rw [plane_collide_position p pm hcross, plane_bump_dot p pm hn, hf]
    ext <;> simp <;> ring
  have hproj : p.signedDistance (pm.position - p.normal.smul (p.signedDistance pm.position))
      = 0 := by
    have h := plane_signedDistance_add_smul p pm.position (-(p.signedDistance pm.position)) hn
    have e : pm.position + p.normal.smul (-(p.signedDistance pm.position))
        = pm.position - p.normal.smul (p.signedDistance pm.position) := by
      ext <;> simp <;> ring
    rw [e] at h
    rw [h]; ring
  refine ⟨key, hproj, ?_⟩
  rw [key, plane_signedDistance_add_smul _ _ _ hn, hproj, zero_add]

/-- The example plane has a unit normal and no friction, and the example point
mass crosses it from signed distance 1 to signed distance -1. -/
theorem exPlane_facts :
    (exPlane : Plane ℝ).normal.norm2 = 1 ∧ (exPlane : Plane ℝ).friction = 0
    ∧ (exPlane : Plane ℝ).signedDistance (exCrossing : PointMass ℝ).last_position = 1
    ∧ (exPlane : Plane ℝ).signedDistance (exCrossing : PointMass ℝ).position = -1 := by
  simp [exPlane, exCrossing, Plane.signedDistance, Vector3D.dot, Vector3D.norm2]

/-- Witness of C5 (amended) at the example plane and crossing. -/
theorem plane_collide_zero_friction_witness :
    (exPlane : Plane ℝ).signedDistance ((exPlane : Plane ℝ).collide exCrossing).position
      = (exPlane : Plane ℝ).signedDistance (exCrossing : PointMass ℝ).last_position
        + SURFACE_OFFSET :=
  (plane_collide_zero_friction exPlane exCrossing exPlane_facts.1 exPlane_facts.2.1
    (by rw [exPlane_facts.2.2.1, exPlane_facts.2.2.2]; simp)).2.2

/-- Counterexample to C5 as stated: the plane `z = 0` with unit normal and no
friction, a point mass that moved from `(0, 0, 1)` to `(0, 0, -1)`: after
`Plane::collide` it is at `(0, 0, 1.0001)`, at signed distance 1.0001 and not
`SURFACE_OFFSET`. -/
theorem plane_collide_offset_counterexample :
    (exPlane : Plane ℝ).normal.norm2 = 1 ∧ (exPlane : Plane ℝ).friction = 0
    ∧ (exPlane : Plane ℝ).signedDistance (exCrossing : PointMass ℝ).last_position = 1
    ∧ (exPlane : Plane ℝ).signedDistance (exCrossing : PointMass ℝ).position = -1
    ∧ ((exPlane : Plane ℝ).collide exCrossing).position = ⟨0, 0, 1 + 1 / 10000⟩
    ∧ (exPlane : Plane ℝ).signedDistance ((exPlane : Plane ℝ).collide exCrossing).position
        ≠ SURFACE_OFFSET := by
  have hpos : ((exPlane : Plane ℝ).collide exCrossing).position = ⟨0, 0, 1 + 1 / 10000⟩ := by
    simp [Plane.collide, exPlane, exCrossing, Vector3D.dot, SURFACE_OFFSET]
    ext <;> simp <;> norm_num
  refine ⟨exPlane_facts.1, exPlane_facts.2.1, exPlane_facts.2.2.1, exPlane_facts.2.2.2, hpos, ?_⟩
  rw [hpos]
  simp [Plane.signedDistance, exPlane, Vector3D.dot, SURFACE_OFFSET]

/-! ## Reset -/

/-- C8: after `Cloth::reset` every point mass has position and last position
equal to its start position; start positions, pinned flags and springs are
unchanged; resetting twice is resetting once. -/
theorem reset_idempotent {F : Type} (c : Cloth F) :
    (∀ pm ∈ c.reset.point_masses,
        pm.position = pm.start_position ∧ pm.last_position = pm.start_position)
    ∧ c.reset.point_masses.map (fun pm => (pm.start_position, pm.pinned))
        = c.point_masses.map (fun pm => (pm.start_position, pm.pinned))
    ∧ c.reset.springs = c.springs
    ∧ c.reset.reset = c.reset := by
  refine ⟨?_, ?_, rfl, ?_⟩
  · intro pm hpm
    simp only [Cloth.reset, List.mem_map] at hpm
    obtain ⟨q, _, rfl⟩ := hpm
    exact ⟨rfl, rfl⟩
  · simp [Cloth.reset, Function.comp_def]
  · simp [Cloth.reset, Function.comp_def]

/-! ## Evaluation lemmas -/

/-- Inside the first cell `[0, b)` the remainder `fmod a b` is `a` itself. -/
theorem fmod_of_nonneg_of_lt [FloorRing K] {a b : K} (ha : 0 ≤ a) (hb : a < b) : fmod a b = a := by
  have hb0 : 0 < b := lt_of_le_of_lt ha hb
  have h0 : 0 ≤ a / b := div_nonneg ha hb0.le
  have h1 : ⌊a / b⌋ = 0 := by
    rw [Int.floor_eq_iff]
    refine ⟨by simpa using h0, ?_⟩
    rw [div_lt_iff₀ hb0]; simpa using hb
  simp [fmod, h0, h1]

/-- Sum of two vectors given by components. -/
theorem Vector3D.mk_add_mk (a b c d e f : K) :
    (⟨a, b, c⟩ + ⟨d, e, f⟩ : Vector3D K) = ⟨a + d, b + e, c + f⟩ := rfl

/-- Difference of two vectors given by components. -/
theorem Vector3D.mk_sub_mk (a b c d e f : K) :
    (⟨a, b, c⟩ - ⟨d, e, f⟩ : Vector3D K) = ⟨a - d, b - e, c - f⟩ := rfl

/-- Scaling of a vector given by components. -/
theorem Vector3D.mk_smul (a b c k : K) :
    (⟨a, b, c⟩ : Vector3D K).smul k = ⟨k * a, k * b, k * c⟩ := rfl

/-- Division of a vector given by components. -/
theorem Vector3D.mk_sdiv (a b c k : K) :
    (⟨a, b, c⟩ : Vector3D K).sdiv k = ⟨a / k, b / k, c / k⟩ := rfl

/-- The zero vector by components. -/
theorem Vector3D.zero_eq : (Vector3D.zero : Vector3D K) = ⟨0, 0, 0⟩ := rfl

/-- The square root of 4. -/
theorem sqrt_four : Real.sqrt 4 = 2 := by
  rw [show (4 : ℝ) = 2 * 2 by norm_num]; exact Real.sqrt_mul_self (by norm_num)

/-! ## Stage order of a step -/

/-- The step of the source on the two-point example: self-collision pushes
the points to distance 2, then the length constraint pulls them back to
distance 1.1. -/
theorem exTwo_simulate :
    ((exTwo : Cloth ℝ).simulate Real.sqrt 1 1 exParams [] []).point_masses.map
      (fun pm => pm.position) = [⟨-(11 / 20), 0, 0⟩, ⟨11 / 20, 0, 0⟩] := by
  have f1 : fmod (1 : ℝ) 3 = 1 := fmod_of_nonneg_of_lt (by norm_num) (by norm_num)
  have f0 : fmod (0 : ℝ) 3 = 0 := fmod_of_nonneg_of_lt (by norm_num) (by norm_num)
  norm_num [Cloth.simulate, exTwo, exParams, springForceStep, verletStep, PointMass.new,
    Cloth.build_spatial_map, Cloth.selfCollidePass, buildMapFrom, mapPush, Cloth.hash_position,
    f0, f1, List.range_succ, Cloth.self_collide, mapLookup, selfCollideAcc, lengthConstraintStep,
    Vector3D.norm, Vector3D.norm2, Vector3D.unit, List.modify, sqrt_four,
    Vector3D.mk_add_mk, Vector3D.mk_sub_mk, Vector3D.mk_smul, Vector3D.mk_sdiv,
    Vector3D.zero_eq]

/-- The step in the order of the specification on the two-point example: the
length constraint sees distance 1 and does nothing, self-collision then
pushes the points to distance 2. -/
theorem exTwo_simulateSpecOrder :
    ((exTwo : Cloth ℝ).simulateSpecOrder Real.sqrt 1 1 exParams [] []).point_masses.map
      (fun pm => pm.position) = [⟨-1, 0, 0⟩, ⟨1, 0, 0⟩] := by
  have f1 : fmod (1 : ℝ) 3 = 1 := fmod_of_nonneg_of_lt (by norm_num) (by norm_num)
  have f0 : fmod (0 : ℝ) 3 = 0 := fmod_of_nonneg_of_lt (by norm_num) (by norm_num)
  norm_num [Cloth.simulateSpecOrder, Cloth.accumulateForces, Cloth.integrate, Cloth.mass,
    delta_t, Cloth.externalCollide, Cloth.lengthConstraint,
    exTwo, exParams, springForceStep, verletStep, PointMass.new,
    Cloth.build_spatial_map, Cloth.selfCollidePass, buildMapFrom, mapPush, Cloth.hash_position,
    f0, f1, List.range_succ, Cloth.self_collide, mapLookup, selfCollideAcc, lengthConstraintStep,
    Vector3D.norm, Vector3D.norm2, Vector3D.unit, List.modify, sqrt_four,
    Vector3D.mk_add_mk, Vector3D.mk_sub_mk, Vector3D.mk_smul, Vector3D.mk_sdiv,
    Vector3D.zero_eq]

/-- Counterexample to C1 as stated: on two free point masses at `(0,0,0)` and
`(1,0,0)` joined by a spring of rest length 1, thickness 1, `simulate` ends at
`(-0.55,0,0)`, `(0.55,0,0)` and the composition in the order of the
specification at `(-1,0,0)`, `(1,0,0)`. -/
theorem simulate_order_counterexample :
    ((exTwo : Cloth ℝ).simulate Real.sqrt 1 1 exParams [] []).point_masses.map
        (fun pm => pm.position) = [⟨-(11 / 20), 0, 0⟩, ⟨11 / 20, 0, 0⟩]
    ∧ ((exTwo : Cloth ℝ).simulateSpecOrder Real.sqrt 1 1 exParams [] []).point_masses.map
        (fun pm => pm.position) = [⟨-1, 0, 0⟩, ⟨1, 0, 0⟩]
    ∧ (exTwo : Cloth ℝ).simulate Real.sqrt 1 1 exParams [] []
        ≠ (exTwo : Cloth ℝ).simulateSpecOrder Real.sqrt 1 1 exParams [] [] := by
  refine ⟨exTwo_simulate, exTwo_simulateSpecOrder, fun h => ?_⟩
  have h1 := exTwo_simulate
  rw [h, exTwo_simulateSpecOrder] at h1
  norm_num at h1

/-- C1 (amended): one call of `Cloth::simulate` is the composition, in this
order, of force accumulation, Verlet integration, spatial-hash rebuild,
self-collision of every point mass, external collision resolution and
length-constraint correction. -/
theorem simulate_stage_order [FloorRing K] (sqrt : K → K) (c : Cloth K)
    (frames_per_sec simulation_steps : K)
    (cp : ClothParameters K) (external_accelerations : List (Vector3D K))
    (collision_objects : List (CollisionObject K)) :
    c.simulate sqrt frames_per_sec simulation_steps cp external_accelerations collision_objects
      = (((((c.accumulateForces sqrt cp external_accelerations).integrate cp frames_per_sec
          simulation_steps).build_spatial_map).selfCollidePass sqrt
          simulation_steps).externalCollide sqrt collision_objects).lengthConstraint sqrt := rfl

/-! ## Pinned point masses -/

/-- The integration loop skips pinned point masses. -/
theorem verletStep_pinned (cp : ClothParameters K) (mass dt : K) (pm : PointMass K)
    (h : pm.pinned = true) : verletStep cp mass dt pm = pm := by
  unfold verletStep
  rw [if_neg (by simp [h])]

/-- The length-constraint loop never moves a pinned point mass. -/
theorem lengthConstraintStep_pinned_fixed (sqrt : K → K) (pms : List (PointMass K))
    (s : Spring K) (k : Nat) (pk : PointMass K) (hk : pms[k]? = some pk)
    (hp : pk.pinned = true) : (lengthConstraintStep sqrt pms s)[k]? = some pk := by
  unfold lengthConstraintStep
  cases ha : pms[s.pm_a]? with
  | none => exact hk
  | some pa =>
    cases hb : pms[s.pm_b]? with
    | none => exact hk
    | some pb =>
      have hak : s.pm_a = k → pa.pinned = true := by
        intro e; rw [e, hk] at ha; cases ha; exact hp
      have hbk : s.pm_b = k → pb.pinned = true := by
        intro e; rw [e, hk] at hb; cases hb; exact hp
      dsimp only
      split_ifs with h1 h2 h3 h4
      · rw [List.getElem?_modify, hk]
        have : s.pm_b ≠ k := fun e => by simp [hbk e] at h2
        simp [this]
      · rw [List.getElem?_modify, hk]
        have : s.pm_a ≠ k := fun e => by simp [hak e] at h3
        simp [this]
      · rw [List.getElem?_modify, List.getElem?_modify, hk]
        have : s.pm_a ≠ k := fun e => by simp [hak e] at h4
        have : s.pm_b ≠ k := fun e => by simp [hbk e] at h4
        simp [*]
      · exact hk
      · exact hk

/-- The pinned example is the cloth `buildGrid` builds. -/
theorem exPinned_built :
    (exPinnedSetup : Cloth ℝ).buildGrid Real.sqrt (fun _ => 0) = exPinned := by
  have e : gridSprings 2 1 = [(1, 0, e_spring_type.STRUCTURAL)] := by decide
  simp [Cloth.buildGrid, exPinnedSetup, exPinned, gridPointMass, List.range_succ, e,
    Spring.new, positionAt, PointMass.new, Vector3D.norm, Vector3D.norm2,
    Vector3D.mk_sub_mk, sqrt_four]

/-- C2, the code at the failing input: the freshly built cloth of two point
masses, `(0,0,0)` pinned and `(0.5,0,0)` free, thickness 0.5, no collision
object: the pinned point mass is at its start position before the step, and
one call of `simulate` leaves it at `(-0.5,0,0)`, moved by `self_collide`. -/
theorem pinned_moved_by_self_collide :
    (exPinnedSetup : Cloth ℝ).buildGrid Real.sqrt (fun _ => 0) = exPinned
    ∧ (∀ pm ∈ (exPinned : Cloth ℝ).point_masses, pm.pinned = true →
        pm.position = pm.start_position ∧ pm.last_position = pm.start_position)
    ∧ ((exPinned : Cloth ℝ).simulate Real.sqrt 1 1 exParams [] []).point_masses.map
        (fun pm => (pm.pinned, pm.start_position, pm.position))
        = [(true, ⟨0, 0, 0⟩, ⟨-(1 / 2), 0, 0⟩), (false, ⟨1 / 2, 0, 0⟩, ⟨1 / 20, 0, 0⟩)] := by
  have f1 : fmod (1 / 2 : ℝ) (3 / 2) = 1 / 2 := fmod_of_nonneg_of_lt (by norm_num) (by norm_num)
  have f0 : fmod (0 : ℝ) (3 / 2) = 0 := fmod_of_nonneg_of_lt (by norm_num) (by norm_num)
  have g0 : fmod (0 : ℝ) 3 = 0 := fmod_of_nonneg_of_lt (by norm_num) (by norm_num)
  refine ⟨exPinned_built, ?_, ?_⟩
  · intro pm hpm hp
    simp [exPinned, PointMass.new] at hpm
    rcases hpm with rfl | rfl
    · exact ⟨rfl, rfl⟩
    · simp at hp
  · norm_num [Cloth.simulate, exPinned, exParams, springForceStep, verletStep, PointMass.new,
      Cloth.build_spatial_map, Cloth.selfCollidePass, buildMapFrom, mapPush,
      Cloth.hash_position, f0, f1, g0, List.range_succ, Cloth.self_collide, mapLookup,
      selfCollideAcc, lengthConstraintStep, Vector3D.norm, Vector3D.norm2, Vector3D.unit,
      List.modify, sqrt_four, Vector3D.mk_add_mk, Vector3D.mk_sub_mk, Vector3D.mk_smul,
      Vector3D.mk_sdiv, Vector3D.zero_eq]

/-! ## Length constraint -/

/-- The square root of 9. -/
theorem sqrt_nine : Real.sqrt 9 = 3 := by
  rw [show (9 : ℝ) = 3 * 3 by norm_num]; exact Real.sqrt_mul_self (by norm_num)

/-- The length-constraint pass on the chain example: the first spring is within
its bound and is left alone, the correction of the second spring then moves
the middle point to x = 1.95. -/
theorem exChain_lengthConstraint :
    ((exChain : Cloth ℝ).lengthConstraint Real.sqrt).point_masses.map (fun pm => pm.position)
      = [⟨0, 0, 0⟩, ⟨39 / 20, 0, 0⟩, ⟨61 / 20, 0, 0⟩] := by
  norm_num [Cloth.lengthConstraint, exChain, PointMass.new, lengthConstraintStep,
    Vector3D.norm, Vector3D.norm2, Vector3D.unit, List.modify, sqrt_nine,
    Vector3D.mk_add_mk, Vector3D.mk_sub_mk, Vector3D.mk_smul, Vector3D.mk_sdiv,
    Vector3D.zero_eq]

/-- Reading a position through the list of all positions. -/
theorem positionAt_eq_of_map {pms : List (PointMass K)} {l : List (Vector3D K)}
    (h : pms.map (fun pm => pm.position) = l) (i : Nat) :
    positionAt pms i = (l[i]?).getD Vector3D.zero := by
  subst h
  unfold positionAt
  rw [List.getElem?_map]
  cases pms[i]? <;> rfl

/-- Counterexample to C3 as stated. Three free points at x = 0, 1, 4 with
springs of rest length 1 between neighbours end the length-constraint pass at
x = 0, 1.95, 3.05: the correction of the second spring moves the point the
two springs share, so the first spring is 1.95 long, more than 1.1. And a
spring of rest length 1 between two pinned point masses 2 apart is not
corrected at all. -/
theorem lengthConstraint_stretch_counterexample :
    ((exChain : Cloth ℝ).lengthConstraint Real.sqrt).point_masses.map (fun pm => pm.position)
      = [⟨0, 0, 0⟩, ⟨39 / 20, 0, 0⟩, ⟨61 / 20, 0, 0⟩]
    ∧ (¬ ∀ s ∈ ((exChain : Cloth ℝ).lengthConstraint Real.sqrt).springs,
        stretchBound Real.sqrt ((exChain : Cloth ℝ).lengthConstraint Real.sqrt).point_masses s)
    ∧ ¬ ∀ s ∈ ((exPinnedPair : Cloth ℝ).lengthConstraint Real.sqrt).springs,
        stretchBound Real.sqrt
          ((exPinnedPair : Cloth ℝ).lengthConstraint Real.sqrt).point_masses s := by
  refine ⟨exChain_lengthConstraint, fun h => ?_, fun h => ?_⟩
  · have h0 := h ⟨0, 1, e_spring_type.STRUCTURAL, 1⟩ (by simp [Cloth.lengthConstraint, exChain])
    unfold stretchBound distance at h0
    rw [positionAt_eq_of_map exChain_lengthConstraint,
      positionAt_eq_of_map exChain_lengthConstraint] at h0
    have e : Vector3D.norm Real.sqrt ((⟨0, 0, 0⟩ : Vector3D ℝ) - ⟨39 / 20, 0, 0⟩) = 39 / 20 := by
      have : Vector3D.norm2 ((⟨0, 0, 0⟩ : Vector3D ℝ) - ⟨39 / 20, 0, 0⟩)
          = (39 / 20) * (39 / 20) := by
        norm_num [Vector3D.norm2, Vector3D.mk_sub_mk]
      unfold Vector3D.norm
      rw [this]; exact Real.sqrt_mul_self (by norm_num)
    simp only [List.getElem?_cons_zero, List.getElem?_cons_succ, Option.getD_some] at h0
    rw [e] at h0
    norm_num at h0
  · have h0 := h ⟨1, 0, e_spring_type.STRUCTURAL, 1⟩
      (by simp [Cloth.lengthConstraint, exPinnedPair])
    norm_num [stretchBound, distance, positionAt, Cloth.lengthConstraint, exPinnedPair,
      PointMass.new, lengthConstraintStep, Vector3D.norm, Vector3D.norm2, sqrt_four,
      Vector3D.mk_sub_mk] at h0

/-- Shortening a vector of length more than `m` by `length - m` along its own
direction leaves a vector of length `m`. -/
theorem norm_sub_unit_smul (d : Vector3D ℝ) (m : ℝ) (hm : 0 ≤ m)
    (hd : m < d.norm Real.sqrt) :
    (d - (d.unit Real.sqrt).smul (d.norm Real.sqrt - m)).norm Real.sqrt = m := by
  have hn : 0 < d.norm Real.sqrt := lt_of_le_of_lt hm hd
  have e : d - (d.unit Real.sqrt).smul (d.norm Real.sqrt - m)
      = d.smul (m / d.norm Real.sqrt) := by
    ext <;> simp <;> field_simp <;> ring
  rw [e, Vector3D.norm_smul_of_nonneg d (by positivity)]
  field_simp

/-- The correction of one spring keeps the number of point masses. -/
theorem lengthConstraintStep_length (sqrt : K → K) (pms : List (PointMass K)) (s : Spring K) :
    (lengthConstraintStep sqrt pms s).length = pms.length := by
  unfold lengthConstraintStep
  split
  · dsimp only
    split_ifs <;> simp [List.length_modify]
  · rfl

/-- The correction of one spring touches only its two endpoints. -/
theorem lengthConstraintStep_getElem?_of_ne (sqrt : K → K) (pms : List (PointMass K))
    (s : Spring K) (k : Nat) (ha : s.pm_a ≠ k) (hb : s.pm_b ≠ k) :
    (lengthConstraintStep sqrt pms s)[k]? = pms[k]? := by
  unfold lengthConstraintStep
  split
  · dsimp only
    split_ifs <;> simp [List.getElem?_modify, ha, hb]
  · rfl

/-- The correction of one spring changes no pinned flag. -/
theorem lengthConstraintStep_pinned (sqrt : K → K) (pms : List (PointMass K))
    (s : Spring K) (k : Nat) :
    ((lengthConstraintStep sqrt pms s)[k]?).map (fun pm => pm.pinned)
      = (pms[k]?).map (fun pm => pm.pinned) := by
  unfold lengthConstraintStep
  split
  · dsimp only
    split_ifs <;> simp only [List.getElem?_modify, Option.map_map] <;>
      cases pms[k]? <;> simp [Function.comp_def] <;> split_ifs <;> rfl
  · rfl

/-- Right after its own correction a spring with distinct endpoints, not both
pinned, and a non-negative rest length satisfies the stretch bound. -/
theorem lengthConstraintStep_bound (pms : List (PointMass ℝ)) (s : Spring ℝ)
    (pa pb : PointMass ℝ) (ha : pms[s.pm_a]? = some pa) (hb : pms[s.pm_b]? = some pb)
    (hab : s.pm_a ≠ s.pm_b) (hrest : 0 ≤ s.rest_length)
    (hpin : ¬ (pa.pinned = true ∧ pb.pinned = true)) :
    stretchBound Real.sqrt (lengthConstraintStep Real.sqrt pms s) s := by
  unfold stretchBound distance
  by_cases hd : (pa.position - pb.position).norm Real.sqrt > s.rest_length * (11 / 10)
  · have hm : 0 ≤ s.rest_length * (11 / 10) := by positivity
    have key := norm_sub_unit_smul (pa.position - pb.position) _ hm hd
    have hba : s.pm_b ≠ s.pm_a := fun h => hab h.symm
    generalize hc : ((pa.position - pb.position).unit Real.sqrt).smul
      ((pa.position - pb.position).norm Real.sqrt - s.rest_length * (11 / 10)) = c at key
    apply le_of_eq
    rw [← key]
    congr 1
    cases hpa : pa.pinned <;> cases hpb : pb.pinned
    · have hA : positionAt (lengthConstraintStep Real.sqrt pms s) s.pm_a
          = pa.position - c.smul (1 / 2) := by
        unfold lengthConstraintStep positionAt
        simp only [ha, hb, if_pos hd, hc, hpa, hpb]
        simp [List.getElem?_modify, ha, hb, hab, hba]
      have hB : positionAt (lengthConstraintStep Real.sqrt pms s) s.pm_b
          = pb.position + c.smul (1 / 2) := by
        unfold lengthConstraintStep positionAt
        simp only [ha, hb, if_pos hd, hc, hpa, hpb]
        simp [List.getElem?_modify, ha, hb, hab, hba]
      rw [hA, hB]
      ext <;> simp <;> ring
    · have hA : positionAt (lengthConstraintStep Real.sqrt pms s) s.pm_a
          = pa.position - c := by
        unfold lengthConstraintStep positionAt
        simp only [ha, hb, if_pos hd, hc, hpa, hpb]
        simp [List.getElem?_modify, ha, hb, hab, hba]
      have hB : positionAt (lengthConstraintStep Real.sqrt pms s) s.pm_b = pb.position := by
        unfold lengthConstraintStep positionAt
        simp only [ha, hb, if_pos hd, hc, hpa, hpb]
        simp [List.getElem?_modify, ha, hb, hab, hba]
      rw [hA, hB]
      ext <;> simp <;> ring
    · have hA : positionAt (lengthConstraintStep Real.sqrt pms s) s.pm_a = pa.position := by
        unfold lengthConstraintStep positionAt
        simp only [ha, hb, if_pos hd, hc, hpa, hpb]
        simp [List.getElem?_modify, ha, hb, hab, hba]
      have hB : positionAt (lengthConstraintStep Real.sqrt pms s) s.pm_b
          = pb.position + c := by
        unfold lengthConstraintStep positionAt
        simp only [ha, hb, if_pos hd, hc, hpa, hpb]
        simp [List.getElem?_modify, ha, hb, hab, hba]
      rw [hA, hB]
      ext <;> simp <;> ring
    · exact absurd ⟨hpa, hpb⟩ hpin
  · have hA : positionAt (lengthConstraintStep Real.sqrt pms s) s.pm_a = pa.position := by
      unfold lengthConstraintStep positionAt
      simp only [ha, hb, if_neg hd]
    have hB : positionAt (lengthConstraintStep Real.sqrt pms s) s.pm_b = pb.position := by
      unfold lengthConstraintStep positionAt
      simp only [ha, hb, if_neg hd]
    rw [hA, hB]
    exact not_lt.mp hd

/-- Corrections of springs that do not have `k` as an endpoint leave point mass
`k` alone. -/
theorem foldl_lengthConstraintStep_getElem?_of_ne (sqrt : K → K) (post : List (Spring K))
    (pms : List (PointMass K)) (k : Nat) (h : ∀ t ∈ post, t.pm_a ≠ k ∧ t.pm_b ≠ k) :
    (post.foldl (lengthConstraintStep sqrt) pms)[k]? = pms[k]? := by
  induction post generalizing pms with
  | nil => rfl
  | cons t post ih =>
    rw [List.foldl_cons, ih _ (fun u hu => h u (List.mem_cons_of_mem _ hu)),
      lengthConstraintStep_getElem?_of_ne sqrt pms t k (h t (List.mem_cons_self _ _)).1
        (h t (List.mem_cons_self _ _)).2]

/-- Corrections of springs change no pinned flag. -/
theorem foldl_lengthConstraintStep_pinned (sqrt : K → K) (pre : List (Spring K))
    (pms : List (PointMass K)) (k : Nat) :
    ((pre.foldl (lengthConstraintStep sqrt) pms)[k]?).map (fun pm => pm.pinned)
      = (pms[k]?).map (fun pm => pm.pinned) := by
  induction pre generalizing pms with
  | nil => rfl
  | cons t pre ih => rw [List.foldl_cons, ih, lengthConstraintStep_pinned]

/-! ## Spatial hash and self-collision -/

/-- Looking up a key after one push. -/
theorem mapLookup_mapPush (m : List (K × List Nat)) (k key : K) (i : Nat) :
    mapLookup (mapPush m k i) key
      = if k = key then some ((mapLookup m key).getD [] ++ [i]) else mapLookup m key := by
  induction m with
  | nil =>
    by_cases h : k = key <;> simp [mapPush, mapLookup, h]
  | cons e m ih =>
    obtain ⟨k', b⟩ := e
    by_cases h1 : k' = k
    · subst h1
      by_cases h : k' = key <;> simp [mapPush, mapLookup, h]
    · by_cases h : k = key
      · subst h
        have h1' : ¬ k' = k := h1
        simp [mapPush, mapLookup, h1', ih]
      · by_cases h2 : k' = key
        · subst h2
          simp [mapPush, mapLookup, h1, h]
        · simp [mapPush, mapLookup, h1, h2, h, ih]

/-- Looking up a key after the loop of `build_spatial_map`: what the map held
before, followed by the indices of the point masses hashing to the key. -/
theorem mapLookup_buildMapFrom (hash : Vector3D K → K) (pms : List (PointMass K)) (i : Nat)
    (m : List (K × List Nat)) (key : K) :
    mapLookup (buildMapFrom hash pms i m) key
      = if mapLookup m key = none ∧ bucketFrom hash pms i key = [] then none
        else some ((mapLookup m key).getD [] ++ bucketFrom hash pms i key) := by
  induction pms generalizing i m with
  | nil =>
    cases h : mapLookup m key <;> simp [buildMapFrom, bucketFrom, h]
  | cons pm rest ih =>
    rw [buildMapFrom, ih, mapLookup_mapPush]
    by_cases h : hash pm.position = key
    · simp [bucketFrom, h]
    · simp [bucketFrom, h]

/-- The bucket of a key after `build_spatial_map`: the indices of the point
masses hashing to the key, in array order, and no bucket when there is none. -/
theorem mapLookup_build_spatial_map [FloorRing K] (c : Cloth K) (key : K) :
    mapLookup c.build_spatial_map.map key
      = if bucketFrom c.hash_position c.point_masses 0 key = [] then none
        else some (bucketFrom c.hash_position c.point_masses 0 key) := by
  simp [Cloth.build_spatial_map, mapLookup_buildMapFrom, mapLookup]

/-- Membership in `bucketFrom`. -/
theorem mem_bucketFrom (hash : Vector3D K → K) (pms : List (PointMass K)) (i : Nat) (key : K)
    (k : Nat) :
    k ∈ bucketFrom hash pms i key
      ↔ i ≤ k ∧ ∃ pm, pms[k - i]? = some pm ∧ hash pm.position = key := by
  induction pms generalizing i with
  | nil => simp [bucketFrom]
  | cons pm rest ih =>
    unfold bucketFrom
    by_cases hk : k = i
    · subst hk
      by_cases h : hash pm.position = key
      · simp [h]
      · simp [h, ih]
    · by_cases h : hash pm.position = key
      · simp only [h, if_true, List.mem_cons, hk, false_or, ih]
        constructor
        · rintro ⟨h1, q, hq, hq2⟩
          refine ⟨by omega, q, ?_, hq2⟩
          have : k - i = (k - (i + 1)) + 1 := by omega
          rw [this, List.getElem?_cons_succ]; exact hq
        · rintro ⟨h1, q, hq, hq2⟩
          have h3 : i + 1 ≤ k := by omega
          refine ⟨h3, q, ?_, hq2⟩
          have : k - i = (k - (i + 1)) + 1 := by omega
          rw [this, List.getElem?_cons_succ] at hq; exact hq
      · simp only [h, if_false, ih]
        constructor
        · rintro ⟨h1, q, hq, hq2⟩
          refine ⟨by omega, q, ?_, hq2⟩
          have : k - i = (k - (i + 1)) + 1 := by omega
          rw [this, List.getElem?_cons_succ]; exact hq
        · rintro ⟨h1, q, hq, hq2⟩
          have h3 : i + 1 ≤ k := by omega
          refine ⟨h3, q, ?_, hq2⟩
          have : k - i = (k - (i + 1)) + 1 := by omega
          rw [this, List.getElem?_cons_succ] at hq; exact hq

/-- The indices of a bucket are strictly increasing. -/
theorem bucketFrom_sorted (hash : Vector3D K → K) (pms : List (PointMass K)) (i : Nat) (key : K) :
    (bucketFrom hash pms i key).Pairwise (· < ·) := by
  induction pms generalizing i with
  | nil => simp [bucketFrom]
  | cons pm rest ih =>
    unfold bucketFrom
    split_ifs with h
    · rw [List.pairwise_cons]
      refine ⟨fun k hk => ?_, ih _⟩
      have := (mem_bucketFrom hash rest (i + 1) key k).mp hk
      omega
    · exact ih _

/-- Two point masses that alone hash to a key make up its bucket. -/
theorem bucketFrom_pair (hash : Vector3D K → K) (pms : List (PointMass K)) (key : K)
    (i j : Nat) (pi pj : PointMass K) (hij : i < j)
    (hi : pms[i]? = some pi) (hj : pms[j]? = some pj)
    (hki : hash pi.position = key) (hkj : hash pj.position = key)
    (halone : ∀ k pk, pms[k]? = some pk → hash pk.position = key → k = i ∨ k = j) :
    bucketFrom hash pms 0 key = [i, j] := by
  have hs := bucketFrom_sorted hash pms 0 key
  have hs2 : ([i, j] : List Nat).Pairwise (· < ·) := by simp [hij]
  have hmem : ∀ k, k ∈ bucketFrom hash pms 0 key ↔ k ∈ [i, j] := by
    intro k
    rw [mem_bucketFrom]
    simp only [Nat.zero_le, Nat.sub_zero, true_and, List.mem_cons, List.mem_singleton,
      List.not_mem_nil, or_false]
    constructor
    · rintro ⟨pk, h1, h2⟩
      exact halone k pk h1 h2
    · rintro (rfl | rfl)
      · exact ⟨pi, hi, hki⟩
      · exact ⟨pj, hj, hkj⟩
  have hperm : (bucketFrom hash pms 0 key).Perm [i, j] :=
    (List.perm_ext_iff_of_nodup (hs.imp (fun h => Nat.ne_of_lt h))
      (hs2.imp (fun h => Nat.ne_of_lt h))).mpr hmem
  exact List.eq_of_perm_of_sorted hperm hs hs2

/-- `self_collide` on point mass `i` changes at most the entry `i` of
`point_masses` and nothing else of the cloth. -/
theorem self_collide_frame [FloorRing K] (sqrt : K → K) (c : Cloth K) (i : Nat) (steps : K) :
    ∃ pms, c.self_collide sqrt i steps = { c with point_masses := pms }
      ∧ ∀ k, k ≠ i → pms[k]? = c.point_masses[k]? := by
  unfold Cloth.self_collide
  split
  · exact ⟨c.point_masses, rfl, fun _ _ => rfl⟩
  · dsimp only
    split
    · exact ⟨c.point_masses, rfl, fun _ _ => rfl⟩
    · split_ifs
      · refine ⟨_, rfl, fun k hk => ?_⟩
        rw [List.getElem?_set_ne (Ne.symm hk)]
      · exact ⟨c.point_masses, rfl, fun _ _ => rfl⟩

/-- `self_collide` on the point masses of a list changes only entries of
`point_masses` with an index in the list. -/
theorem foldl_self_collide_frame [FloorRing K] (sqrt : K → K) (l : List Nat) (c : Cloth K)
    (steps : K) :
    ∃ pms, l.foldl (fun c i => c.self_collide sqrt i steps) c = { c with point_masses := pms }
      ∧ ∀ k, k ∉ l → pms[k]? = c.point_masses[k]? := by
  induction l generalizing c with
  | nil => exact ⟨c.point_masses, rfl, fun _ _ => rfl⟩
  | cons i l ih =>
    obtain ⟨pms1, h1, h1k⟩ := self_collide_frame sqrt c i steps
    obtain ⟨pms2, h2, h2k⟩ := ih (c.self_collide sqrt i steps)
    refine ⟨pms2, ?_, fun k hk => ?_⟩
    · rw [List.foldl_cons, h2, h1]
    · rw [h2k k (fun h => hk (List.mem_cons_of_mem _ h)), h1]
      exact h1k k (fun h => hk (h ▸ List.mem_cons_self _ _))

/-- `self_collide` on a point mass whose bucket holds it and one other point
mass. -/
theorem self_collide_pair [FloorRing K] (sqrt : K → K) (c : Cloth K) (i j : Nat) (steps : K)
    (pi pj : PointMass K) (hij : i ≠ j)
    (hi : c.point_masses[i]? = some pi) (hj : c.point_masses[j]? = some pj)
    (b : List Nat) (hb : b = [i, j] ∨ b = [j, i])
    (hmap : mapLookup c.map (c.hash_position pi.position) = some b) :
    (c.self_collide sqrt i steps).point_masses[i]?
      = some { pi with position := pushApart sqrt c.thickness steps pi.position pj.position } := by
  have hji : j ≠ i := Ne.symm hij
  have hlt : i < c.point_masses.length := by
    by_contra h
    rw [List.getElem?_eq_none (not_lt.mp h)] at hi
    exact absurd hi (by simp)
  unfold Cloth.self_collide pushApart
  simp only [hi, hmap]
  by_cases hd : (pi.position - pj.position).norm sqrt ≤ 2 * c.thickness
  · have hacc : b.foldl (selfCollideAcc sqrt c.point_masses c.thickness i pi.position)
        (Vector3D.zero, 0)
        = (Vector3D.zero + ((pi.position - pj.position).unit sqrt).smul
            (2 * c.thickness - (pi.position - pj.position).norm sqrt), 0 + 1) := by
      rcases hb with rfl | rfl <;> simp [selfCollideAcc, hji, hj, hd]
    rw [hacc]
    simp only [if_pos hd, Nat.zero_add, Nat.lt_one_iff, gt_iff_lt, zero_lt_one, if_true]
    rw [List.getElem?_set_self hlt]
    congr 2
    ext <;> simp <;> ring
  · have hacc : b.foldl (selfCollideAcc sqrt c.point_masses c.thickness i pi.position)
        (Vector3D.zero, 0) = (Vector3D.zero, 0) := by
      rcases hb with rfl | rfl <;> simp [selfCollideAcc, hji, hj, hd]
    rw [hacc]
    simp [hd, hi]

/-- The indices below `n`, split at two of them. -/
theorem range_split_two (n i j : Nat) (hij : i < j) (hjn : j < n) :
    List.range n = List.range' 0 i ++ i :: (List.range' (i + 1) (j - i - 1)
      ++ j :: List.range' (j + 1) (n - j - 1)) := by
  apply List.ext_getElem?
  intro k
  rcases Nat.lt_or_ge k i with h | h
  · rw [List.getElem?_append_left (by simpa using h)]
    simp [List.getElem?_range', List.getElem?_range, h, show k < n by omega]
  · rw [List.getElem?_append_right (by simpa using h)]
    simp only [List.length_range']
    rcases Nat.eq_or_lt_of_le h with h1 | h1
    · subst h1
      simp [List.getElem?_range, show i < n by omega]
    · obtain ⟨d, hd⟩ : ∃ d, k - i = d + 1 := ⟨k - i - 1, by omega⟩
      rw [hd, List.getElem?_cons_succ]
      rcases Nat.lt_or_ge d (j - i - 1) with h2 | h2
      · rw [List.getElem?_append_left (by simpa using h2)]
        simp [List.getElem?_range', List.getElem?_range, h2, show k < n by omega]
        omega
      · rw [List.getElem?_append_right (by simpa using h2)]
        simp only [List.length_range']
        rcases Nat.eq_or_lt_of_le h2 with h3 | h3
        · have : k = j := by omega
          subst this
          simp [← h3, List.getElem?_range, hjn]
        · obtain ⟨e, he⟩ : ∃ e, d - (j - i - 1) = e + 1 := ⟨d - (j - i - 1) - 1, by omega⟩
          rw [he, List.getElem?_cons_succ]
          by_cases hk : k < n
          · simp [List.getElem?_range', List.getElem?_range, hk, show e < n - j - 1 by omega]
            omega
          · rw [List.getElem?_eq_none (by simpa using not_lt.mp hk),
              List.getElem?_eq_none (by simp; omega)]

/-- A pass over indices among which `i` comes before `j`, the two alone in
their bucket: `i` is pushed from the old position of `j`, then `j` from the new
position of `i`. -/
theorem foldl_self_collide_pair [FloorRing K] (sqrt : K → K) (c : Cloth K) (steps : K)
    (i j : Nat) (pi pj : PointMass K) (hij : i ≠ j) (l1 l3 l4 : List Nat)
    (h1 : i ∉ l1 ∧ j ∉ l1) (h3 : i ∉ l3 ∧ j ∉ l3) (h4 : i ∉ l4 ∧ j ∉ l4)
    (hi : c.point_masses[i]? = some pi) (hj : c.point_masses[j]? = some pj)
    (hmi : mapLookup c.map (c.hash_position pi.position) = some [i, j])
    (hmj : mapLookup c.map (c.hash_position pj.position) = some [i, j]) :
    ((l1 ++ i :: (l3 ++ j :: l4)).foldl (fun c k => c.self_collide sqrt k steps) c).point_masses[i]?
        = some { pi with position := pushApart sqrt c.thickness steps pi.position pj.position }
    ∧ ((l1 ++ i :: (l3 ++ j :: l4)).foldl
        (fun c k => c.self_collide sqrt k steps) c).point_masses[j]?
        = some { pj with position := (pushApart sqrt c.thickness steps pj.position
            (pushApart sqrt c.thickness steps pi.position pj.position)) } := by
  rw [List.foldl_append, List.foldl_cons, List.foldl_append, List.foldl_cons]
  obtain ⟨P1, e1, f1⟩ := foldl_self_collide_frame sqrt l1 c steps
  rw [e1]
  have hi1 : P1[i]? = some pi := by rw [f1 i h1.1]; exact hi
  have hj1 : P1[j]? = some pj := by rw [f1 j h1.2]; exact hj
  obtain ⟨P2, e2, f2⟩ := self_collide_frame sqrt { c with point_masses := P1 } i steps
  have hi2 := self_collide_pair sqrt { c with point_masses := P1 } i j steps pi pj hij hi1 hj1
    [i, j] (Or.inl rfl) hmi
  rw [e2] at hi2 ⊢
  have hj2 : P2[j]? = some pj := by rw [f2 j (Ne.symm hij)]; exact hj1
  obtain ⟨P3, e3, f3⟩ := foldl_self_collide_frame sqrt l3
    { c with point_masses := P2 } steps
  rw [e3]
  have hi3 : P3[i]? = _ := (f3 i h3.1).trans hi2
  have hj3 : P3[j]? = some pj := (f3 j h3.2).trans hj2
  obtain ⟨P4, e4, f4⟩ := self_collide_frame sqrt { c with point_masses := P3 } j steps
  have hj4 := self_collide_pair sqrt { c with point_masses := P3 } j i steps pj _
    (Ne.symm hij) hj3 hi3 [i, j] (Or.inr rfl) hmj
  rw [e4] at hj4 ⊢
  have hi4 : P4[i]? = _ := (f4 i hij).trans hi3
  obtain ⟨P5, e5, f5⟩ := foldl_self_collide_frame sqrt l4
    { c with point_masses := P4 } steps
  rw [e5]
  exact ⟨(f5 i h4.1).trans hi4, (f5 j h4.2).trans hj4⟩

/-- The hash rebuild and self-collision pass on two point masses that are
alone in their cell. -/
theorem selfCollidePass_pair [FloorRing K] (sqrt : K → K) (c : Cloth K) (steps : K)
    (i j : Nat) (pi pj : PointMass K) (hij : i < j)
    (hi : c.point_masses[i]? = some pi) (hj : c.point_masses[j]? = some pj)
    (hkey : c.hash_position pi.position = c.hash_position pj.position)
    (halone : ∀ k pk, c.point_masses[k]? = some pk →
      c.hash_position pk.position = c.hash_position pi.position → k = i ∨ k = j) :
    (c.build_spatial_map.selfCollidePass sqrt steps).point_masses[i]?
        = some { pi with position := pushApart sqrt c.thickness steps pi.position pj.position }
    ∧ (c.build_spatial_map.selfCollidePass sqrt steps).point_masses[j]?
        = some { pj with position := (pushApart sqrt c.thickness steps pj.position
            (pushApart sqrt c.thickness steps pi.position pj.position)) } := by
  have hjn : j < c.point_masses.length := by
    by_contra h
    rw [List.getElem?_eq_none (not_lt.mp h)] at hj
    exact absurd hj (by simp)
  have hb := bucketFrom_pair c.hash_position c.point_masses (c.hash_position pi.position)
    i j pi pj hij hi hj rfl hkey.symm halone
  have hmi : mapLookup c.build_spatial_map.map (c.build_spatial_map.hash_position pi.position)
      = some [i, j] := by
    show mapLookup c.build_spatial_map.map (c.hash_position pi.position) = some [i, j]
    rw [mapLookup_build_spatial_map, hb]; simp
  have hmj : mapLookup c.build_spatial_map.map (c.build_spatial_map.hash_position pj.position)
      = some [i, j] := by
    show mapLookup c.build_spatial_map.map (c.hash_position pj.position) = some [i, j]
    rw [← hkey]; exact hmi
  unfold Cloth.selfCollidePass
  have hlen : c.build_spatial_map.point_masses.length = c.point_masses.length := rfl
  rw [hlen, range_split_two _ i j hij hjn]
  exact foldl_self_collide_pair sqrt c.build_spatial_map steps i j pi pj (Nat.ne_of_lt hij)
    _ _ _ (by simp only [List.mem_range'_1]; omega) (by simp only [List.mem_range'_1]; omega)
    (by simp only [List.mem_range'_1]; omega) hi hj hmi hmj

/-- The square root of 16. -/
theorem sqrt_sixteen : Real.sqrt 16 = 4 := by
  rw [show (16 : ℝ) = 4 * 4 by norm_num]; exact Real.sqrt_mul_self (by norm_num)

/-- The self-collision pass on the three-point example: the first point mass
is pushed from x = 1 to x = 2 by its neighbour at x = 0. -/
theorem exThree_pass :
    ((exThree : Cloth ℝ).build_spatial_map.selfCollidePass Real.sqrt 1).point_masses.map
      (fun pm => pm.position) = [⟨2, 0, 0⟩, ⟨0, 0, 0⟩, ⟨4, 0, 0⟩] := by
  have f0 : fmod (0 : ℝ) 30 = 0 := fmod_of_nonneg_of_lt (by norm_num) (by norm_num)
  have f1 : fmod (1 : ℝ) 30 = 1 := fmod_of_nonneg_of_lt (by norm_num) (by norm_num)
  have f4 : fmod (4 : ℝ) 30 = 4 := fmod_of_nonneg_of_lt (by norm_num) (by norm_num)
  norm_num [exThree, PointMass.new,
    Cloth.build_spatial_map, Cloth.selfCollidePass, buildMapFrom, mapPush, Cloth.hash_position,
    f0, f1, f4, List.range_succ, Cloth.self_collide, mapLookup, selfCollideAcc,
    Vector3D.norm, Vector3D.norm2, Vector3D.unit, sqrt_four, sqrt_nine, sqrt_sixteen,
    Vector3D.mk_add_mk, Vector3D.mk_sub_mk, Vector3D.mk_smul, Vector3D.mk_sdiv,
    Vector3D.zero_eq]

/-- Counterexample to C7 as stated: point masses at x = 1, 0, 4 (array order)
share one bucket, thickness 1, one substep; the first and the third are 3 apart
before the pass and 2 apart after it. -/
theorem self_collide_monotone_counterexample :
    mapLookup (exThree : Cloth ℝ).build_spatial_map.map
        ((exThree : Cloth ℝ).hash_position (positionAt (exThree : Cloth ℝ).point_masses 0))
      = some [0, 1, 2]
    ∧ (exThree : Cloth ℝ).hash_position (positionAt (exThree : Cloth ℝ).point_masses 0)
      = (exThree : Cloth ℝ).hash_position (positionAt (exThree : Cloth ℝ).point_masses 2)
    ∧ distance Real.sqrt (positionAt (exThree : Cloth ℝ).point_masses 0)
        (positionAt (exThree : Cloth ℝ).point_masses 2) = 3
    ∧ distance Real.sqrt
        (positionAt ((exThree : Cloth ℝ).build_spatial_map.selfCollidePass
          Real.sqrt 1).point_masses 0)
        (positionAt ((exThree : Cloth ℝ).build_spatial_map.selfCollidePass
          Real.sqrt 1).point_masses 2) = 2 := by
  have f1 : fmod (1 : ℝ) 30 = 1 := fmod_of_nonneg_of_lt (by norm_num) (by norm_num)
  have f4 : fmod (4 : ℝ) 30 = 4 := fmod_of_nonneg_of_lt (by norm_num) (by norm_num)
  have f0 : fmod (0 : ℝ) 30 = 0 := fmod_of_nonneg_of_lt (by norm_num) (by norm_num)
  refine ⟨?_, ?_, ?_, ?_⟩
  · norm_num [exThree, PointMass.new, positionAt, Cloth.hash_position, f0, f1, f4,
      Cloth.build_spatial_map, buildMapFrom, mapPush, mapLookup]
  · norm_num [exThree, PointMass.new, positionAt, Cloth.hash_position, f1, f4]
  · norm_num [exThree, PointMass.new, positionAt, distance, Vector3D.norm, Vector3D.norm2,
      Vector3D.mk_sub_mk, sqrt_nine]
  · rw [positionAt_eq_of_map exThree_pass, positionAt_eq_of_map exThree_pass]
    norm_num [distance, Vector3D.norm, Vector3D.norm2, Vector3D.mk_sub_mk, sqrt_four]

namespace Vector3D

/-- The norm of a difference does not depend on the order. -/
theorem norm_sub_comm (p q : Vector3D ℝ) : (p - q).norm Real.sqrt = (q - p).norm Real.sqrt := by
  unfold norm
  congr 1
  simp only [norm2, sub_x, sub_y, sub_z]; ring

/-- Lengthening a non-zero vector by `a >= 0` along its own direction adds `a`
to its length. -/
theorem norm_add_unit_smul (d : Vector3D ℝ) (a : ℝ) (hn : 0 < d.norm Real.sqrt) (ha : 0 ≤ a) :
    (d + (d.unit Real.sqrt).smul a).norm Real.sqrt = d.norm Real.sqrt + a := by
  have e : d + (d.unit Real.sqrt).smul a = d.smul (1 + a / d.norm Real.sqrt) := by
    ext <;> simp <;> field_simp <;> ring
  rw [e, norm_smul_of_nonneg d (by positivity)]
  field_simp

end Vector3D

/-- The distance to `q` after being pushed away from `q`. -/
theorem distance_pushApart (t s : ℝ) (p q : Vector3D ℝ) (hs : 0 < s)
    (hn : 0 < distance Real.sqrt p q) :
    distance Real.sqrt (pushApart Real.sqrt t s p q) q
      = pushedDistance t s (distance Real.sqrt p q) := by
  unfold pushApart pushedDistance distance at *
  split_ifs with h
  · have e : p + ((p - q).unit Real.sqrt).smul ((2 * t - (p - q).norm Real.sqrt) / s) - q
        = (p - q) + ((p - q).unit Real.sqrt).smul ((2 * t - (p - q).norm Real.sqrt) / s) := by
      ext <;> simp <;> ring
    rw [e, Vector3D.norm_add_unit_smul _ _ hn (div_nonneg (by linarith) hs.le)]
  · rfl

/-- Being pushed apart does not reduce the distance. -/
theorem pushedDistance_ge (t s n : ℝ) (hs : 0 < s) : n ≤ pushedDistance t s n := by
  unfold pushedDistance
  split_ifs with h
  · have : 0 ≤ (2 * t - n) / s := div_nonneg (by linarith) hs.le
    linarith
  · exact le_refl n

/-- With at least one substep, being pushed apart does not overshoot
`2 * thickness`. -/
theorem pushedDistance_le (t s n : ℝ) (hs : 1 ≤ s) (hn : n ≤ 2 * t) :
    pushedDistance t s n ≤ 2 * t := by
  unfold pushedDistance
  rw [if_pos hn]
  have h1 : (2 * t - n) / s ≤ 2 * t - n := div_le_self (by linarith) hs
  linarith

/-- The separation of two point masses alone in their cell after the pass. -/
theorem selfCollidePass_pair_distance (c : Cloth ℝ) (steps : ℝ)
    (i j : Nat) (pi pj : PointMass ℝ) (hij : i < j)
    (hi : c.point_masses[i]? = some pi) (hj : c.point_masses[j]? = some pj)
    (hkey : c.hash_position pi.position = c.hash_position pj.position)
    (halone : ∀ k pk, c.point_masses[k]? = some pk →
      c.hash_position pk.position = c.hash_position pi.position → k = i ∨ k = j)
    (hs : 0 < steps) (hd : 0 < distance Real.sqrt pi.position pj.position) :
    distance Real.sqrt
        (positionAt (c.build_spatial_map.selfCollidePass Real.sqrt steps).point_masses i)
        (positionAt (c.build_spatial_map.selfCollidePass Real.sqrt steps).point_masses j)
      = pushedDistance c.thickness steps
          (pushedDistance c.thickness steps (distance Real.sqrt pi.position pj.position)) := by
  obtain ⟨h1, h2⟩ := selfCollidePass_pair Real.sqrt c steps i j pi pj hij hi hj hkey halone
  unfold positionAt
  rw [h1, h2]
  dsimp only
  have d1 := distance_pushApart c.thickness steps pi.position pj.position hs hd
  have hd1 : 0 < distance Real.sqrt pj.position
      (pushApart Real.sqrt c.thickness steps pi.position pj.position) := by
    have := pushedDistance_ge c.thickness steps (distance Real.sqrt pi.position pj.position) hs
    unfold distance at *
    rw [Vector3D.norm_sub_comm]; linarith
  have d2 := distance_pushApart c.thickness steps pj.position
    (pushApart Real.sqrt c.thickness steps pi.position pj.position) hs hd1
  unfold distance at *
  rw [Vector3D.norm_sub_comm, d2, Vector3D.norm_sub_comm, d1]

/-- C6: two point masses `i < j` that alone occupy one hash cell and are exactly
`thickness > 0` apart, with at least one substep: after `build_spatial_map` and
`self_collide` on every point mass in array order their separation is more
than `thickness` and at most `2 * thickness`. -/
theorem self_collide_two_point_scenario (c : Cloth ℝ) (steps : ℝ)
    (i j : Nat) (pi pj : PointMass ℝ) (hij : i < j)
    (hi : c.point_masses[i]? = some pi) (hj : c.point_masses[j]? = some pj)
    (hkey : c.hash_position pi.position = c.hash_position pj.position)
    (halone : ∀ k pk, c.point_masses[k]? = some pk →
      c.hash_position pk.position = c.hash_position pi.position → k = i ∨ k = j)
    (ht : 0 < c.thickness) (hs : 1 ≤ steps)
    (hd : distance Real.sqrt pi.position pj.position = c.thickness) :
    c.thickness < distance Real.sqrt
        (positionAt (c.build_spatial_map.selfCollidePass Real.sqrt steps).point_masses i)
        (positionAt (c.build_spatial_map.selfCollidePass Real.sqrt steps).point_masses j)
    ∧ distance Real.sqrt
        (positionAt (c.build_spatial_map.selfCollidePass Real.sqrt steps).point_masses i)
        (positionAt (c.build_spatial_map.selfCollidePass Real.sqrt steps).point_masses j)
      ≤ 2 * c.thickness := by
  have hs0 : 0 < steps := by linarith
  rw [selfCollidePass_pair_distance c steps i j pi pj hij hi hj hkey halone hs0
    (by rw [hd]; exact ht), hd]
  have h1 : c.thickness < pushedDistance c.thickness steps c.thickness := by
    unfold pushedDistance
    rw [if_pos (by linarith)]
    have : 0 < (2 * c.thickness - c.thickness) / steps := div_pos (by linarith) hs0
    linarith
  have h2 : pushedDistance c.thickness steps c.thickness ≤ 2 * c.thickness :=
    pushedDistance_le _ _ _ hs (by linarith)
  exact ⟨lt_of_lt_of_le h1 (pushedDistance_ge _ _ _ hs0), pushedDistance_le _ _ _ hs h2⟩

/-- The two point masses of the two-point example hash to the same cell, are
the only point masses, and are `thickness` apart. -/
theorem exTwo_pair_facts :
    (exTwo : Cloth ℝ).hash_position (PointMass.new (⟨0, 0, 0⟩ : Vector3D ℝ) false).position
      = (exTwo : Cloth ℝ).hash_position (PointMass.new (⟨1, 0, 0⟩ : Vector3D ℝ) false).position
    ∧ (∀ k pk, (exTwo : Cloth ℝ).point_masses[k]? = some pk →
        (exTwo : Cloth ℝ).hash_position pk.position
          = (exTwo : Cloth ℝ).hash_position
              (PointMass.new (⟨0, 0, 0⟩ : Vector3D ℝ) false).position → k = 0 ∨ k = 1)
    ∧ distance Real.sqrt (PointMass.new (⟨0, 0, 0⟩ : Vector3D ℝ) false).position
        (PointMass.new (⟨1, 0, 0⟩ : Vector3D ℝ) false).position = (exTwo : Cloth ℝ).thickness := by
  have f1 : fmod (1 : ℝ) 3 = 1 := fmod_of_nonneg_of_lt (by norm_num) (by norm_num)
  have f0 : fmod (0 : ℝ) 3 = 0 := fmod_of_nonneg_of_lt (by norm_num) (by norm_num)
  refine ⟨?_, ?_, ?_⟩
  · norm_num [exTwo, PointMass.new, Cloth.hash_position, f1, f0]
  · intro k pk hk _
    have hlt : k < 2 := by
      by_contra h
      rw [List.getElem?_eq_none (by simpa [exTwo] using not_lt.mp h)] at hk
      exact absurd hk (by simp)
    omega
  · norm_num [exTwo, PointMass.new, distance, Vector3D.norm, Vector3D.norm2,
      Vector3D.mk_sub_mk]

/-- Witness of C6 on the two-point example. -/
theorem self_collide_two_point_scenario_witness :
    (exTwo : Cloth ℝ).thickness < distance Real.sqrt
        (positionAt ((exTwo : Cloth ℝ).build_spatial_map.selfCollidePass
          Real.sqrt 1).point_masses 0)
        (positionAt ((exTwo : Cloth ℝ).build_spatial_map.selfCollidePass
          Real.sqrt 1).point_masses 1)
    ∧ distance Real.sqrt
        (positionAt ((exTwo : Cloth ℝ).build_spatial_map.selfCollidePass
          Real.sqrt 1).point_masses 0)
        (positionAt ((exTwo : Cloth ℝ).build_spatial_map.selfCollidePass
          Real.sqrt 1).point_masses 1)
      ≤ 2 * (exTwo : Cloth ℝ).thickness :=
  self_collide_two_point_scenario exTwo 1 0 1 (PointMass.new ⟨0, 0, 0⟩ false)
    (PointMass.new ⟨1, 0, 0⟩ false) (by decide) rfl rfl exTwo_pair_facts.1
    exTwo_pair_facts.2.1 (by norm_num [exTwo]) (le_refl 1) exTwo_pair_facts.2.2

/-! ## Spring topology -/

/-- Membership in a list that holds one element under a condition. -/
theorem mem_ite_singleton {α : Type} (p : Prop) [Decidable p] (a s : α) :
    s ∈ (if p then [a] else []) ↔ p ∧ s = a := by
  split_ifs with h <;> simp [h]

/-- The springs pushed at one grid point. -/
theorem mem_cellSprings (W x y : Int) (s : Int × Int × e_spring_type) :
    s ∈ cellSprings W x y ↔
      (x ≠ 0 ∧ s = (y * W + x, y * W + x - 1, e_spring_type.STRUCTURAL)) ∨
      (y ≠ 0 ∧ s = (y * W + x, y * W + x - W, e_spring_type.STRUCTURAL)) ∨
      ((x > 0 ∧ y > 0) ∧ s = (y * W + x, y * W + x - W - 1, e_spring_type.SHEARING)) ∨
      ((x < W - 1 ∧ y > 0) ∧ s = (y * W + x, y * W + x - W + 1, e_spring_type.SHEARING)) ∨
      (y > 1 ∧ s = (y * W + x, y * W + x - 2 * W, e_spring_type.BENDING)) ∨
      (x < W - 2 ∧ s = (y * W + x, y * W + x + 2, e_spring_type.BENDING)) := by
  unfold cellSprings
  simp only [List.mem_append, mem_ite_singleton, or_assoc]

/-- A spring is built exactly when some grid point pushes it. -/
theorem mem_gridSprings (W H : Int) (s : Int × Int × e_spring_type) :
    s ∈ gridSprings W H ↔
      ∃ x y : Int, 0 ≤ x ∧ x < W ∧ 0 ≤ y ∧ y < H ∧ s ∈ cellSprings W x y := by
  unfold gridSprings
  simp only [List.mem_flatMap, List.mem_range]
  constructor
  · rintro ⟨y, hy, x, hx, hs⟩
    exact ⟨x, y, by omega, by omega, by omega, by omega, hs⟩
  · rintro ⟨x, y, hx0, hx, hy0, hy, hs⟩
    refine ⟨y.toNat, by omega, x.toNat, by omega, ?_⟩
    rw [Int.toNat_of_nonneg hx0, Int.toNat_of_nonneg hy0]
    exact hs

/-- The springs built are those of the specification. -/
theorem mem_gridSprings_iff (W H : Int) (a b : Int) (ty : e_spring_type) :
    (a, b, ty) ∈ gridSprings W H ↔ isGridSpring W H a b ty := by
  rw [mem_gridSprings]
  unfold isGridSpring
  constructor
  · rintro ⟨x, y, hx0, hx, hy0, hy, hs⟩
    rw [mem_cellSprings] at hs
    simp only [Prod.mk.injEq] at hs
    refine ⟨x, y, hx0, hx, hy0, hy, ?_⟩
    rcases hs with ⟨h, ha, hb, ht⟩ | ⟨h, ha, hb, ht⟩ | ⟨h, ha, hb, ht⟩ | ⟨h, ha, hb, ht⟩
      | ⟨h, ha, hb, ht⟩ | ⟨h, ha, hb, ht⟩
    · exact ⟨ha, Or.inl ⟨ht, by omega, by omega⟩⟩
    · exact ⟨ha, Or.inr (Or.inl ⟨ht, by omega, by omega⟩)⟩
    · exact ⟨ha, Or.inr (Or.inr (Or.inl ⟨ht, by omega, h.1, h.2⟩))⟩
    · exact ⟨ha, Or.inr (Or.inr (Or.inr (Or.inl ⟨ht, by omega, h.1, h.2⟩)))⟩
    · exact ⟨ha, Or.inr (Or.inr (Or.inr (Or.inr (Or.inl ⟨ht, by omega, h⟩))))⟩
    · exact ⟨ha, Or.inr (Or.inr (Or.inr (Or.inr (Or.inr ⟨ht, by omega, h⟩))))⟩
  · rintro ⟨x, y, hx0, hx, hy0, hy, ha, hs⟩
    refine ⟨x, y, hx0, hx, hy0, hy, ?_⟩
    rw [mem_cellSprings]
    simp only [Prod.mk.injEq]
    rcases hs with ⟨ht, hb, h⟩ | ⟨ht, hb, h⟩ | ⟨ht, hb, h⟩ | ⟨ht, hb, h⟩
      | ⟨ht, hb, h⟩ | ⟨ht, hb, h⟩
    · exact Or.inl ⟨by omega, ha, by omega, ht⟩
    · exact Or.inr (Or.inl ⟨by omega, ha, by omega, ht⟩)
    · exact Or.inr (Or.inr (Or.inl ⟨h, ha, by omega, ht⟩))
    · exact Or.inr (Or.inr (Or.inr (Or.inl ⟨h, ha, by omega, ht⟩)))
    · exact Or.inr (Or.inr (Or.inr (Or.inr (Or.inl ⟨h, ha, by omega, ht⟩))))
    · exact Or.inr (Or.inr (Or.inr (Or.inr (Or.inr ⟨h, ha, by omega, ht⟩))))

/-- The row-major index of a grid point lies in `[0, W * H)`. -/
theorem grid_index_bounds (W H x y : Int) (hx0 : 0 ≤ x) (hx : x < W) (hy0 : 0 ≤ y)
    (hy : y < H) : 0 ≤ y * W + x ∧ y * W + x < W * H := by
  have hW : 0 < W := by omega
  constructor
  · have := mul_nonneg hy0 hW.le
    omega
  · have h1 : (y + 1) * W ≤ H * W := mul_le_mul_of_nonneg_right (by omega) hW.le
    have e1 : (y + 1) * W = y * W + W := by ring
    have e2 : H * W = W * H := by ring
    omega

/-- The row-major index determines the grid point. -/
theorem grid_index_inj (W x y x' y' : Int) (hx0 : 0 ≤ x) (hx : x < W)
    (hx0' : 0 ≤ x') (hx' : x' < W) (h : y * W + x = y' * W + x') : y = y' ∧ x = x' := by
  have hW : 0 < W := by omega
  have hy : y = y' := by
    rcases lt_trichotomy y y' with hlt | heq | hgt
    · exfalso
      have h1 : (y + 1) * W ≤ y' * W := mul_le_mul_of_nonneg_right (by omega) hW.le
      have e1 : (y + 1) * W = y * W + W := by ring
      omega
    · exact heq
    · exfalso
      have h1 : (y' + 1) * W ≤ y * W := mul_le_mul_of_nonneg_right (by omega) hW.le
      have e1 : (y' + 1) * W = y' * W + W := by ring
      omega
  subst hy
  exact ⟨rfl, by omega⟩

/-- Both endpoints of a built spring are indices of grid points, the second at
the intended offset from the first. -/
theorem gridSprings_endpoints (W H : Int) (a b : Int) (ty : e_spring_type)
    (h : (a, b, ty) ∈ gridSprings W H) :
    0 ≤ a ∧ a < W * H ∧ 0 ≤ b ∧ b < W * H ∧
    ∃ x y dx dy : Int, intendedOffset ty dx dy ∧ a = y * W + x ∧ b = (y + dy) * W + (x + dx)
      ∧ 0 ≤ x ∧ x < W ∧ 0 ≤ y ∧ y < H
      ∧ 0 ≤ x + dx ∧ x + dx < W ∧ 0 ≤ y + dy ∧ y + dy < H := by
  rw [mem_gridSprings_iff] at h
  obtain ⟨x, y, hx0, hx, hy0, hy, ha, hs⟩ := h
  have key : ∃ dx dy : Int, intendedOffset ty dx dy ∧ b = (y + dy) * W + (x + dx)
      ∧ 0 ≤ x + dx ∧ x + dx < W ∧ 0 ≤ y + dy ∧ y + dy < H := by
    rcases hs with ⟨ht, hb, h⟩ | ⟨ht, hb, h⟩ | ⟨ht, hb, h⟩ | ⟨ht, hb, h⟩
      | ⟨ht, hb, h⟩ | ⟨ht, hb, h⟩
    · refine ⟨-1, 0, ?_, ?_, by omega, by omega, by omega, by omega⟩
      · rw [ht]; exact Or.inl ⟨rfl, rfl⟩
      · rw [hb, ha]; ring
    · refine ⟨0, -1, ?_, ?_, by omega, by omega, by omega, by omega⟩
      · rw [ht]; exact Or.inr ⟨rfl, rfl⟩
      · rw [hb, ha]; ring
    · refine ⟨-1, -1, ?_, ?_, by omega, by omega, by omega, by omega⟩
      · rw [ht]; exact Or.inl ⟨rfl, rfl⟩
      · rw [hb, ha]; ring
    · refine ⟨1, -1, ?_, ?_, by omega, by omega, by omega, by omega⟩
      · rw [ht]; exact Or.inr ⟨rfl, rfl⟩
      · rw [hb, ha]; ring
    · refine ⟨0, -2, ?_, ?_, by omega, by omega, by omega, by omega⟩
      · rw [ht]; exact Or.inl ⟨rfl, rfl⟩
      · rw [hb, ha]; ring
    · refine ⟨2, 0, ?_, ?_, by omega, by omega, by omega, by omega⟩
      · rw [ht]; exact Or.inr ⟨rfl, rfl⟩
      · rw [hb, ha]; ring
  obtain ⟨dx, dy, ho, hb, h1, h2, h3, h4⟩ := key
  have ba := grid_index_bounds W H x y hx0 hx hy0 hy
  have bb := grid_index_bounds W H (x + dx) (y + dy) h1 h2 h3 h4
  exact ⟨by rw [ha]; exact ba.1, by rw [ha]; exact ba.2, by rw [hb]; exact bb.1,
    by rw [hb]; exact bb.2, x, y, dx, dy, ho, ha, hb, hx0, hx, hy0, hy, h1, h2, h3, h4⟩

/-- The springs pushed at one grid point are pairwise different. -/
theorem cellSprings_nodup (W x y : Int) (hx0 : 0 ≤ x) (hx : x < W) :
    (cellSprings W x y).Nodup := by
  unfold cellSprings
  split_ifs <;> simp <;> omega

/-- The first endpoint of a spring pushed at `(x, y)` is the index of `(x, y)`. -/
theorem cellSprings_fst (W x y : Int) (s : Int × Int × e_spring_type)
    (h : s ∈ cellSprings W x y) : s.1 = y * W + x := by
  rw [mem_cellSprings] at h
  rcases h with ⟨_, rfl⟩ | ⟨_, rfl⟩ | ⟨_, rfl⟩ | ⟨_, rfl⟩ | ⟨_, rfl⟩ | ⟨_, rfl⟩ <;> rfl

/-- No spring is built twice. -/
theorem gridSprings_nodup (W H : Int) : (gridSprings W H).Nodup := by
  unfold gridSprings
  rw [List.nodup_flatMap]
  constructor
  · intro y _
    rw [List.nodup_flatMap]
    constructor
    · intro x hx
      exact cellSprings_nodup W x y (by omega) (by rw [List.mem_range] at hx; omega)
    · apply (List.nodup_range _).pairwise_of_forall_ne
      intro x hx x' hx' hne
      rw [List.mem_range] at hx hx'
      simp only [Function.onFun]
      intro s hs hs'
      have h1 := cellSprings_fst W x y s hs
      have h2 := cellSprings_fst W x' y s hs'
      rw [h1] at h2
      exact hne (by omega)
  · apply (List.nodup_range _).pairwise_of_forall_ne
    intro y _ y' _ hne
    simp only [Function.onFun]
    intro s hs hs'
    rw [List.mem_flatMap] at hs hs'
    obtain ⟨x, hx, hs⟩ := hs
    obtain ⟨x', hx', hs'⟩ := hs'
    rw [List.mem_range] at hx hx'
    have h1 := cellSprings_fst W x y s hs
    have h2 := cellSprings_fst W x' y' s hs'
    rw [h1] at h2
    have := grid_index_inj W x y x' y' (by omega) (by omega) (by omega) (by omega) h2
    exact hne (by omega)

/-- The springs of a cloth built from an empty spring list are the springs
of the loop, with the same indices. -/
theorem buildGrid_springs (sqrt : K → K) (rand_offset : Nat → K) (c : Cloth K)
    (hfresh : c.springs = []) :
    (c.buildGrid sqrt rand_offset).springs.map
        (fun s => ((s.pm_a : Int), (s.pm_b : Int), s.spring_type))
      = gridSprings c.num_width_points c.num_height_points := by
  unfold Cloth.buildGrid
  simp only [hfresh, List.nil_append, List.map_map]
  conv_rhs => rw [← List.map_id (gridSprings c.num_width_points c.num_height_points)]
  apply List.map_congr_left
  rintro ⟨a, b, ty⟩ hs
  have h := gridSprings_endpoints _ _ a b ty hs
  simp only [Function.comp, Spring.new, id, Prod.mk.injEq, and_true]
  exact ⟨Int.toNat_of_nonneg h.1, Int.toNat_of_nonneg h.2.2.1⟩

/-- C10: the springs built by `Cloth::buildGrid` (on a cloth without springs)
are exactly those of the specification, each once; both endpoint indices lie in
`[0, W * H)` and the second endpoint is the grid point at the intended offset
`(x + dx, y + dy)` of the first, inside the grid. -/
theorem buildGrid_spring_topology (sqrt : K → K) (rand_offset : Nat → K) (c : Cloth K)
    (hfresh : c.springs = []) :
    (c.buildGrid sqrt rand_offset).springs.map
        (fun s => ((s.pm_a : Int), (s.pm_b : Int), s.spring_type))
      = gridSprings c.num_width_points c.num_height_points
    ∧ (gridSprings c.num_width_points c.num_height_points).Nodup
    ∧ (∀ a b ty, (a, b, ty) ∈ gridSprings c.num_width_points c.num_height_points
        ↔ isGridSpring c.num_width_points c.num_height_points a b ty)
    ∧ (∀ a b ty, (a, b, ty) ∈ gridSprings c.num_width_points c.num_height_points →
        0 ≤ a ∧ a < c.num_width_points * c.num_height_points
        ∧ 0 ≤ b ∧ b < c.num_width_points * c.num_height_points
        ∧ ∃ x y dx dy : Int, intendedOffset ty dx dy
          ∧ a = y * c.num_width_points + x ∧ b = (y + dy) * c.num_width_points + (x + dx)
          ∧ 0 ≤ x ∧ x < c.num_width_points ∧ 0 ≤ y ∧ y < c.num_height_points
          ∧ 0 ≤ x + dx ∧ x + dx < c.num_width_points
          ∧ 0 ≤ y + dy ∧ y + dy < c.num_height_points) :=
  ⟨buildGrid_springs sqrt rand_offset c hfresh, gridSprings_nodup _ _,
    fun a b ty => mem_gridSprings_iff _ _ a b ty,
    fun a b ty h => gridSprings_endpoints _ _ a b ty h⟩

/-- Witness of C10 on the 2 x 2 grid. -/
theorem buildGrid_spring_topology_witness :
    (((grid22 (1 / 10) [[0, 0]] : Cloth ℝ).buildGrid Real.sqrt (fun _ => 0)).springs.map
        (fun s => ((s.pm_a : Int), (s.pm_b : Int), s.spring_type))
      = gridSprings 2 2)
    ∧ (gridSprings 2 2).Nodup :=
  ⟨(buildGrid_spring_topology Real.sqrt (fun _ => 0) (grid22 (1 / 10) [[0, 0]] : Cloth ℝ) rfl).1,
   (buildGrid_spring_topology Real.sqrt (fun _ => 0) (grid22 (1 / 10) [[0, 0]] : Cloth ℝ) rfl).2.1⟩

/-! ## The rest scenario -/

/-- Modifying an entry by a function that changes nothing. -/
theorem modify_eq_self {α : Type} (f : α → α) (n : Nat) (l : List α) (h : ∀ a, f a = a) :
    List.modify f n l = l := by
  apply List.ext_getElem?
  intro m
  rw [List.getElem?_modify]
  cases l[m]? <;> simp [h]

/-- With stiffness 0 a spring adds the zero force: the forces are unchanged. -/
theorem springForceStep_ks_zero (sqrt : K → K) (cp : ClothParameters K) (hks : cp.ks = 0)
    (pms : List (PointMass K)) (s : Spring K) : springForceStep sqrt cp pms s = pms := by
  unfold springForceStep
  by_cases hc : (s.spring_type = e_spring_type.STRUCTURAL ∧
        cp.enable_structural_constraints = false) ∨
      (s.spring_type = e_spring_type.SHEARING ∧ cp.enable_shearing_constraints = false) ∨
      (s.spring_type = e_spring_type.BENDING ∧ cp.enable_bending_constraints = false)
  · rw [if_pos hc]
  · rw [if_neg hc]
    cases pms[s.pm_a]? <;> cases pms[s.pm_b]? <;> try rfl
    dsimp only
    rw [modify_eq_self, modify_eq_self]
    · intro a
      cases a
      simp only [PointMass.mk.injEq, true_and, and_true]
      ext <;> simp [hks]
    · intro a
      cases a
      simp only [PointMass.mk.injEq, true_and, and_true]
      ext <;> simp [hks]

/-- With stiffness 0 the spring-force loop changes nothing. -/
theorem foldl_springForceStep_ks_zero (sqrt : K → K) (cp : ClothParameters K)
    (hks : cp.ks = 0) (springs : List (Spring K)) (pms : List (PointMass K)) :
    springs.foldl (springForceStep sqrt cp) pms = pms := by
  induction springs with
  | nil => rfl
  | cons s springs ih => rw [List.foldl_cons, springForceStep_ks_zero sqrt cp hks, ih]

/-- Mapping a function that fixes every element of the list. -/
theorem map_eq_self {α : Type} (f : α → α) (l : List α) (h : ∀ a ∈ l, f a = a) :
    l.map f = l := by
  conv_rhs => rw [← List.map_id l]
  exact List.map_congr_left h

/-- A point mass without velocity and without force is not moved by the
integration. -/
theorem verletStep_at_rest (cp : ClothParameters K) (mass dt : K) (pm : PointMass K)
    (hl : pm.last_position = pm.position) (hf : pm.forces = Vector3D.zero) :
    verletStep cp mass dt pm = pm := by
  unfold verletStep
  split_ifs
  · cases pm
    simp only at hl hf
    subst hl hf
    simp only [PointMass.mk.injEq, true_and, and_true]
    ext <;> simp
  · rfl

/-- A neighbour farther than `2 * thickness` adds nothing to the correction. -/
theorem selfCollideAcc_far (pms : List (PointMass ℝ)) (t : ℝ) (i : Nat) (pi : PointMass ℝ)
    (hi : pms[i]? = some pi)
    (hfar : ∀ (i j : Nat) (pi pj : PointMass ℝ), pms[i]? = some pi → pms[j]? = some pj → i ≠ j →
      2 * t < (pi.position - pj.position).norm Real.sqrt)
    (acc : Vector3D ℝ × Nat) (j : Nat) :
    selfCollideAcc Real.sqrt pms t i pi.position acc j = acc := by
  unfold selfCollideAcc
  split_ifs with h
  · rfl
  · split
    · rfl
    · rename_i pj hj
      dsimp only
      rw [if_neg (not_le.mpr (hfar i j pi pj hi hj (Ne.symm h)))]

/-- When all point masses are pairwise farther apart than `2 * thickness`,
`self_collide` changes nothing. -/
theorem self_collide_far (c : Cloth ℝ) (i : Nat) (steps : ℝ)
    (hfar : ∀ (i j : Nat) (pi pj : PointMass ℝ), c.point_masses[i]? = some pi → c.point_masses[j]? = some pj → i ≠ j →
      2 * c.thickness < (pi.position - pj.position).norm Real.sqrt) :
    c.self_collide Real.sqrt i steps = c := by
  unfold Cloth.self_collide
  split
  · rfl
  · rename_i pi hi
    dsimp only
    split
    · rfl
    · rename_i b hb
      have hacc : ∀ (b : List Nat) (acc : Vector3D ℝ × Nat),
          b.foldl (selfCollideAcc Real.sqrt c.point_masses c.thickness i pi.position) acc
            = acc := by
        intro b
        induction b with
        | nil => intro acc; rfl
        | cons j b ih =>
          intro acc
          rw [List.foldl_cons, selfCollideAcc_far c.point_masses c.thickness i pi hi hfar, ih]
      rw [hacc]
      simp

/-- When all point masses are pairwise farther apart than `2 * thickness`, the
self-collision pass changes nothing. -/
theorem selfCollidePass_far (c : Cloth ℝ) (steps : ℝ)
    (hfar : ∀ (i j : Nat) (pi pj : PointMass ℝ), c.point_masses[i]? = some pi → c.point_masses[j]? = some pj → i ≠ j →
      2 * c.thickness < (pi.position - pj.position).norm Real.sqrt) :
    c.selfCollidePass Real.sqrt steps = c := by
  unfold Cloth.selfCollidePass
  generalize List.range c.point_masses.length = l
  induction l with
  | nil => rfl
  | cons i l ih => rw [List.foldl_cons, self_collide_far c i steps hfar, ih]

/-- A spring within its stretch bound is not corrected. -/
theorem lengthConstraintStep_within (sqrt : K → K) (pms : List (PointMass K)) (s : Spring K)
    (h : stretchBound sqrt pms s) : lengthConstraintStep sqrt pms s = pms := by
  unfold lengthConstraintStep
  split
  · rename_i pa pb ha hb
    dsimp only
    unfold stretchBound distance positionAt at h
    rw [ha, hb] at h
    rw [if_neg (not_lt.mpr h)]
  · rfl

/-- When every spring is within its stretch bound the length-constraint loop
changes nothing. -/
theorem foldl_lengthConstraintStep_within (sqrt : K → K) (pms : List (PointMass K))
    (springs : List (Spring K)) (h : ∀ s ∈ springs, stretchBound sqrt pms s) :
    springs.foldl (lengthConstraintStep sqrt) pms = pms := by
  induction springs with
  | nil => rfl
  | cons s springs ih =>
    rw [List.foldl_cons, lengthConstraintStep_within sqrt pms s (h s (List.mem_cons_self _ _)),
      ih (fun u hu => h u (List.mem_cons_of_mem _ hu))]

/-- A cloth at rest (no velocity, no force, stiffness 0, no external
acceleration, no collision object, point masses pairwise farther apart than
`2 * thickness`, springs within their bound) is changed by `simulate` only in
its spatial map. -/
theorem simulate_at_rest (c : Cloth ℝ) (fps steps : ℝ) (cp : ClothParameters ℝ)
    (hks : cp.ks = 0)
    (hrest : ∀ pm ∈ c.point_masses,
      pm.last_position = pm.position ∧ pm.forces = Vector3D.zero)
    (hfar : ∀ (i j : Nat) (pi pj : PointMass ℝ), c.point_masses[i]? = some pi → c.point_masses[j]? = some pj → i ≠ j →
      2 * c.thickness < (pi.position - pj.position).norm Real.sqrt)
    (hlen : ∀ s ∈ c.springs, stretchBound Real.sqrt c.point_masses s) :
    c.simulate Real.sqrt fps steps cp [] [] = c.build_spatial_map := by
  unfold Cloth.simulate
  simp only [List.foldl_nil]
  have h1 : c.point_masses.map (fun pm => ({ pm with forces :=
      ⟨(Vector3D.zero : Vector3D ℝ).x, (Vector3D.zero : Vector3D ℝ).y,
        (Vector3D.zero : Vector3D ℝ).z⟩ } : PointMass ℝ)) = c.point_masses := by
    apply map_eq_self
    intro pm hpm
    have := (hrest pm hpm).2
    cases pm
    simp only at this
    subst this
    rfl
  rw [h1, foldl_springForceStep_ks_zero Real.sqrt cp hks]
  have h2 : c.point_masses.map (verletStep cp
      (c.width * c.height * cp.density / (c.num_width_points : ℝ) / (c.num_height_points : ℝ))
      (1 / fps / steps)) = c.point_masses := by
    apply map_eq_self
    intro pm hpm
    exact verletStep_at_rest cp _ _ pm (hrest pm hpm).1 (hrest pm hpm).2
  rw [h2]
  have h3 : ({ c with point_masses := c.point_masses } : Cloth ℝ) = c := rfl
  rw [h3, selfCollidePass_far c.build_spatial_map steps hfar]
  simp only [List.map_id']
  show ({ c.build_spatial_map with point_masses :=
    (c.springs.foldl (lengthConstraintStep Real.sqrt) c.point_masses) } : Cloth ℝ)
      = c.build_spatial_map
  rw [foldl_lengthConstraintStep_within Real.sqrt c.point_masses c.springs hlen]
  rfl

/-- A cloth at rest keeps its point masses through any number of steps. -/
theorem simulateN_at_rest (c : Cloth ℝ) (fps steps : ℝ) (cp : ClothParameters ℝ)
    (hks : cp.ks = 0)
    (hrest : ∀ pm ∈ c.point_masses,
      pm.last_position = pm.position ∧ pm.forces = Vector3D.zero)
    (hfar : ∀ (i j : Nat) (pi pj : PointMass ℝ), c.point_masses[i]? = some pi → c.point_masses[j]? = some pj → i ≠ j →
      2 * c.thickness < (pi.position - pj.position).norm Real.sqrt)
    (hlen : ∀ s ∈ c.springs, stretchBound Real.sqrt c.point_masses s) (n : Nat) :
    (Cloth.simulateN Real.sqrt fps steps cp [] [] n c).point_masses = c.point_masses := by
  induction n generalizing c with
  | zero => rfl
  | succ n ih =>
    rw [Cloth.simulateN, simulate_at_rest c fps steps cp hks hrest hfar hlen]
    exact ih c.build_spatial_map hrest hfar hlen

/-- The four point masses `buildGrid` makes for the 2 x 2 scenario. -/
theorem grid22_point_masses (sqrt : K → K) (t : K) (pin : List (List Int)) (r : Nat → K) :
    ((grid22 t pin).buildGrid sqrt r).point_masses
      = [PointMass.new ⟨0, 0, r 0⟩ (pin.any (fun u => decide (u = [0, 0]))),
         PointMass.new ⟨1 / 2, 0, r 1⟩ (pin.any (fun u => decide (u = [1, 0]))),
         PointMass.new ⟨0, 1 / 2, r 2⟩ (pin.any (fun u => decide (u = [0, 1]))),
         PointMass.new ⟨1 / 2, 1 / 2, r 3⟩ (pin.any (fun u => decide (u = [1, 1])))] := by
  simp [Cloth.buildGrid, grid22, gridPointMass, List.range_succ]

/-- In a cloth built from an empty spring list every rest length is the
distance of the endpoints as built. -/
theorem buildGrid_rest_length (sqrt : K → K) (r : Nat → K) (c : Cloth K)
    (hfresh : c.springs = []) :
    ∀ s ∈ (c.buildGrid sqrt r).springs,
      s.rest_length = distance sqrt (positionAt (c.buildGrid sqrt r).point_masses s.pm_a)
        (positionAt (c.buildGrid sqrt r).point_masses s.pm_b) := by
  intro s hs
  unfold Cloth.buildGrid at hs
  simp only [hfresh, List.nil_append, List.mem_map] at hs
  obtain ⟨u, _, rfl⟩ := hs
  rfl

/-- A vector whose x component is half a unit is at least half a unit long. -/
theorem half_le_norm_of_x (v : Vector3D ℝ) (h : v.x = 1 / 2 ∨ v.x = -(1 / 2)) :
    1 / 2 ≤ v.norm Real.sqrt := by
  unfold Vector3D.norm
  apply Real.le_sqrt_of_sq_le
  unfold Vector3D.norm2
  rcases h with h | h <;> rw [h] <;> nlinarith [mul_self_nonneg v.y, mul_self_nonneg v.z]

/-- A vector whose y component is half a unit is at least half a unit long. -/
theorem half_le_norm_of_y (v : Vector3D ℝ) (h : v.y = 1 / 2 ∨ v.y = -(1 / 2)) :
    1 / 2 ≤ v.norm Real.sqrt := by
  unfold Vector3D.norm
  apply Real.le_sqrt_of_sq_le
  unfold Vector3D.norm2
  rcases h with h | h <;> rw [h] <;> nlinarith [mul_self_nonneg v.x, mul_self_nonneg v.z]

/-- In the 2 x 2 scenario with thickness below 0.25 any two point masses are
farther apart than `2 * thickness`. -/
theorem grid22_far (t : ℝ) (ht : t < 1 / 4) (pin : List (List Int)) (r : Nat → ℝ)
    (i j : Nat) (pi pj : PointMass ℝ)
    (hi : ((grid22 t pin).buildGrid Real.sqrt r).point_masses[i]? = some pi)
    (hj : ((grid22 t pin).buildGrid Real.sqrt r).point_masses[j]? = some pj) (hij : i ≠ j) :
    2 * ((grid22 t pin).buildGrid Real.sqrt r).thickness
      < (pi.position - pj.position).norm Real.sqrt := by
  have hth : ((grid22 t pin).buildGrid Real.sqrt r).thickness = t := rfl
  rw [hth]
  rw [grid22_point_masses] at hi hj
  have hil : i < 4 := by
    by_contra h
    rw [List.getElem?_eq_none (by simpa using not_lt.mp h)] at hi
    exact absurd hi (by simp)
  have hjl : j < 4 := by
    by_contra h
    rw [List.getElem?_eq_none (by simpa using not_lt.mp h)] at hj
    exact absurd hj (by simp)
  suffices h : 1 / 2 ≤ (pi.position - pj.position).norm Real.sqrt by linarith
  interval_cases i <;> interval_cases j <;>
    simp only [List.getElem?_cons_zero, List.getElem?_cons_succ, Option.some.injEq] at hi hj <;>
    subst hi hj <;>
    first
    | exact absurd rfl hij
    | (refine half_le_norm_of_x _ ?_; norm_num [PointMass.new]; done)
    | (refine half_le_norm_of_y _ ?_; norm_num [PointMass.new])

/-- The point masses of the freshly built 2 x 2 cloth are at their start
positions, without velocity and without force. -/
theorem grid22_at_rest (sqrt : K → K) (t : K) (pin : List (List Int)) (r : Nat → K) :
    ∀ pm ∈ ((grid22 t pin).buildGrid sqrt r).point_masses,
      pm.position = pm.start_position ∧ pm.last_position = pm.position
        ∧ pm.forces = Vector3D.zero := by
  intro pm hpm
  rw [grid22_point_masses] at hpm
  simp only [List.mem_cons, List.mem_singleton, List.not_mem_nil, or_false] at hpm
  rcases hpm with rfl | rfl | rfl | rfl <;> exact ⟨rfl, rfl, rfl⟩

/-- C9: the freshly built 2 x 2 cloth of width and height 1 (any pin list, in
particular one pinned corner; perturbations in [0, 0.001]; thickness below
0.25), stepped `n` times with density > 0, damping in [0, 100], frame rate > 0,
at least one substep, stiffness 0, no external acceleration and no collision
object: the point masses are those built, every one at its start position with
`position - last_position = 0`. -/
theorem rest_scenario_2x2 (t : ℝ) (ht : t < 1 / 4) (pin : List (List Int)) (r : Nat → ℝ)
    (_hr : ∀ k, 0 ≤ r k ∧ r k ≤ 1 / 1000) (cp : ClothParameters ℝ)
    (_hdens : 0 < cp.density) (_hdamp : 0 ≤ cp.damping ∧ cp.damping ≤ 100)
    (hks : cp.ks = 0) (fps steps : ℝ) (_hfps : 0 < fps) (_hsteps : 1 ≤ steps) (n : Nat) :
    (Cloth.simulateN Real.sqrt fps steps cp [] [] n
        ((grid22 t pin).buildGrid Real.sqrt r)).point_masses
      = ((grid22 t pin).buildGrid Real.sqrt r).point_masses
    ∧ ∀ pm ∈ (Cloth.simulateN Real.sqrt fps steps cp [] [] n
        ((grid22 t pin).buildGrid Real.sqrt r)).point_masses,
        pm.position = pm.start_position ∧ pm.last_position = pm.start_position
          ∧ pm.position - pm.last_position = Vector3D.zero := by
  have hrest := grid22_at_rest Real.sqrt t pin r
  have hlen : ∀ s ∈ ((grid22 t pin).buildGrid Real.sqrt r).springs,
      stretchBound Real.sqrt ((grid22 t pin).buildGrid Real.sqrt r).point_masses s := by
    intro s hs
    unfold stretchBound
    rw [← buildGrid_rest_length Real.sqrt r (grid22 t pin) rfl s hs]
    have h0 : 0 ≤ s.rest_length := by
      rw [buildGrid_rest_length Real.sqrt r (grid22 t pin) rfl s hs]
      exact Vector3D.norm_nonneg _
    linarith
  have key := simulateN_at_rest ((grid22 t pin).buildGrid Real.sqrt r) fps steps cp hks
    (fun pm hpm => ⟨(hrest pm hpm).2.1, (hrest pm hpm).2.2⟩)
    (fun i j pi pj hi hj hij => grid22_far t ht pin r i j pi pj hi hj hij) hlen n
  refine ⟨key, fun pm hpm => ?_⟩
  rw [key] at hpm
  obtain ⟨h1, h2, _⟩ := hrest pm hpm
  refine ⟨h1, h2.trans h1, ?_⟩
  rw [h2]
  ext <;> simp

/-- Witness of C9: thickness 0.1, corner `(0, 0)` pinned, no perturbation,
three steps. -/
theorem rest_scenario_2x2_witness :
    (Cloth.simulateN Real.sqrt 1 1 (exParams : ClothParameters ℝ) [] [] 3
        ((grid22 (1 / 10) [[0, 0]]).buildGrid Real.sqrt (fun _ => 0))).point_masses
      = ((grid22 (1 / 10 : ℝ) [[0, 0]]).buildGrid Real.sqrt (fun _ => 0)).point_masses :=
  (rest_scenario_2x2 (1 / 10) (by norm_num) [[0, 0]] (fun _ => 0) (fun _ => by norm_num)
    exParams (by norm_num [exParams]) (by norm_num [exParams]) rfl 1 1 (by norm_num)
    (le_refl 1) 3).1

/-! ## Plane contact and the previous side -/

/-- C20: for a plane with unit normal and friction in [0, 1] and a point mass
whose `last_position` and `position` are on opposite sides (the test of
`Plane::collide`), the signed distance of the new position is
`signedDistance last_position + (1 - friction) * SURFACE_OFFSET`,
`last_position` is unchanged, and a point mass whose `last_position` was on
the front side ends on the front side. -/
theorem plane_collide_keeps_side (p : Plane ℝ) (pm : PointMass ℝ)
    (hn : p.normal.norm2 = 1) (_hf0 : 0 ≤ p.friction) (hf1 : p.friction ≤ 1)
    (hcross : decide (p.signedDistance pm.last_position ≥ 0)
      ≠ decide (p.signedDistance pm.position ≥ 0)) :
    p.signedDistance (p.collide pm).position
        = p.signedDistance pm.last_position + (1 - p.friction) * SURFACE_OFFSET
      ∧ (p.collide pm).last_position = pm.last_position
      ∧ (0 ≤ p.signedDistance pm.last_position →
          0 ≤ p.signedDistance (p.collide pm).position) := by
  have h1 : p.normal.x * p.normal.x + p.normal.y * p.normal.y + p.normal.z * p.normal.z = 1 := hn
  have hsd : p.signedDistance (p.collide pm).position
      = p.signedDistance pm.last_position + (1 - p.friction) * SURFACE_OFFSET := by
    rw [plane_collide_position p pm hcross, plane_bump_dot p pm hn]
    simp only [Plane.signedDistance, Vector3D.dot, Vector3D.sub_x, Vector3D.sub_y,
      Vector3D.sub_z, Vector3D.smul_x, Vector3D.smul_y, Vector3D.smul_z, Vector3D.add_x,
      Vector3D.add_y, Vector3D.add_z]
    linear_combination ((1 - p.friction) * (-(p.normal.x * (pm.position.x - p.point.x)
      + p.normal.y * (pm.position.y - p.point.y) + p.normal.z * (pm.position.z - p.point.z))
      + (p.normal.x * (pm.last_position.x - p.point.x)
      + p.normal.y * (pm.last_position.y - p.point.y)
      + p.normal.z * (pm.last_position.z - p.point.z)) + SURFACE_OFFSET)) * h1
  refine ⟨hsd, ?_, fun h0 => ?_⟩
  · unfold Plane.collide
    dsimp only
    split_ifs <;> rfl
  · rw [hsd]
    have : (0 : ℝ) ≤ (1 - p.friction) * SURFACE_OFFSET :=
      mul_nonneg (by linarith) (by norm_num [SURFACE_OFFSET])
    linarith

/-- The plane with friction 0.5 has a unit normal, and the example point mass
crosses it from signed distance 1 to signed distance -1. -/
theorem exPlaneHalf_facts :
    (exPlaneHalf : Plane ℝ).normal.norm2 = 1
    ∧ (exPlaneHalf : Plane ℝ).signedDistance (exCrossing : PointMass ℝ).last_position = 1
    ∧ (exPlaneHalf : Plane ℝ).signedDistance (exCrossing : PointMass ℝ).position = -1 := by
  simp [exPlaneHalf, exCrossing, Plane.signedDistance, Vector3D.dot, Vector3D.norm2]

/-- Witness of C20 at the plane with friction 0.5 and the example crossing. -/
theorem plane_collide_keeps_side_witness :
    (exPlaneHalf : Plane ℝ).signedDistance ((exPlaneHalf : Plane ℝ).collide exCrossing).position
      = (exPlaneHalf : Plane ℝ).signedDistance (exCrossing : PointMass ℝ).last_position
        + (1 - (exPlaneHalf : Plane ℝ).friction) * SURFACE_OFFSET :=
  (plane_collide_keeps_side exPlaneHalf exCrossing exPlaneHalf_facts.1
    (by norm_num [exPlaneHalf]) (by norm_num [exPlaneHalf])
    (by rw [exPlaneHalf_facts.2.1, exPlaneHalf_facts.2.2]; simp)).1

/-! ## Verlet integration -/

/-- The body of the integration loop computes what the specification words. -/
theorem verletStep_eq_verletSpec (c : Cloth K) (cp : ClothParameters K) (fps steps : K)
    (pm : PointMass K) :
    verletStep cp (c.mass cp) (delta_t fps steps) pm = verletSpec c cp fps steps pm := by
  unfold verletStep verletSpec
  cases hp : pm.pinned
  · simp only [if_true, Bool.false_eq_true, if_false, Cloth.mass, delta_t]
    congr 1
    ext <;> simp <;> ring
  · simp

/-- C13: the integration loop of `Cloth::simulate` maps every point mass by
`verletSpec`: a non-pinned point mass gets `position + (1 - damping / 100) *
(position - last_position) + (forces / mass) * dt ^ 2` as position and its old
position as `last_position`, with `mass = width * height * density /
(num_width_points * num_height_points)` and `dt = 1 / (frames_per_sec *
simulation_steps)`; a pinned point mass is unchanged. -/
theorem integrate_verlet (c : Cloth K) (cp : ClothParameters K) (fps steps : K) :
    (c.integrate cp fps steps).point_masses = c.point_masses.map (verletSpec c cp fps steps)
    ∧ (∀ pm : PointMass K, pm.pinned = false →
        (verletSpec c cp fps steps pm).position
            = pm.position + (pm.position - pm.last_position).smul (1 - cp.damping / 100)
              + (pm.forces.sdiv (c.width * c.height * cp.density
                  / ((c.num_width_points : K) * (c.num_height_points : K)))).smul
                  ((1 / (fps * steps)) ^ 2)
          ∧ (verletSpec c cp fps steps pm).last_position = pm.position)
    ∧ (∀ pm : PointMass K, pm.pinned = true → verletSpec c cp fps steps pm = pm) := by
  refine ⟨?_, ?_, ?_⟩
  · unfold Cloth.integrate
    simp only
    apply List.map_congr_left
    intro pm _
    exact verletStep_eq_verletSpec c cp fps steps pm
  · intro pm hp
    unfold verletSpec
    simp [hp]
  · intro pm hp
    unfold verletSpec
    simp [hp]

/-! ## The correction of one spring -/

/-- The difference of a vector with itself has length 0. -/
theorem norm_self_sub (p : Vector3D ℝ) : (p - p).norm Real.sqrt = 0 := by
  unfold Vector3D.norm
  have : (p - p).norm2 = 0 := by simp [Vector3D.norm2]
  rw [this, Real.sqrt_zero]

/-- A non-zero direction scaled by `a >= 0` has length `a`. -/
theorem norm_unit_smul (v : Vector3D ℝ) (a : ℝ) (hv : 0 < v.norm Real.sqrt) (ha : 0 ≤ a) :
    ((v.unit Real.sqrt).smul a).norm Real.sqrt = a := by
  rw [Vector3D.norm_smul_of_nonneg _ ha, Vector3D.norm_unit v hv, mul_one]

/-- C18: one application of the length correction to a spring with
`rest_length >= 0` and both endpoints in the array.  If the endpoints are at
most `max_len = 1.1 * rest_length` apart, or both pinned, nothing changes.
Otherwise: with exactly one endpoint pinned only the other endpoint moves, by
the full correction, and the new distance is `max_len`; with neither pinned
each endpoint moves by `(dist - max_len) / 2` toward the other, the sum of the
two positions (hence the midpoint) is unchanged and the new distance is
`max_len`. -/
theorem lengthConstraintStep_correction (pms : List (PointMass ℝ)) (s : Spring ℝ)
    (pa pb : PointMass ℝ) (ha : pms[s.pm_a]? = some pa) (hb : pms[s.pm_b]? = some pb)
    (hrest : 0 ≤ s.rest_length) :
    (distance Real.sqrt pa.position pb.position ≤ s.rest_length * (11 / 10) →
        lengthConstraintStep Real.sqrt pms s = pms)
    ∧ (s.rest_length * (11 / 10) < distance Real.sqrt pa.position pb.position →
        pa.pinned = true → pb.pinned = true → lengthConstraintStep Real.sqrt pms s = pms)
    ∧ (s.rest_length * (11 / 10) < distance Real.sqrt pa.position pb.position →
        pa.pinned = true → pb.pinned = false →
        (∀ k, k ≠ s.pm_b → (lengthConstraintStep Real.sqrt pms s)[k]? = pms[k]?)
        ∧ positionAt (lengthConstraintStep Real.sqrt pms s) s.pm_b
            = pb.position + ((pa.position - pb.position).unit Real.sqrt).smul
                (distance Real.sqrt pa.position pb.position - s.rest_length * (11 / 10))
        ∧ distance Real.sqrt (positionAt (lengthConstraintStep Real.sqrt pms s) s.pm_a)
            (positionAt (lengthConstraintStep Real.sqrt pms s) s.pm_b)
            = s.rest_length * (11 / 10))
    ∧ (s.rest_length * (11 / 10) < distance Real.sqrt pa.position pb.position →
        pa.pinned = false → pb.pinned = true →
        (∀ k, k ≠ s.pm_a → (lengthConstraintStep Real.sqrt pms s)[k]? = pms[k]?)
        ∧ positionAt (lengthConstraintStep Real.sqrt pms s) s.pm_a
            = pa.position - ((pa.position - pb.position).unit Real.sqrt).smul
                (distance Real.sqrt pa.position pb.position - s.rest_length * (11 / 10))
        ∧ distance Real.sqrt (positionAt (lengthConstraintStep Real.sqrt pms s) s.pm_a)
            (positionAt (lengthConstraintStep Real.sqrt pms s) s.pm_b)
            = s.rest_length * (11 / 10))
    ∧ (s.rest_length * (11 / 10) < distance Real.sqrt pa.position pb.position →
        pa.pinned = false → pb.pinned = false →
        positionAt (lengthConstraintStep Real.sqrt pms s) s.pm_a
            = pa.position - ((pa.position - pb.position).unit Real.sqrt).smul
                ((distance Real.sqrt pa.position pb.position - s.rest_length * (11 / 10)) / 2)
        ∧ positionAt (lengthConstraintStep Real.sqrt pms s) s.pm_b
            = pb.position + ((pa.position - pb.position).unit Real.sqrt).smul
                ((distance Real.sqrt pa.position pb.position - s.rest_length * (11 / 10)) / 2)
        ∧ distance Real.sqrt (positionAt (lengthConstraintStep Real.sqrt pms s) s.pm_a)
            pa.position
            = (distance Real.sqrt pa.position pb.position - s.rest_length * (11 / 10)) / 2
        ∧ distance Real.sqrt (positionAt (lengthConstraintStep Real.sqrt pms s) s.pm_b)
            pb.position
            = (distance Real.sqrt pa.position pb.position - s.rest_length * (11 / 10)) / 2
        ∧ positionAt (lengthConstraintStep Real.sqrt pms s) s.pm_a
            + positionAt (lengthConstraintStep Real.sqrt pms s) s.pm_b
            = pa.position + pb.position
        ∧ distance Real.sqrt (positionAt (lengthConstraintStep Real.sqrt pms s) s.pm_a)
            (positionAt (lengthConstraintStep Real.sqrt pms s) s.pm_b)
            = s.rest_length * (11 / 10)) := by
  have hm : 0 ≤ s.rest_length * (11 / 10) := by positivity
  -- a spring longer than its bound has two different endpoints
  have hne : s.rest_length * (11 / 10) < distance Real.sqrt pa.position pb.position →
      s.pm_a ≠ s.pm_b := by
    intro hd e
    rw [e, hb] at ha
    cases ha
    unfold distance at hd
    rw [norm_self_sub] at hd
    linarith
  refine ⟨?_, ?_, ?_, ?_, ?_⟩
  · intro hd
    exact lengthConstraintStep_within Real.sqrt pms s (by
      unfold stretchBound positionAt
      rw [ha, hb]; exact hd)
  · intro hd hpa hpb
    unfold lengthConstraintStep
    unfold distance at hd
    simp only [ha, hb, gt_iff_lt, if_pos hd, hpa, hpb]
    simp
  · intro hd hpa hpb
    have hab := hne hd
    have hba : s.pm_b ≠ s.pm_a := fun h => hab h.symm
    unfold distance at hd ⊢
    have key := norm_sub_unit_smul (pa.position - pb.position) _ hm hd
    have hA : positionAt (lengthConstraintStep Real.sqrt pms s) s.pm_a = pa.position := by
      unfold lengthConstraintStep positionAt
      simp only [ha, hb, gt_iff_lt, if_pos hd, hpa, hpb]
      simp [List.getElem?_modify, ha, hb, hab, hba]
    have hB : positionAt (lengthConstraintStep Real.sqrt pms s) s.pm_b
        = pb.position + ((pa.position - pb.position).unit Real.sqrt).smul
          ((pa.position - pb.position).norm Real.sqrt - s.rest_length * (11 / 10)) := by
      unfold lengthConstraintStep positionAt
      simp only [ha, hb, gt_iff_lt, if_pos hd, hpa, hpb]
      simp [List.getElem?_modify, ha, hb, hab, hba]
    refine ⟨fun k hk => ?_, hB, ?_⟩
    · unfold lengthConstraintStep
      simp only [ha, hb, gt_iff_lt, if_pos hd, hpa, hpb]
      simp [List.getElem?_modify, Ne.symm hk]
    · rw [hA, hB]
      have e : pa.position - (pb.position + ((pa.position - pb.position).unit Real.sqrt).smul
          ((pa.position - pb.position).norm Real.sqrt - s.rest_length * (11 / 10)))
          = pa.position - pb.position - ((pa.position - pb.position).unit Real.sqrt).smul
          ((pa.position - pb.position).norm Real.sqrt - s.rest_length * (11 / 10)) := by
        ext <;> simp <;> ring
      rw [e]; exact key
  · intro hd hpa hpb
    have hab := hne hd
    have hba : s.pm_b ≠ s.pm_a := fun h => hab h.symm
    unfold distance at hd ⊢
    have key := norm_sub_unit_smul (pa.position - pb.position) _ hm hd
    have hA : positionAt (lengthConstraintStep Real.sqrt pms s) s.pm_a
        = pa.position - ((pa.position - pb.position).unit Real.sqrt).smul
          ((pa.position - pb.position).norm Real.sqrt - s.rest_length * (11 / 10)) := by
      unfold lengthConstraintStep positionAt
      simp only [ha, hb, gt_iff_lt, if_pos hd, hpa, hpb]
      simp [List.getElem?_modify, ha, hb, hab, hba]
    have hB : positionAt (lengthConstraintStep Real.sqrt pms s) s.pm_b = pb.position := by
      unfold lengthConstraintStep positionAt
      simp only [ha, hb, gt_iff_lt, if_pos hd, hpa, hpb]
      simp [List.getElem?_modify, ha, hb, hab, hba]
    refine ⟨fun k hk => ?_, hA, ?_⟩
    · unfold lengthConstraintStep
      simp only [ha, hb, gt_iff_lt, if_pos hd, hpa, hpb]
      simp [List.getElem?_modify, Ne.symm hk]
    · rw [hA, hB]
      have e : pa.position - ((pa.position - pb.position).unit Real.sqrt).smul
          ((pa.position - pb.position).norm Real.sqrt - s.rest_length * (11 / 10))
          - pb.position
          = pa.position - pb.position - ((pa.position - pb.position).unit Real.sqrt).smul
          ((pa.position - pb.position).norm Real.sqrt - s.rest_length * (11 / 10)) := by
        ext <;> simp <;> ring
      rw [e]; exact key
  · intro hd hpa hpb
    have hab := hne hd
    have hba : s.pm_b ≠ s.pm_a := fun h => hab h.symm
    unfold distance at hd ⊢
    have hpos : 0 < (pa.position - pb.position).norm Real.sqrt := lt_of_le_of_lt hm hd
    have key := norm_sub_unit_smul (pa.position - pb.position) _ hm hd
    have hA : positionAt (lengthConstraintStep Real.sqrt pms s) s.pm_a
        = pa.position - ((pa.position - pb.position).unit Real.sqrt).smul
          (((pa.position - pb.position).norm Real.sqrt - s.rest_length * (11 / 10)) / 2) := by
      unfold lengthConstraintStep positionAt
      simp only [ha, hb, gt_iff_lt, if_pos hd, hpa, hpb]
      simp [List.getElem?_modify, ha, hb, hab, hba]
      ext <;> simp <;> ring
    have hB : positionAt (lengthConstraintStep Real.sqrt pms s) s.pm_b
        = pb.position + ((pa.position - pb.position).unit Real.sqrt).smul
          (((pa.position - pb.position).norm Real.sqrt - s.rest_length * (11 / 10)) / 2) := by
      unfold lengthConstraintStep positionAt
      simp only [ha, hb, gt_iff_lt, if_pos hd, hpa, hpb]
      simp [List.getElem?_modify, ha, hb, hab, hba]
      ext <;> simp <;> ring
    have hhalf : 0 ≤ ((pa.position - pb.position).norm Real.sqrt
        - s.rest_length * (11 / 10)) / 2 := by linarith
    refine ⟨hA, hB, ?_, ?_, ?_, ?_⟩
    · rw [hA, Vector3D.norm_sub_comm]
      have e : pa.position - (pa.position - ((pa.position - pb.position).unit Real.sqrt).smul
          (((pa.position - pb.position).norm Real.sqrt - s.rest_length * (11 / 10)) / 2))
          = ((pa.position - pb.position).unit Real.sqrt).smul
          (((pa.position - pb.position).norm Real.sqrt - s.rest_length * (11 / 10)) / 2) := by
        ext <;> simp
      rw [e, norm_unit_smul _ _ hpos hhalf]
    · rw [hB]
      have e : pb.position + ((pa.position - pb.position).unit Real.sqrt).smul
          (((pa.position - pb.position).norm Real.sqrt - s.rest_length * (11 / 10)) / 2)
          - pb.position
          = ((pa.position - pb.position).unit Real.sqrt).smul
          (((pa.position - pb.position).norm Real.sqrt - s.rest_length * (11 / 10)) / 2) := by
        ext <;> simp
      rw [e, norm_unit_smul _ _ hpos hhalf]
    · rw [hA, hB]
      ext <;> simp
    · rw [hA, hB]
      have e : pa.position - ((pa.position - pb.position).unit Real.sqrt).smul
          (((pa.position - pb.position).norm Real.sqrt - s.rest_length * (11 / 10)) / 2)
          - (pb.position + ((pa.position - pb.position).unit Real.sqrt).smul
          (((pa.position - pb.position).norm Real.sqrt - s.rest_length * (11 / 10)) / 2))
          = pa.position - pb.position - ((pa.position - pb.position).unit Real.sqrt).smul
          ((pa.position - pb.position).norm Real.sqrt - s.rest_length * (11 / 10)) := by
        ext <;> simp <;> ring
      rw [e]; exact key

/-- The second spring of the chain example is 3 long, more than its bound 1.1. -/
theorem exChain_second_spring_long :
    (1 : ℝ) * (11 / 10) < distance Real.sqrt
      (PointMass.new (⟨1, 0, 0⟩ : Vector3D ℝ) false).position
      (PointMass.new (⟨4, 0, 0⟩ : Vector3D ℝ) false).position := by
  norm_num [distance, PointMass.new, Vector3D.norm, Vector3D.norm2, Vector3D.mk_sub_mk,
    sqrt_nine]

/-- Witness of C18: the second spring of the chain example, neither endpoint
pinned, is 1.1 long after its correction. -/
theorem lengthConstraintStep_correction_witness :
    distance Real.sqrt
        (positionAt (lengthConstraintStep Real.sqrt (exChain : Cloth ℝ).point_masses
          ⟨1, 2, e_spring_type.STRUCTURAL, 1⟩) 1)
        (positionAt (lengthConstraintStep Real.sqrt (exChain : Cloth ℝ).point_masses
          ⟨1, 2, e_spring_type.STRUCTURAL, 1⟩) 2)
      = 1 * (11 / 10) :=
  ((lengthConstraintStep_correction (exChain : Cloth ℝ).point_masses
    ⟨1, 2, e_spring_type.STRUCTURAL, 1⟩ (PointMass.new ⟨1, 0, 0⟩ false)
    (PointMass.new ⟨4, 0, 0⟩ false) rfl rfl (by norm_num)).2.2.2.2
      exChain_second_spring_long rfl rfl).2.2.2.2.2

/-! ## Hash truncation -/

/-- The hash key is the polynomial in the three truncated coordinates. -/
theorem hash_position_eq_truncCoord [FloorRing K] (c : Cloth K) (pos : Vector3D K) :
    c.hash_position pos
      = 223 * 223 * truncCoord pos.x ((c.width / (c.num_width_points : K)) * 3)
        + 223 * truncCoord pos.y ((c.height / (c.num_height_points : K)) * 3)
        + truncCoord pos.z (max ((c.width / (c.num_width_points : K)) * 3)
            ((c.height / (c.num_height_points : K)) * 3)) := rfl

/-- The truncated coordinate is the cell size times the truncated quotient. -/
theorem truncCoord_eq [FloorRing K] (c s : K) : truncCoord c s = s * (truncQuot c s : K) := by
  unfold truncCoord fmod truncQuot
  ring

/-- For a non-negative coordinate the truncated coordinate is the lower
boundary of its cell. -/
theorem truncCoord_of_nonneg [FloorRing K] (c s : K) (hs : 0 < s) (hc : 0 ≤ c) :
    truncCoord c s = s * (⌊c / s⌋ : K) ∧ truncCoord c s ≤ c ∧ c < truncCoord c s + s := by
  have h0 : 0 ≤ c / s := div_nonneg hc hs.le
  have e : truncCoord c s = s * (⌊c / s⌋ : K) := by
    rw [truncCoord_eq]; unfold truncQuot; rw [if_pos h0]
  have h1 : (⌊c / s⌋ : K) ≤ c / s := Int.floor_le _
  have h2 : c / s < (⌊c / s⌋ : K) + 1 := Int.lt_floor_add_one _
  have e2 : s * (c / s) = c := by field_simp
  refine ⟨e, ?_, ?_⟩
  · rw [e]
    calc s * (⌊c / s⌋ : K) ≤ s * (c / s) := mul_le_mul_of_nonneg_left h1 hs.le
      _ = c := e2
  · rw [e]
    calc c = s * (c / s) := e2.symm
      _ < s * ((⌊c / s⌋ : K) + 1) := mul_lt_mul_of_pos_left h2 hs
      _ = s * (⌊c / s⌋ : K) + s := by ring

/-- For a negative coordinate the truncated coordinate is the upper boundary
of its cell. -/
theorem truncCoord_of_neg [FloorRing K] (c s : K) (hs : 0 < s) (hc : c < 0) :
    truncCoord c s = s * (⌈c / s⌉ : K) ∧ truncCoord c s - s < c ∧ c ≤ truncCoord c s := by
  have h0 : ¬ 0 ≤ c / s := not_le.mpr (div_neg_of_neg_of_pos hc hs)
  have e : truncCoord c s = s * (⌈c / s⌉ : K) := by
    rw [truncCoord_eq]; unfold truncQuot; rw [if_neg h0]
  have h1 : c / s ≤ (⌈c / s⌉ : K) := Int.le_ceil _
  have h2 : (⌈c / s⌉ : K) < c / s + 1 := Int.ceil_lt_add_one _
  have e2 : s * (c / s) = c := by field_simp
  refine ⟨e, ?_, ?_⟩
  · rw [e]
    have : s * (⌈c / s⌉ : K) < s * (c / s + 1) := mul_lt_mul_of_pos_left h2 hs
    have e3 : s * (c / s + 1) = c + s := by rw [mul_add, e2, mul_one]
    linarith
  · rw [e]
    calc c = s * (c / s) := e2.symm
      _ ≤ s * (⌈c / s⌉ : K) := mul_le_mul_of_nonneg_left h1 hs.le

/-- C17 (amended): for every coordinate `c` and cell size `s > 0` the truncated
coordinate `t = c - fmod(c, s)` of `hash_position` is the integer multiple
`s * trunc(c / s)` of `s`; for `c >= 0` it is the lower boundary of the cell,
`t = s * floor(c / s)` and `t <= c < t + s`; for `c < 0` it is the upper
boundary, `t = s * ceil(c / s)` and `t - s < c <= t`; two coordinates get the
same truncated coordinate exactly when their quotients by `s` truncate to the
same integer; and the key `hash_position` returns is the polynomial
`223 * 223 * x + 223 * y + z` in the coordinates truncated this way. -/
theorem hash_truncation (c s : ℝ) (hs : 0 < s) :
    truncCoord c s = s * (truncQuot c s : ℝ)
    ∧ (0 ≤ c → truncCoord c s = s * (⌊c / s⌋ : ℝ)
        ∧ truncCoord c s ≤ c ∧ c < truncCoord c s + s)
    ∧ (c < 0 → truncCoord c s = s * (⌈c / s⌉ : ℝ)
        ∧ truncCoord c s - s < c ∧ c ≤ truncCoord c s)
    ∧ (∀ c2 : ℝ, truncCoord c s = truncCoord c2 s ↔ truncQuot c s = truncQuot c2 s)
    ∧ (∀ (cl : Cloth ℝ) (pos : Vector3D ℝ), cl.hash_position pos
        = 223 * 223 * truncCoord pos.x ((cl.width / (cl.num_width_points : ℝ)) * 3)
          + 223 * truncCoord pos.y ((cl.height / (cl.num_height_points : ℝ)) * 3)
          + truncCoord pos.z (max ((cl.width / (cl.num_width_points : ℝ)) * 3)
              ((cl.height / (cl.num_height_points : ℝ)) * 3))) := by
  refine ⟨truncCoord_eq c s, truncCoord_of_nonneg c s hs, truncCoord_of_neg c s hs, ?_,
    fun cl pos => hash_position_eq_truncCoord cl pos⟩
  intro c2
  rw [truncCoord_eq, truncCoord_eq]
  constructor
  · intro h
    have := mul_left_cancel₀ hs.ne' h
    exact_mod_cast this
  · intro h
    rw [h]

/-- Witness of C17 (amended) at coordinate 3.5 and cell size 3. -/
theorem hash_truncation_witness :
    truncCoord (7 / 2 : ℝ) 3 = 3 * (truncQuot (7 / 2 : ℝ) 3 : ℝ) :=
  (hash_truncation (7 / 2) 3 (by norm_num)).1

/-- The quotient -3.5 / 3 truncates to -1. -/
theorem truncQuot_neg_example : truncQuot (-(7 / 2) : ℝ) 3 = -1 := by
  unfold truncQuot
  rw [if_neg (by norm_num)]
  rw [Int.ceil_eq_iff]
  constructor <;> norm_num

/-- The floor of -3.5 / 3 is -2. -/
theorem floor_neg_example : ⌊(-(7 / 2) : ℝ) / 3⌋ = -2 := by
  rw [Int.floor_eq_iff]
  constructor <;> norm_num

/-- Counterexample to C17 as stated: with cell size 3 the coordinate -3.5 is
truncated to -3, which is above -3.5 and is not `3 * floor(-3.5 / 3) = -6`;
the coordinates -1 and 1 are both truncated to 0 although they lie in
different cells of the 3-spaced grid. -/
theorem hash_truncation_counterexample :
    truncCoord (-(7 / 2) : ℝ) 3 = -3
    ∧ ¬ (truncCoord (-(7 / 2) : ℝ) 3 ≤ -(7 / 2))
    ∧ truncCoord (-(7 / 2) : ℝ) 3 ≠ 3 * (⌊(-(7 / 2) : ℝ) / 3⌋ : ℝ)
    ∧ truncCoord (-1 : ℝ) 3 = truncCoord (1 : ℝ) 3
    ∧ ⌊(-1 : ℝ) / 3⌋ ≠ ⌊(1 : ℝ) / 3⌋ := by
  have e : truncCoord (-(7 / 2) : ℝ) 3 = -3 := by
    rw [truncCoord_eq, truncQuot_neg_example]; norm_num
  have q1 : truncQuot (-1 : ℝ) 3 = 0 := by
    unfold truncQuot
    rw [if_neg (by norm_num), Int.ceil_eq_iff]
    constructor <;> norm_num
  have q2 : truncQuot (1 : ℝ) 3 = 0 := by
    unfold truncQuot
    rw [if_pos (by norm_num), Int.floor_eq_iff]
    constructor <;> norm_num
  have f1 : ⌊(-1 : ℝ) / 3⌋ = -1 := by
    rw [Int.floor_eq_iff]
    constructor <;> norm_num
  have f2 : ⌊(1 : ℝ) / 3⌋ = 0 := by
    rw [Int.floor_eq_iff]
    constructor <;> norm_num
  refine ⟨e, ?_, ?_, ?_, ?_⟩
  · rw [e]; norm_num
  · rw [e, floor_neg_example]; norm_num
  · rw [truncCoord_eq, truncCoord_eq, q1, q2]
  · rw [f1, f2]; decide

/-! ## Force accumulation -/

/-- Modifying one entry by a function that adds `δ` to a quantity adds `δ` to
the sum of the quantity over the list. -/
theorem sum_map_modify {α : Type} (g : α → K) (f : α → α) (δ : K)
    (h : ∀ a, g (f a) = g a + δ) (l : List α) (n : Nat) (hn : n < l.length) :
    ((List.modify f n l).map g).sum = (l.map g).sum + δ := by
  induction l generalizing n with
  | nil => simp at hn
  | cons x xs ih =>
    cases n with
    | zero =>
      rw [List.modify_zero_cons, List.map_cons, List.map_cons, List.sum_cons, List.sum_cons, h]
      ring
    | succ n =>
      have hn' : n < xs.length := by simpa using hn
      rw [List.modify_succ_cons, List.map_cons, List.map_cons, List.sum_cons, List.sum_cons,
        ih n hn']
      ring

/-- Adding a force to one point mass adds it to the sum of forces. -/
theorem sumForces_modify_add (pms : List (PointMass K)) (n : Nat) (hn : n < pms.length)
    (v : Vector3D K) :
    sumForces (List.modify (fun pm => { pm with forces := pm.forces + v }) n pms)
      = sumForces pms + v := by
  unfold sumForces sumVectors
  simp only [List.map_map]
  ext
  · exact sum_map_modify _ _ v.x (fun a => rfl) pms n hn
  · exact sum_map_modify _ _ v.y (fun a => rfl) pms n hn
  · exact sum_map_modify _ _ v.z (fun a => rfl) pms n hn

/-- Subtracting a force from one point mass subtracts it from the sum of
forces. -/
theorem sumForces_modify_sub (pms : List (PointMass K)) (n : Nat) (hn : n < pms.length)
    (v : Vector3D K) :
    sumForces (List.modify (fun pm => { pm with forces := pm.forces - v }) n pms) + v
      = sumForces pms := by
  unfold sumForces sumVectors
  simp only [List.map_map]
  ext
  · simp only [Vector3D.add_x]
    rw [sum_map_modify _ _ (-v.x) (fun a => by simp [sub_eq_add_neg]) pms n hn]
    ring
  · simp only [Vector3D.add_y]
    rw [sum_map_modify _ _ (-v.y) (fun a => by simp [sub_eq_add_neg]) pms n hn]
    ring
  · simp only [Vector3D.add_z]
    rw [sum_map_modify _ _ (-v.z) (fun a => by simp [sub_eq_add_neg]) pms n hn]
    ring

/-- An index that reads an element is within the list. -/
theorem lt_length_of_getElem? {α : Type} {l : List α} {n : Nat} {a : α}
    (h : l[n]? = some a) : n < l.length := by
  by_contra hn
  rw [List.getElem?_eq_none (not_lt.mp hn)] at h
  exact absurd h (by simp)

/-- One spring adds a force to one endpoint and subtracts the same force from
the other: the sum of forces is unchanged, whatever the force is. -/
theorem springForceStep_sumForces (sqrt : K → K) (cp : ClothParameters K)
    (pms : List (PointMass K)) (s : Spring K) :
    sumForces (springForceStep sqrt cp pms s) = sumForces pms := by
  unfold springForceStep
  by_cases hc : (s.spring_type = e_spring_type.STRUCTURAL ∧
        cp.enable_structural_constraints = false) ∨
      (s.spring_type = e_spring_type.SHEARING ∧ cp.enable_shearing_constraints = false) ∨
      (s.spring_type = e_spring_type.BENDING ∧ cp.enable_bending_constraints = false)
  · rw [if_pos hc]
  · rw [if_neg hc]
    cases ha : pms[s.pm_a]? with
    | none => rfl
    | some pa =>
      cases hb : pms[s.pm_b]? with
      | none => rfl
      | some pb =>
        dsimp only
        have hal := lt_length_of_getElem? ha
        have hbl := lt_length_of_getElem? hb
        generalize ((pb.position - pa.position).unit sqrt).smul
          (if s.spring_type = e_spring_type.BENDING then
            cp.ks * ((pb.position - pa.position).norm sqrt - s.rest_length) * (1 / 5)
          else cp.ks * ((pb.position - pa.position).norm sqrt - s.rest_length)) = v
        have h1 := sumForces_modify_add pms s.pm_a hal v
        have h2 := sumForces_modify_sub
          (List.modify (fun pm => { pm with forces := pm.forces + v }) s.pm_a pms) s.pm_b
          (by rw [List.length_modify]; exact hbl) v
        rw [h1] at h2
        ext
        · have := congrArg Vector3D.x h2; simp only [Vector3D.add_x] at this; linarith
        · have := congrArg Vector3D.y h2; simp only [Vector3D.add_y] at this; linarith
        · have := congrArg Vector3D.z h2; simp only [Vector3D.add_z] at this; linarith

/-- The spring-force loop leaves the sum of forces unchanged. -/
theorem foldl_springForceStep_sumForces (sqrt : K → K) (cp : ClothParameters K)
    (springs : List (Spring K)) (pms : List (PointMass K)) :
    sumForces (springs.foldl (springForceStep sqrt cp) pms) = sumForces pms := by
  induction springs generalizing pms with
  | nil => rfl
  | cons s springs ih => rw [List.foldl_cons, ih, springForceStep_sumForces]

/-- The loop that sums the external forces. -/
theorem foldl_external_forces (accs : List (Vector3D K)) (m : K) (init : Vector3D K) :
    accs.foldl (fun f accel => f + accel.smul m) init = init + (sumVectors accs).smul m := by
  induction accs generalizing init with
  | nil => ext <;> simp [sumVectors]
  | cons a accs ih =>
    rw [List.foldl_cons, ih]
    ext <;> simp [sumVectors] <;> ring

/-! ## Frame conditions -/

/-- Mapping a function that keeps a quantity keeps the list of quantities. -/
theorem map_map_of_inv {α β : Type} (g : α → β) (f : α → α) (h : ∀ a, g (f a) = g a)
    (l : List α) : (l.map f).map g = l.map g := by
  rw [List.map_map]
  apply List.map_congr_left
  intro a _
  exact h a

/-- Modifying an entry by a function that keeps a quantity keeps the list of
quantities. -/
theorem map_modify_of_inv {α β : Type} (g : α → β) (f : α → α) (h : ∀ a, g (f a) = g a)
    (n : Nat) (l : List α) : (List.modify f n l).map g = l.map g := by
  apply List.ext_getElem?
  intro m
  rw [List.getElem?_map, List.getElem?_map, List.getElem?_modify]
  cases l[m]? with
  | none => rfl
  | some a =>
    by_cases e : n = m <;> simp [e, h]

/-- Replacing an entry by one with the same quantity keeps the list of
quantities. -/
theorem map_set_of_inv {α β : Type} (g : α → β) (l : List α) (i : Nat) (a old : α)
    (hi : l[i]? = some old) (h : g a = g old) : (l.set i a).map g = l.map g := by
  apply List.ext_getElem?
  intro m
  rw [List.getElem?_map, List.getElem?_map, List.getElem?_set]
  by_cases e : i = m
  · subst e
    rw [if_pos rfl, if_pos (lt_length_of_getElem? hi), hi]
    simp [h]
  · rw [if_neg e]

/-- The spring-force loop body writes forces only. -/
theorem springForceStep_static (sqrt : K → K) (cp : ClothParameters K)
    (pms : List (PointMass K)) (s : Spring K) :
    (springForceStep sqrt cp pms s).map PointMass.static = pms.map PointMass.static := by
  unfold springForceStep
  split_ifs
  · rfl
  · cases pms[s.pm_a]? <;> cases pms[s.pm_b]? <;> try rfl
    dsimp only
    refine (map_modify_of_inv PointMass.static _ ?_ _ _).trans
      (map_modify_of_inv PointMass.static _ ?_ _ _) <;> intro _ <;> rfl
  · cases pms[s.pm_a]? <;> cases pms[s.pm_b]? <;> try rfl
    dsimp only
    refine (map_modify_of_inv PointMass.static _ ?_ _ _).trans
      (map_modify_of_inv PointMass.static _ ?_ _ _) <;> intro _ <;> rfl

/-- The length-constraint loop body writes positions only. -/
theorem lengthConstraintStep_static (sqrt : K → K) (pms : List (PointMass K)) (s : Spring K) :
    (lengthConstraintStep sqrt pms s).map PointMass.static = pms.map PointMass.static := by
  unfold lengthConstraintStep
  cases pms[s.pm_a]? <;> cases pms[s.pm_b]? <;> try rfl
  dsimp only
  split_ifs <;> try rfl
  · refine map_modify_of_inv PointMass.static _ ?_ _ _
    intro _; rfl
  · refine map_modify_of_inv PointMass.static _ ?_ _ _
    intro _; rfl
  · refine (map_modify_of_inv PointMass.static _ ?_ _ _).trans
      (map_modify_of_inv PointMass.static _ ?_ _ _) <;> intro _ <;> rfl

/-- A loop whose body keeps start positions and pinned flags keeps them. -/
theorem foldl_static {F α : Type} (step : List (PointMass F) → α → List (PointMass F))
    (h : ∀ pms a, (step pms a).map PointMass.static = pms.map PointMass.static)
    (l : List α) (pms : List (PointMass F)) :
    (l.foldl step pms).map PointMass.static = pms.map PointMass.static := by
  induction l generalizing pms with
  | nil => rfl
  | cons a l ih => rw [List.foldl_cons, ih, h]

/-- The integration writes position and last position only. -/
theorem verletStep_static (cp : ClothParameters K) (mass dt : K) (pm : PointMass K) :
    (verletStep cp mass dt pm).static = pm.static := by
  unfold verletStep
  split_ifs <;> rfl

/-- A collision primitive writes the position only. -/
theorem collide_static (sqrt : K → K) (co : CollisionObject K) (pm : PointMass K) :
    (co.collide sqrt pm).static = pm.static := by
  cases co with
  | plane p =>
    show (p.collide pm).static = pm.static
    unfold Plane.collide
    dsimp only
    split_ifs <;> rfl
  | sphere s =>
    show (s.collide sqrt pm).static = pm.static
    unfold Sphere.collide
    split_ifs <;> rfl

/-- All collision primitives in turn write the position only. -/
theorem foldl_collide_static (sqrt : K → K) (cos : List (CollisionObject K))
    (pm : PointMass K) :
    (cos.foldl (fun pm co => co.collide sqrt pm) pm).static = pm.static := by
  induction cos generalizing pm with
  | nil => rfl
  | cons co cos ih => rw [List.foldl_cons, ih, collide_static]

/-- `self_collide` changes only the list of point masses, and in it neither a
start position nor a pinned flag. -/
theorem self_collide_static [FloorRing K] (sqrt : K → K) (c : Cloth K) (i : Nat) (steps : K) :
    ∃ pms, c.self_collide sqrt i steps = { c with point_masses := pms }
      ∧ pms.map PointMass.static = c.point_masses.map PointMass.static := by
  unfold Cloth.self_collide
  cases hi : c.point_masses[i]? with
  | none => exact ⟨c.point_masses, rfl, rfl⟩
  | some pm =>
    dsimp only
    cases mapLookup c.map (c.hash_position pm.position) with
    | none => exact ⟨c.point_masses, rfl, rfl⟩
    | some b =>
      dsimp only
      split_ifs
      · exact ⟨_, rfl, map_set_of_inv _ _ _ _ pm hi rfl⟩
      · exact ⟨c.point_masses, rfl, rfl⟩

/-- The self-collision pass changes only the list of point masses, and in it
neither a start position nor a pinned flag. -/
theorem selfCollidePass_static [FloorRing K] (sqrt : K → K) (c : Cloth K) (steps : K) :
    ∃ pms, c.selfCollidePass sqrt steps = { c with point_masses := pms }
      ∧ pms.map PointMass.static = c.point_masses.map PointMass.static := by
  unfold Cloth.selfCollidePass
  generalize List.range c.point_masses.length = l
  induction l generalizing c with
  | nil => exact ⟨c.point_masses, rfl, rfl⟩
  | cons i l ih =>
    obtain ⟨p1, e1, s1⟩ := self_collide_static sqrt c i steps
    obtain ⟨p2, e2, s2⟩ := ih (c.self_collide sqrt i steps)
    refine ⟨p2, ?_, ?_⟩
    · rw [List.foldl_cons, e2, e1]
    · rw [s2, e1]; exact s1

/-- One step changes only the list of point masses and the spatial map; start
positions, pinned flags and the number of point masses are kept. -/
theorem simulate_frame [FloorRing K] (sqrt : K → K) (c : Cloth K) (fps steps : K)
    (cp : ClothParameters K) (accs : List (Vector3D K)) (cos : List (CollisionObject K)) :
    ∃ pms m, c.simulate sqrt fps steps cp accs cos = { c with point_masses := pms, map := m }
      ∧ pms.map PointMass.static = c.point_masses.map PointMass.static := by
  unfold Cloth.simulate
  dsimp only
  obtain ⟨p5, e5, s5⟩ := selfCollidePass_static sqrt
    (Cloth.build_spatial_map { c with point_masses :=
      (List.map (verletStep cp
        (c.width * c.height * cp.density / (c.num_width_points : K) / (c.num_height_points : K))
        (1 / fps / steps))
        (c.springs.foldl (springForceStep sqrt cp)
          (c.point_masses.map (fun pm => { pm with forces :=
            ⟨(accs.foldl (fun f accel => f + accel.smul
                (c.width * c.height * cp.density / (c.num_width_points : K)
                  / (c.num_height_points : K))) Vector3D.zero).x,
              (accs.foldl (fun f accel => f + accel.smul
                (c.width * c.height * cp.density / (c.num_width_points : K)
                  / (c.num_height_points : K))) Vector3D.zero).y,
              (accs.foldl (fun f accel => f + accel.smul
                (c.width * c.height * cp.density / (c.num_width_points : K)
                  / (c.num_height_points : K))) Vector3D.zero).z⟩ })))) }) steps
  rw [e5]
  refine ⟨_, _, rfl, ?_⟩
  rw [foldl_static _ (lengthConstraintStep_static sqrt),
    map_map_of_inv PointMass.static _ (foldl_collide_static sqrt cos), s5]
  show (List.map _ _).map PointMass.static = _
  rw [map_map_of_inv PointMass.static _ (verletStep_static cp _ _),
    foldl_static _ (springForceStep_static sqrt cp)]
  refine map_map_of_inv PointMass.static _ ?_ _
  intro _; rfl
/-- Any number of steps changes only the list of point masses and the spatial
map; start positions, pinned flags and the number of point masses are kept. -/
theorem simulateN_frame [FloorRing K] (sqrt : K → K) (fps steps : K)
    (cp : ClothParameters K) (accs : List (Vector3D K)) (cos : List (CollisionObject K))
    (n : Nat) (c : Cloth K) :
    ∃ pms m, Cloth.simulateN sqrt fps steps cp accs cos n c
        = { c with point_masses := pms, map := m }
      ∧ pms.map PointMass.static = c.point_masses.map PointMass.static := by
  induction n generalizing c with
  | zero => exact ⟨c.point_masses, c.map, rfl, rfl⟩
  | succ n ih =>
    obtain ⟨p1, m1, e1, s1⟩ := simulate_frame sqrt c fps steps cp accs cos
    obtain ⟨p2, m2, e2, s2⟩ := ih (c.simulate sqrt fps steps cp accs cos)
    refine ⟨p2, m2, ?_, ?_⟩
    · rw [Cloth.simulateN, e2, e1]
    · rw [s2, e1]; exact s1

/-- C12: `Cloth::simulate` changes of the cloth only the point masses (and the
spatial map it rebuilds), `Cloth::reset` only the point masses; in both the
list of start positions and pinned flags of the point masses is the same
afterwards (so only position, last position and forces change) and the springs
are the same, with their rest lengths, types and endpoints; the same holds
after any number of steps. -/
theorem simulate_reset_frame [FloorRing K] (sqrt : K → K) (c : Cloth K) (fps steps : K)
    (cp : ClothParameters K) (accs : List (Vector3D K)) (cos : List (CollisionObject K)) :
    (∃ pms m, c.simulate sqrt fps steps cp accs cos = { c with point_masses := pms, map := m }
        ∧ pms.map PointMass.static = c.point_masses.map PointMass.static)
    ∧ (c.simulate sqrt fps steps cp accs cos).springs = c.springs
    ∧ (∃ pms, c.reset = { c with point_masses := pms }
        ∧ pms.map PointMass.static = c.point_masses.map PointMass.static)
    ∧ c.reset.springs = c.springs
    ∧ ∀ n, (Cloth.simulateN sqrt fps steps cp accs cos n c).springs = c.springs
        ∧ (Cloth.simulateN sqrt fps steps cp accs cos n c).point_masses.map PointMass.static
            = c.point_masses.map PointMass.static := by
  refine ⟨simulate_frame sqrt c fps steps cp accs cos, ?_, ?_, rfl, fun n => ?_⟩
  · obtain ⟨p, m, e, _⟩ := simulate_frame sqrt c fps steps cp accs cos
    rw [e]
  · refine ⟨_, rfl, ?_⟩
    refine map_map_of_inv PointMass.static _ ?_ _
    intro _; rfl
  · obtain ⟨p, m, e, s⟩ := simulateN_frame sqrt fps steps cp accs cos n c
    rw [e]
    exact ⟨rfl, s⟩

/-- In a cloth built from an empty point-mass list every point mass is at its
start position. -/
theorem buildGrid_at_start (sqrt : K → K) (r : Nat → K) (c : Cloth K)
    (hp : c.point_masses = []) :
    ∀ i, positionAt (c.buildGrid sqrt r).point_masses i
      = startPositionAt (c.buildGrid sqrt r).point_masses i := by
  intro i
  unfold positionAt startPositionAt
  cases h : (c.buildGrid sqrt r).point_masses[i]? with
  | none => rfl
  | some pm =>
    have hm : pm ∈ (c.buildGrid sqrt r).point_masses := List.getElem?_mem h
    unfold Cloth.buildGrid at hm
    simp only [hp, List.nil_append, List.mem_flatMap, List.mem_map] at hm
    obtain ⟨y, _, x, _, rfl⟩ := hm
    rfl

/-- Lists of point masses with the same start positions and pinned flags have
the same start position at every index. -/
theorem startPositionAt_of_static {F : Type} (pms pms2 : List (PointMass F))
    (z : Vector3D F)
    (h : pms2.map PointMass.static = pms.map PointMass.static) (i : Nat) :
    (match pms2[i]? with | some pm => pm.start_position | none => z)
      = (match pms[i]? with | some pm => pm.start_position | none => z) := by
  have hi : (pms2.map PointMass.static)[i]? = (pms.map PointMass.static)[i]? := by rw [h]
  rw [List.getElem?_map, List.getElem?_map] at hi
  cases h1 : pms2[i]? <;> cases h2 : pms[i]? <;> rw [h1, h2] at hi <;>
    simp [PointMass.static] at hi ⊢
  exact hi.1

/-- The rest-length invariant of the specification: in a freshly built cloth,
after any number of steps with any arguments, the rest length of every spring
is the distance between the start positions of its endpoints. -/
theorem rest_length_after_steps [FloorRing K] (sqrt : K → K) (r : Nat → K) (c : Cloth K)
    (hp : c.point_masses = []) (hs : c.springs = []) (fps steps : K)
    (cp : ClothParameters K) (accs : List (Vector3D K)) (cos : List (CollisionObject K))
    (n : Nat) :
    ∀ s ∈ (Cloth.simulateN sqrt fps steps cp accs cos n (c.buildGrid sqrt r)).springs,
      s.rest_length = distance sqrt
        (startPositionAt
          (Cloth.simulateN sqrt fps steps cp accs cos n (c.buildGrid sqrt r)).point_masses s.pm_a)
        (startPositionAt
          (Cloth.simulateN sqrt fps steps cp accs cos n (c.buildGrid sqrt r)).point_masses
            s.pm_b) := by
  obtain ⟨p, m, e, st⟩ := simulateN_frame sqrt fps steps cp accs cos n (c.buildGrid sqrt r)
  rw [e]
  intro s hs'
  have h1 := buildGrid_rest_length sqrt r c hs s hs'
  rw [buildGrid_at_start sqrt r c hp, buildGrid_at_start sqrt r c hp] at h1
  rw [h1]
  unfold startPositionAt
  simp only
  rw [startPositionAt_of_static _ p Vector3D.zero st s.pm_a,
    startPositionAt_of_static _ p Vector3D.zero st s.pm_b]

/-! ## The spatial-hash partition -/

/-- The keys of the map after one push. -/
theorem mem_keys_mapPush (m : List (K × List Nat)) (k : K) (i : Nat) (k2 : K) :
    k2 ∈ (mapPush m k i).map Prod.fst ↔ k2 ∈ m.map Prod.fst ∨ k2 = k := by
  induction m with
  | nil => simp [mapPush]
  | cons e m ih =>
    obtain ⟨k1, b⟩ := e
    unfold mapPush
    split_ifs with h
    · subst h
      simp only [List.map_cons, List.mem_cons]
      tauto
    · simp only [List.map_cons, List.mem_cons, ih]
      tauto

/-- A push keeps the keys of the map different. -/
theorem nodup_keys_mapPush (m : List (K × List Nat)) (k : K) (i : Nat)
    (h : (m.map Prod.fst).Nodup) : ((mapPush m k i).map Prod.fst).Nodup := by
  induction m with
  | nil => simp [mapPush]
  | cons e m ih =>
    obtain ⟨k1, b⟩ := e
    rw [List.map_cons, List.nodup_cons] at h
    unfold mapPush
    split_ifs with hk
    · rw [List.map_cons, List.nodup_cons]
      exact h
    · rw [List.map_cons, List.nodup_cons]
      refine ⟨?_, ih h.2⟩
      rw [mem_keys_mapPush]
      rintro (h1 | h1)
      · exact h.1 h1
      · exact hk h1

/-- The loop of `build_spatial_map` keeps the keys of the map different. -/
theorem nodup_keys_buildMapFrom (hash : Vector3D K → K) (pms : List (PointMass K)) (i : Nat)
    (m : List (K × List Nat)) (h : (m.map Prod.fst).Nodup) :
    ((buildMapFrom hash pms i m).map Prod.fst).Nodup := by
  induction pms generalizing i m with
  | nil => exact h
  | cons pm rest ih => exact ih (i + 1) _ (nodup_keys_mapPush m _ i h)

/-- In a map with different keys every entry is found under its key. -/
theorem mapLookup_of_mem (m : List (K × List Nat)) (h : (m.map Prod.fst).Nodup)
    (k : K) (b : List Nat) (hm : (k, b) ∈ m) : mapLookup m k = some b := by
  induction m with
  | nil => simp at hm
  | cons e m ih =>
    obtain ⟨k1, b1⟩ := e
    rw [List.map_cons, List.nodup_cons] at h
    rw [List.mem_cons] at hm
    unfold mapLookup
    rcases hm with hm | hm
    · cases hm
      rw [if_pos rfl]
    · have hne : k1 ≠ k := by
        intro e
        apply h.1
        rw [e]
        exact List.mem_map.mpr ⟨(k, b), hm, rfl⟩
      rw [if_neg hne]
      exact ih h.2 hm

/-- What a lookup finds is an entry of the map. -/
theorem mem_of_mapLookup (m : List (K × List Nat)) (k : K) (b : List Nat)
    (h : mapLookup m k = some b) : (k, b) ∈ m := by
  induction m with
  | nil => simp [mapLookup] at h
  | cons e m ih =>
    obtain ⟨k1, b1⟩ := e
    unfold mapLookup at h
    split_ifs at h with hk
    · cases h; subst hk
      exact List.mem_cons_self _ _
    · exact List.mem_cons_of_mem _ (ih h)

/-- C11: after `Cloth::build_spatial_map` the point mass at index `i` occurs
exactly once in the bucket stored under `hash_position(position)`, and in no
bucket under another key; the keys of the map are pairwise different; every
bucket is the non-empty list of the point masses whose position hashes to its
key; and the result does not depend on the map held before. -/
theorem build_spatial_map_partition [FloorRing K] (c : Cloth K) (i : Nat) (pm : PointMass K)
    (hi : c.point_masses[i]? = some pm) :
    (∃ b, (c.hash_position pm.position, b) ∈ c.build_spatial_map.map ∧ b.count i = 1)
    ∧ (∀ k b, (k, b) ∈ c.build_spatial_map.map → i ∈ b → k = c.hash_position pm.position)
    ∧ (c.build_spatial_map.map.map Prod.fst).Nodup
    ∧ (∀ k b, (k, b) ∈ c.build_spatial_map.map →
        b = bucketFrom c.hash_position c.point_masses 0 k ∧ b ≠ [])
    ∧ (∀ m : List (K × List Nat),
        ({ c with map := m } : Cloth K).build_spatial_map = c.build_spatial_map) := by
  have hnd : (c.build_spatial_map.map.map Prod.fst).Nodup :=
    nodup_keys_buildMapFrom c.hash_position c.point_masses 0 [] (by simp)
  have hent : ∀ k b, (k, b) ∈ c.build_spatial_map.map →
      b = bucketFrom c.hash_position c.point_masses 0 k ∧ b ≠ [] := by
    intro k b hm
    have h1 := mapLookup_of_mem _ hnd k b hm
    rw [mapLookup_build_spatial_map] at h1
    split_ifs at h1 with he
    cases h1
    exact ⟨rfl, he⟩
  have himem : i ∈ bucketFrom c.hash_position c.point_masses 0 (c.hash_position pm.position) := by
    rw [mem_bucketFrom]
    exact ⟨Nat.zero_le _, pm, by simpa using hi, rfl⟩
  refine ⟨⟨bucketFrom c.hash_position c.point_masses 0 (c.hash_position pm.position), ?_, ?_⟩,
    ?_, hnd, hent, fun m => rfl⟩
  · apply mem_of_mapLookup
    rw [mapLookup_build_spatial_map, if_neg (List.ne_nil_of_mem himem)]
  · exact List.count_eq_one_of_mem
      ((bucketFrom_sorted c.hash_position c.point_masses 0 _).imp (fun h => Nat.ne_of_lt h))
      himem
  · intro k b hm hib
    rw [(hent k b hm).1, mem_bucketFrom] at hib
    obtain ⟨_, q, hq, hk⟩ := hib
    rw [Nat.sub_zero, hi] at hq
    cases hq
    exact hk.symm

/-- Witness of C11: the first point mass of the two-point example. -/
theorem build_spatial_map_partition_witness :
    ∃ b, ((exTwo : Cloth ℝ).hash_position (PointMass.new (⟨0, 0, 0⟩ : Vector3D ℝ) false).position,
        b) ∈ (exTwo : Cloth ℝ).build_spatial_map.map ∧ b.count 0 = 1 :=
  (build_spatial_map_partition (exTwo : Cloth ℝ) 0 (PointMass.new ⟨0, 0, 0⟩ false) rfl).1

/-! ## The self-collision correction -/

/-- The neighbour loop of `self_collide`: the accumulated correction is the
sum of the push-apart corrections over the close neighbours, the count their
number. -/
theorem foldl_selfCollideAcc (sqrt : K → K) (pms : List (PointMass K)) (t : K) (i : Nat)
    (pos : Vector3D K) (b : List Nat) (acc : Vector3D K × Nat) :
    b.foldl (selfCollideAcc sqrt pms t i pos) acc
      = (pushSum sqrt t pos acc.1 (closeNeighbours sqrt pms t i pos b),
         acc.2 + (closeNeighbours sqrt pms t i pos b).length) := by
  induction b generalizing acc with
  | nil => rfl
  | cons j b ih =>
    rw [List.foldl_cons, ih]
    unfold selfCollideAcc closeNeighbours pushSum
    by_cases hj : j = i
    · simp [hj]
    · cases hq : pms[j]? with
      | none => simp [hj, hq]
      | some q =>
        by_cases hd : (pos - q.position).norm sqrt ≤ 2 * t
        · simp [hj, hq, hd]
          omega
        · simp [hj, hq, hd]

/-- What `self_collide` does for a point mass with a bucket: with at least one
close neighbour (distance at most `2 * thickness`) the position is displaced by
the sum of the corrections divided by the substep count and by the number of
close neighbours; without one nothing changes. -/
theorem self_collide_formula [FloorRing K] (sqrt : K → K) (c : Cloth K) (i : Nat) (steps : K)
    (pm : PointMass K) (b : List Nat) (hi : c.point_masses[i]? = some pm)
    (hb : mapLookup c.map (c.hash_position pm.position) = some b) :
    (c.self_collide sqrt i steps).point_masses =
      if 0 < (closeNeighbours sqrt c.point_masses c.thickness i pm.position b).length then
        c.point_masses.set i { pm with position := (pm.position +
          ((pushSum sqrt c.thickness pm.position Vector3D.zero
            (closeNeighbours sqrt c.point_masses c.thickness i pm.position b)).sdiv steps).sdiv
            ((closeNeighbours sqrt c.point_masses c.thickness i pm.position b).length : K)) }
      else c.point_masses := by
  unfold Cloth.self_collide
  simp only [hi, hb, foldl_selfCollideAcc, Nat.zero_add, gt_iff_lt]
  split_ifs <;> rfl

/-- The row example is the cloth `buildGrid` builds. -/
theorem exRow_built :
    (exRowSetup : Cloth ℝ).buildGrid Real.sqrt (fun _ => 0) = exRow := by
  have e : gridSprings 3 1 = [(0, 2, e_spring_type.BENDING), (1, 0, e_spring_type.STRUCTURAL),
      (2, 1, e_spring_type.STRUCTURAL)] := by decide
  simp [Cloth.buildGrid, exRowSetup, exRow, gridPointMass, List.range_succ, e,
    Spring.new, positionAt, PointMass.new, Vector3D.norm, Vector3D.norm2,
    Vector3D.mk_sub_mk, sqrt_four]
  norm_num

/-- C14, the code at the failing input: in the freshly built row of point
masses at x = 0, 1, 2 with thickness 1, the first point mass has one neighbour
at distance 1 and one at distance exactly `2 * thickness`, all in one bucket;
`self_collide` with one substep moves it to `(-0.5, 0, 0)`: the correction
`(-1, 0, 0)` of the one close neighbour is divided by 2. -/
theorem self_collide_counts_boundary_neighbour :
    (exRowSetup : Cloth ℝ).buildGrid Real.sqrt (fun _ => 0) = exRow
    ∧ distance Real.sqrt (positionAt (exRow : Cloth ℝ).point_masses 0)
        (positionAt (exRow : Cloth ℝ).point_masses 1) = 1
    ∧ distance Real.sqrt (positionAt (exRow : Cloth ℝ).point_masses 0)
        (positionAt (exRow : Cloth ℝ).point_masses 2) = 2 * (exRow : Cloth ℝ).thickness
    ∧ mapLookup (exRow : Cloth ℝ).build_spatial_map.map
        ((exRow : Cloth ℝ).hash_position (positionAt (exRow : Cloth ℝ).point_masses 0))
        = some [0, 1, 2]
    ∧ positionAt ((exRow : Cloth ℝ).build_spatial_map.self_collide Real.sqrt 0 1).point_masses 0
        = ⟨-(1 / 2), 0, 0⟩ := by
  have f0 : fmod (0 : ℝ) 3 = 0 := fmod_of_nonneg_of_lt (by norm_num) (by norm_num)
  have f1 : fmod (1 : ℝ) 3 = 1 := fmod_of_nonneg_of_lt (by norm_num) (by norm_num)
  have f2 : fmod (2 : ℝ) 3 = 2 := fmod_of_nonneg_of_lt (by norm_num) (by norm_num)
  refine ⟨exRow_built, ?_, ?_, ?_, ?_⟩
  · norm_num [exRow, PointMass.new, positionAt, distance, Vector3D.norm, Vector3D.norm2,
      Vector3D.mk_sub_mk]
  · norm_num [exRow, PointMass.new, positionAt, distance, Vector3D.norm, Vector3D.norm2,
      Vector3D.mk_sub_mk, sqrt_four]
  · norm_num [exRow, PointMass.new, positionAt, Cloth.hash_position, f0, f1, f2,
      Cloth.build_spatial_map, buildMapFrom, mapPush, mapLookup]
  · norm_num [exRow, PointMass.new, positionAt, Cloth.hash_position, f0, f1, f2,
      Cloth.build_spatial_map, buildMapFrom, mapPush, mapLookup, Cloth.self_collide,
      selfCollideAcc, Vector3D.norm, Vector3D.norm2, Vector3D.unit, sqrt_four,
      Vector3D.mk_add_mk, Vector3D.mk_sub_mk, Vector3D.mk_smul, Vector3D.mk_sdiv,
      Vector3D.zero_eq]

/-! ## The self-collision pass reads updated positions -/

/-- The pass of the source on the two-point example: the first point mass is
pushed to x = -1, the second then sees it at distance 2 and stays. -/
theorem exTwo_pass :
    ((exTwo : Cloth ℝ).build_spatial_map.selfCollidePass Real.sqrt 1).point_masses.map
      (fun pm => pm.position) = [⟨-1, 0, 0⟩, ⟨1, 0, 0⟩] := by
  have f1 : fmod (1 : ℝ) 3 = 1 := fmod_of_nonneg_of_lt (by norm_num) (by norm_num)
  have f0 : fmod (0 : ℝ) 3 = 0 := fmod_of_nonneg_of_lt (by norm_num) (by norm_num)
  norm_num [exTwo, PointMass.new,
    Cloth.build_spatial_map, Cloth.selfCollidePass, buildMapFrom, mapPush, Cloth.hash_position,
    f0, f1, List.range_succ, Cloth.self_collide, mapLookup, selfCollideAcc,
    Vector3D.norm, Vector3D.norm2, Vector3D.unit, sqrt_four,
    Vector3D.mk_add_mk, Vector3D.mk_sub_mk, Vector3D.mk_smul, Vector3D.mk_sdiv,
    Vector3D.zero_eq]

/-- The pass from a snapshot on the two-point example: both point masses see
the other at distance 1 and are pushed by 1. -/
theorem exTwo_snapshot :
    ((exTwo : Cloth ℝ).build_spatial_map.selfCollidePassSnapshot Real.sqrt 1).point_masses.map
      (fun pm => pm.position) = [⟨-1, 0, 0⟩, ⟨2, 0, 0⟩] := by
  have f1 : fmod (1 : ℝ) 3 = 1 := fmod_of_nonneg_of_lt (by norm_num) (by norm_num)
  have f0 : fmod (0 : ℝ) 3 = 0 := fmod_of_nonneg_of_lt (by norm_num) (by norm_num)
  norm_num [exTwo, PointMass.new, Cloth.selfCollidePassSnapshot,
    Cloth.build_spatial_map, buildMapFrom, mapPush, Cloth.hash_position,
    f0, f1, Cloth.self_collide, mapLookup, selfCollideAcc, List.mapIdx_cons,
    Vector3D.norm, Vector3D.norm2, Vector3D.unit, sqrt_four,
    Vector3D.mk_add_mk, Vector3D.mk_sub_mk, Vector3D.mk_smul, Vector3D.mk_sdiv,
    Vector3D.zero_eq]

/-- The loop of the source in the reverse order on the two-point example. -/
theorem exTwo_reverse_order :
    ((exTwo : Cloth ℝ).build_spatial_map.selfCollideInOrder Real.sqrt 1 [1, 0]).point_masses.map
      (fun pm => pm.position) = [⟨0, 0, 0⟩, ⟨2, 0, 0⟩] := by
  have f1 : fmod (1 : ℝ) 3 = 1 := fmod_of_nonneg_of_lt (by norm_num) (by norm_num)
  have f0 : fmod (0 : ℝ) 3 = 0 := fmod_of_nonneg_of_lt (by norm_num) (by norm_num)
  norm_num [exTwo, PointMass.new, Cloth.selfCollideInOrder,
    Cloth.build_spatial_map, buildMapFrom, mapPush, Cloth.hash_position,
    f0, f1, Cloth.self_collide, mapLookup, selfCollideAcc,
    Vector3D.norm, Vector3D.norm2, Vector3D.unit, sqrt_four,
    Vector3D.mk_add_mk, Vector3D.mk_sub_mk, Vector3D.mk_smul, Vector3D.mk_sdiv,
    Vector3D.zero_eq]

/-- Counterexample to C15 as stated: on two point masses 1 apart in one bucket,
thickness 1, one substep, the pass of the source ends at x = -1, 1, the pass
computed from the start-of-pass positions at x = -1, 2, and the loop of the
source in the reverse order at x = 0, 2. -/
theorem self_collide_snapshot_counterexample :
    ((exTwo : Cloth ℝ).build_spatial_map.selfCollidePass Real.sqrt 1).point_masses.map
        (fun pm => pm.position) = [⟨-1, 0, 0⟩, ⟨1, 0, 0⟩]
    ∧ ((exTwo : Cloth ℝ).build_spatial_map.selfCollidePassSnapshot
        Real.sqrt 1).point_masses.map (fun pm => pm.position) = [⟨-1, 0, 0⟩, ⟨2, 0, 0⟩]
    ∧ ((exTwo : Cloth ℝ).build_spatial_map.selfCollideInOrder
        Real.sqrt 1 [1, 0]).point_masses.map (fun pm => pm.position)
        = [⟨0, 0, 0⟩, ⟨2, 0, 0⟩]
    ∧ (exTwo : Cloth ℝ).build_spatial_map.selfCollidePass Real.sqrt 1
        ≠ (exTwo : Cloth ℝ).build_spatial_map.selfCollidePassSnapshot Real.sqrt 1
    ∧ (exTwo : Cloth ℝ).build_spatial_map.selfCollidePass Real.sqrt 1
        ≠ (exTwo : Cloth ℝ).build_spatial_map.selfCollideInOrder Real.sqrt 1 [1, 0] := by
  refine ⟨exTwo_pass, exTwo_snapshot, exTwo_reverse_order, fun h => ?_, fun h => ?_⟩
  · have h1 := exTwo_pass
    rw [h, exTwo_snapshot] at h1
    norm_num at h1
  · have h1 := exTwo_pass
    rw [h, exTwo_reverse_order] at h1
    norm_num at h1

/-- The indices below `n`, split at one of them. -/
theorem range_split_one (n i : Nat) (hi : i < n) :
    List.range n = List.range i ++ i :: List.range' (i + 1) (n - i - 1) := by
  apply List.ext_getElem?
  intro k
  rcases Nat.lt_or_ge k i with h | h
  · rw [List.getElem?_append_left (by simpa using h)]
    simp [List.getElem?_range, h, show k < n by omega]
  · rw [List.getElem?_append_right (by simpa using h)]
    simp only [List.length_range]
    rcases Nat.eq_or_lt_of_le h with h1 | h1
    · subst h1
      simp [List.getElem?_range, hi]
    · obtain ⟨d, hd⟩ : ∃ d, k - i = d + 1 := ⟨k - i - 1, by omega⟩
      rw [hd, List.getElem?_cons_succ]
      by_cases hk : k < n
      · simp [List.getElem?_range', List.getElem?_range, hk, show d < n - i - 1 by omega]
        omega
      · rw [List.getElem?_eq_none (by simpa using not_lt.mp hk),
          List.getElem?_eq_none (by simp; omega)]

/-- C15 (amended): in the self-collision pass the entry of point mass `i` is
what `self_collide` computes for it in the cloth reached after the calls for
the point masses before it: there the point masses from `i` on are as when the
pass started, and those before `i` already have their final entries. -/
theorem selfCollidePass_reads_updated [FloorRing K] (sqrt : K → K) (c : Cloth K) (steps : K)
    (i : Nat) (hi : i < c.point_masses.length) :
    (c.selfCollidePass sqrt steps).point_masses[i]?
        = ((c.selfCollideInOrder sqrt steps (List.range i)).self_collide sqrt i
            steps).point_masses[i]?
    ∧ (∀ j, i ≤ j → (c.selfCollideInOrder sqrt steps (List.range i)).point_masses[j]?
        = c.point_masses[j]?)
    ∧ (∀ j, j < i → (c.selfCollideInOrder sqrt steps (List.range i)).point_masses[j]?
        = (c.selfCollidePass sqrt steps).point_masses[j]?)
    ∧ ∃ pms, c.selfCollideInOrder sqrt steps (List.range i) = { c with point_masses := pms } := by
  have hsplit : c.selfCollidePass sqrt steps
      = (List.range' (i + 1) (c.point_masses.length - i - 1)).foldl
          (fun c k => c.self_collide sqrt k steps)
          ((c.selfCollideInOrder sqrt steps (List.range i)).self_collide sqrt i steps) := by
    unfold Cloth.selfCollidePass Cloth.selfCollideInOrder
    rw [range_split_one _ i hi, List.foldl_append, List.foldl_cons]
  obtain ⟨p1, e1, f1⟩ := foldl_self_collide_frame sqrt (List.range i) c steps
  have e1' : c.selfCollideInOrder sqrt steps (List.range i) = { c with point_masses := p1 } := e1
  obtain ⟨p2, e2, f2⟩ := self_collide_frame sqrt
    (c.selfCollideInOrder sqrt steps (List.range i)) i steps
  obtain ⟨p3, e3, f3⟩ := foldl_self_collide_frame sqrt
    (List.range' (i + 1) (c.point_masses.length - i - 1))
    ((c.selfCollideInOrder sqrt steps (List.range i)).self_collide sqrt i steps) steps
  refine ⟨?_, ?_, ?_, ⟨p1, e1'⟩⟩
  · rw [hsplit, e3]
    exact f3 i (by simp only [List.mem_range'_1]; omega)
  · intro j hj
    rw [e1']
    exact f1 j (by simp only [List.mem_range]; omega)
  · intro j hj
    rw [hsplit, e3]
    show _ = p3[j]?
    rw [f3 j (by simp only [List.mem_range'_1]; omega), e2]
    show _ = p2[j]?
    rw [f2 j (by omega)]

/-- Witness of C15 (amended): the second point mass of the two-point example. -/
theorem selfCollidePass_reads_updated_witness :
    ((exTwo : Cloth ℝ).selfCollidePass Real.sqrt 1).point_masses[1]?
      = (((exTwo : Cloth ℝ).selfCollideInOrder Real.sqrt 1 (List.range 1)).self_collide
          Real.sqrt 1 1).point_masses[1]? :=
  (selfCollidePass_reads_updated Real.sqrt (exTwo : Cloth ℝ) 1 1 (by decide)).1

/-! ## Normalisation of a zero vector -/

/-- A difference has length 0 exactly when the two vectors are equal. -/
theorem norm_eq_zero_iff (a b : Vector3D ℝ) : (a - b).norm Real.sqrt = 0 ↔ a = b := by
  unfold Vector3D.norm
  rw [Real.sqrt_eq_zero (Vector3D.norm2_nonneg _)]
  unfold Vector3D.norm2
  simp only [Vector3D.sub_x, Vector3D.sub_y, Vector3D.sub_z]
  constructor
  · intro h
    have hx : (a.x - b.x) * (a.x - b.x) = 0 := by
      nlinarith [mul_self_nonneg (a.x - b.x), mul_self_nonneg (a.y - b.y),
        mul_self_nonneg (a.z - b.z)]
    have hy : (a.y - b.y) * (a.y - b.y) = 0 := by
      nlinarith [mul_self_nonneg (a.x - b.x), mul_self_nonneg (a.y - b.y),
        mul_self_nonneg (a.z - b.z)]
    have hz : (a.z - b.z) * (a.z - b.z) = 0 := by
      nlinarith [mul_self_nonneg (a.x - b.x), mul_self_nonneg (a.y - b.y),
        mul_self_nonneg (a.z - b.z)]
    ext
    · exact sub_eq_zero.mp (mul_self_eq_zero.mp hx)
    · exact sub_eq_zero.mp (mul_self_eq_zero.mp hy)
    · exact sub_eq_zero.mp (mul_self_eq_zero.mp hz)
  · intro h
    rw [h]; ring

/-- The spring-force step with partial normalisation fails on an enabled spring
with both endpoints in the array and a separation of length 0, and is the step
of the source otherwise. -/
theorem springForceStepChecked_eq (sqrt : K → K) (cp : ClothParameters K)
    (pms : List (PointMass K)) (s : Spring K) :
    springForceStepChecked sqrt cp pms s =
      if ¬ ((s.spring_type = e_spring_type.STRUCTURAL ∧
              cp.enable_structural_constraints = false) ∨
            (s.spring_type = e_spring_type.SHEARING ∧ cp.enable_shearing_constraints = false) ∨
            (s.spring_type = e_spring_type.BENDING ∧ cp.enable_bending_constraints = false))
          ∧ (positionAt pms s.pm_b - positionAt pms s.pm_a).norm sqrt = 0
          ∧ s.pm_a < pms.length ∧ s.pm_b < pms.length then none
      else some (springForceStep sqrt cp pms s) := by
  unfold springForceStepChecked springForceStep positionAt
  by_cases hc : (s.spring_type = e_spring_type.STRUCTURAL ∧
        cp.enable_structural_constraints = false) ∨
      (s.spring_type = e_spring_type.SHEARING ∧ cp.enable_shearing_constraints = false) ∨
      (s.spring_type = e_spring_type.BENDING ∧ cp.enable_bending_constraints = false)
  · simp [hc]
  · simp only [if_neg hc, hc, not_false_eq_true, true_and]
    cases ha : pms[s.pm_a]? with
    | none =>
      have : ¬ s.pm_a < pms.length := fun h => by
        rw [List.getElem?_eq_getElem h] at ha; exact absurd ha (by simp)
      simp [this]
    | some pa =>
      cases hb : pms[s.pm_b]? with
      | none =>
        have : ¬ s.pm_b < pms.length := fun h => by
          rw [List.getElem?_eq_getElem h] at hb; exact absurd hb (by simp)
        simp [this]
      | some pb =>
        have hal := lt_length_of_getElem? ha
        have hbl := lt_length_of_getElem? hb
        by_cases hz : (pb.position - pa.position).norm sqrt = 0
        · simp [Vector3D.unitChecked, hz, hal, hbl]
        · simp [Vector3D.unitChecked, hz]

/-- The neighbour step with partial normalisation fails on a neighbour other
than the point itself at separation 0 (when `0 ≤ 2 * thickness`), and is the
step of the source otherwise. -/
theorem selfCollideAccChecked_eq (sqrt : K → K) (pms : List (PointMass K)) (t : K) (i : Nat)
    (pos : Vector3D K) (acc : Vector3D K × Nat) (j : Nat) :
    selfCollideAccChecked sqrt pms t i pos acc j =
      if j ≠ i ∧ j < pms.length ∧ (pos - positionAt pms j).norm sqrt = 0 ∧ 0 ≤ 2 * t then none
      else some (selfCollideAcc sqrt pms t i pos acc j) := by
  unfold selfCollideAccChecked selfCollideAcc positionAt
  by_cases hj : j = i
  · simp [hj]
  · simp only [if_neg hj, ne_eq, hj, not_false_eq_true, true_and]
    cases hq : pms[j]? with
    | none =>
      have : ¬ j < pms.length := fun h => by
        rw [List.getElem?_eq_getElem h] at hq; exact absurd hq (by simp)
      simp [this]
    | some q =>
      have hjl := lt_length_of_getElem? hq
      by_cases hz : (pos - q.position).norm sqrt = 0
      · by_cases ht : 0 ≤ 2 * t
        · simp [Vector3D.unitChecked, hz, ht, hjl]
        · simp [Vector3D.unitChecked, hz, ht]
      · by_cases hd : (pos - q.position).norm sqrt ≤ 2 * t
        · simp [Vector3D.unitChecked, hz, hd]
        · simp [Vector3D.unitChecked, hz, hd]


/-- The length-constraint step with partial normalisation fails only on a
separation of length 0 that exceeds 1.1 times the rest length, and is the step
of the source otherwise. -/
theorem lengthConstraintStepChecked_eq (sqrt : K → K) (pms : List (PointMass K)) (s : Spring K) :
    lengthConstraintStepChecked sqrt pms s =
      if s.pm_a < pms.length ∧ s.pm_b < pms.length
          ∧ (positionAt pms s.pm_a - positionAt pms s.pm_b).norm sqrt = 0
          ∧ s.rest_length * (11 / 10) < 0 then none
      else some (lengthConstraintStep sqrt pms s) := by
  unfold lengthConstraintStepChecked lengthConstraintStep positionAt
  cases ha : pms[s.pm_a]? with
  | none =>
    have : ¬ s.pm_a < pms.length := fun h => by
      rw [List.getElem?_eq_getElem h] at ha; exact absurd ha (by simp)
    simp [this]
  | some pa =>
    cases hb : pms[s.pm_b]? with
    | none =>
      have : ¬ s.pm_b < pms.length := fun h => by
        rw [List.getElem?_eq_getElem h] at hb; exact absurd hb (by simp)
      simp [this]
    | some pb =>
      have hal := lt_length_of_getElem? ha
      have hbl := lt_length_of_getElem? hb
      dsimp only
      by_cases hz : (pa.position - pb.position).norm sqrt = 0
      · by_cases hd : s.rest_length * (11 / 10) < 0
        · simp [Vector3D.unitChecked, hz, hd, hal, hbl]
        · simp [Vector3D.unitChecked, hz, hd]
      · by_cases hd : (pa.position - pb.position).norm sqrt > s.rest_length * (11 / 10)
        · simp only [if_pos hd, Vector3D.unitChecked, if_neg hz, hz, false_and, and_false]
          split_ifs <;> rfl
        · simp [hd, hz]

/-- The sphere collision with partial normalisation fails on a point mass at
the centre of a sphere of positive radius, and is the source's otherwise. -/
theorem sphere_collideChecked_eq (sqrt : K → K) (s : Sphere K) (pm : PointMass K) :
    s.collideChecked sqrt pm =
      if (pm.position - s.origin).norm sqrt = 0 ∧ 0 < s.radius then none
      else some (s.collide sqrt pm) := by
  unfold Sphere.collideChecked Sphere.collide
  by_cases hz : (pm.position - s.origin).norm sqrt = 0
  · by_cases hr : 0 < s.radius
    · simp [Vector3D.unitChecked, hz, hr]
    · simp [Vector3D.unitChecked, hz, hr]
  · by_cases hd : (pm.position - s.origin).norm sqrt < s.radius
    · simp [Vector3D.unitChecked, hz, hd]
    · simp [Vector3D.unitChecked, hz, hd]

/-- A collision with partial normalisation fails or is the source's. -/
theorem collideChecked_total (sqrt : K → K) (co : CollisionObject K) (pm : PointMass K) :
    co.collideChecked sqrt pm = none ∨ co.collideChecked sqrt pm = some (co.collide sqrt pm) := by
  cases co with
  | plane p => exact Or.inr rfl
  | sphere s =>
    show s.collideChecked sqrt pm = none ∨ s.collideChecked sqrt pm = some (s.collide sqrt pm)
    rw [sphere_collideChecked_eq]
    split_ifs
    · exact Or.inl rfl
    · exact Or.inr rfl

/-- A fold of steps that each fail or agree with a total step fails or agrees
with the fold of the total step. -/
theorem foldlM_total {α β : Type} (g : β → α → Option β) (f : β → α → β)
    (h : ∀ b a, g b a = none ∨ g b a = some (f b a)) (l : List α) (b : β) :
    l.foldlM g b = none ∨ l.foldlM g b = some (l.foldl f b) := by
  induction l generalizing b with
  | nil => exact Or.inr rfl
  | cons a l ih =>
    rw [List.foldlM_cons, List.foldl_cons]
    rcases h b a with h1 | h1
    · left; rw [h1]; rfl
    · rw [h1]; exact ih (f b a)

/-- A map of steps that each fail or agree with a total step fails or agrees
with the map of the total step. -/
theorem mapM_total {α β : Type} (g : α → Option β) (f : α → β)
    (h : ∀ a, g a = none ∨ g a = some (f a)) (l : List α) :
    l.mapM g = none ∨ l.mapM g = some (l.map f) := by
  induction l with
  | nil => exact Or.inr rfl
  | cons a l ih =>
    rw [List.mapM_cons, List.map_cons]
    rcases h a with h1 | h1
    · left; rw [h1]; rfl
    · rw [h1]
      rcases ih with h2 | h2
      · left; rw [h2]; rfl
      · right; rw [h2]; rfl

/-- `self_collide` with partial normalisation fails or is the source's. -/
theorem self_collide_checked_total [FloorRing K] (sqrt : K → K) (c : Cloth K) (i : Nat)
    (steps : K) :
    c.self_collide_checked sqrt i steps = none ∨
      c.self_collide_checked sqrt i steps = some (c.self_collide sqrt i steps) := by
  unfold Cloth.self_collide_checked Cloth.self_collide
  cases hi : c.point_masses[i]? with
  | none => exact Or.inr rfl
  | some pm =>
    dsimp only
    cases hb : mapLookup c.map (c.hash_position pm.position) with
    | none => exact Or.inr rfl
    | some b =>
      dsimp only
      rcases foldlM_total (selfCollideAccChecked sqrt c.point_masses c.thickness i pm.position)
        (selfCollideAcc sqrt c.point_masses c.thickness i pm.position)
        (fun acc j => by rw [selfCollideAccChecked_eq]; split_ifs; exacts [Or.inl rfl, Or.inr rfl])
        b (Vector3D.zero, 0) with h | h
      · left; rw [h]
      · right; rw [h]
        dsimp only
        split_ifs <;> rfl

/-- The step with partial normalisation fails or is the step of the source. -/
theorem simulateChecked_total [FloorRing K] (sqrt : K → K) (c : Cloth K) (fps steps : K)
    (cp : ClothParameters K) (accs : List (Vector3D K)) (cos : List (CollisionObject K)) :
    c.simulateChecked sqrt fps steps cp accs cos = none ∨
      c.simulateChecked sqrt fps steps cp accs cos = some (c.simulate sqrt fps steps cp accs cos) := by
  unfold Cloth.simulateChecked Cloth.simulate Cloth.selfCollidePass
  dsimp only
  rcases foldlM_total (springForceStepChecked sqrt cp) (springForceStep sqrt cp)
    (fun b a => by rw [springForceStepChecked_eq]; split_ifs; exacts [Or.inl rfl, Or.inr rfl])
    c.springs _ with h1 | h1
  · left; rw [h1]; rfl
  rw [h1]
  simp only [Option.bind_eq_bind, Option.some_bind]
  rcases foldlM_total (fun (c : Cloth K) i => c.self_collide_checked sqrt i steps)
    (fun (c : Cloth K) i => c.self_collide sqrt i steps)
    (fun b a => self_collide_checked_total sqrt b a steps) _ _ with h2 | h2
  · left; rw [h2]; rfl
  rw [h2]
  simp only [Option.some_bind]
  rcases mapM_total (fun pm => cos.foldlM (fun pm co => co.collideChecked sqrt pm) pm)
    (fun pm => cos.foldl (fun pm co => co.collide sqrt pm) pm)
    (fun pm => foldlM_total _ _ (fun b a => collideChecked_total sqrt a b) cos pm) _ with h3 | h3
  · left; rw [h3]; rfl
  rw [h3]
  simp only [Option.some_bind]
  rcases foldlM_total (lengthConstraintStepChecked sqrt) (lengthConstraintStep sqrt)
    (fun b a => by rw [lengthConstraintStepChecked_eq]; split_ifs; exacts [Or.inl rfl, Or.inr rfl])
    _ _ with h4 | h4
  · left; rw [h4]; rfl
  rw [h4]
  right; rfl

/-- C16, the claim refuted: on the 2 x 1 grid whose two point masses coincide,
the step with partial normalisation fails. With the spring enabled the
spring-force loop normalises the zero separation of its endpoints; with every
spring type disabled `self_collide` normalises the zero separation of the
same-bucket neighbour. In the source's neighbour loop that neighbour is
counted: the count after it is 1, it is not skipped. -/
theorem normalisation_unguarded_counterexample :
    (exCoincident : Cloth ℝ).simulateChecked Real.sqrt 1 1 exParams [] [] = none ∧
    (exCoincident : Cloth ℝ).simulateChecked Real.sqrt 1 1 exParamsOff [] [] = none ∧
    (selfCollideAcc Real.sqrt (exCoincident : Cloth ℝ).point_masses 1 0 ⟨0, 0, 0⟩
      (Vector3D.zero, 0) 1).2 = 1 := by
  have f0 : fmod (0 : ℝ) 3 = 0 := fmod_of_nonneg_of_lt (by norm_num) (by norm_num)
  refine ⟨?_, ?_, ?_⟩
  · simp [Cloth.simulateChecked, exCoincident, exParams, springForceStepChecked, PointMass.new,
      Vector3D.unitChecked, Vector3D.norm, Vector3D.norm2, Vector3D.mk_sub_mk]
  · norm_num [Cloth.simulateChecked, exCoincident, exParamsOff, springForceStepChecked, verletStep,
      PointMass.new, Cloth.build_spatial_map, buildMapFrom, mapPush, Cloth.hash_position,
      f0, List.range_succ, Cloth.self_collide_checked, mapLookup, selfCollideAccChecked,
      Vector3D.unitChecked, Vector3D.norm, Vector3D.norm2,
      Vector3D.mk_add_mk, Vector3D.mk_sub_mk, Vector3D.mk_smul, Vector3D.mk_sdiv,
      Vector3D.zero_eq]
  · norm_num [exCoincident, selfCollideAcc, PointMass.new, Vector3D.norm, Vector3D.norm2,
      Vector3D.unit, Vector3D.mk_add_mk, Vector3D.mk_sub_mk, Vector3D.mk_smul,
      Vector3D.zero_eq]

/-! ## The stretch bound along the pass -/

/-- The length of a vector along the x axis. -/
theorem Vector3D.norm_mk_x (a : ℝ) : (⟨a, 0, 0⟩ : Vector3D ℝ).norm Real.sqrt = |a| := by
  unfold Vector3D.norm Vector3D.norm2
  simp only [mul_zero, add_zero]
  exact Real.sqrt_mul_self_eq_abs a

/-- A position that none of the corrections of a list of springs moves, each
in the state it is applied to, is the same after the list. -/
theorem foldl_lengthConstraintStep_positionAt (sqrt : K → K) (post : List (Spring K))
    (pms : List (PointMass K)) (k : Nat)
    (h : ∀ p1 t p2, post = p1 ++ t :: p2 →
      positionAt (lengthConstraintStep sqrt (p1.foldl (lengthConstraintStep sqrt) pms) t) k
        = positionAt (p1.foldl (lengthConstraintStep sqrt) pms) k) :
    positionAt (post.foldl (lengthConstraintStep sqrt) pms) k = positionAt pms k := by
  induction post generalizing pms with
  | nil => rfl
  | cons t post ih =>
    rw [List.foldl_cons, ih (lengthConstraintStep sqrt pms t)
      (fun p1 u p2 e => h (t :: p1) u p2 (by rw [e]; rfl))]
    exact h [] t post rfl

/-- The correction of a spring that is within its stretch bound moves no
endpoint of any spring. -/
theorem leavesEndpoints_of_within (sqrt : K → K) (pms : List (PointMass K)) (t s : Spring K)
    (h : stretchBound sqrt pms t) : leavesEndpoints sqrt pms t s := by
  unfold leavesEndpoints
  rw [lengthConstraintStep_within sqrt pms t h]
  exact ⟨rfl, rfl⟩

/-- The correction of a spring leaves alone a point mass that is pinned or is
none of its endpoints. -/
theorem lengthConstraintStep_positionAt (sqrt : K → K) (pms : List (PointMass K))
    (t : Spring K) (k : Nat)
    (h : (t.pm_a ≠ k ∧ t.pm_b ≠ k) ∨ ∃ pk, pms[k]? = some pk ∧ pk.pinned = true) :
    positionAt (lengthConstraintStep sqrt pms t) k = positionAt pms k := by
  unfold positionAt
  rcases h with h | ⟨pk, hk, hp⟩
  · rw [lengthConstraintStep_getElem?_of_ne sqrt pms t k h.1 h.2]
  · rw [lengthConstraintStep_pinned_fixed sqrt pms t k pk hk hp, hk]

/-- The correction of a spring moves no endpoint of `s` when each endpoint of
`s` is pinned or is none of its endpoints. -/
theorem leavesEndpoints_of_apart_or_pinned (sqrt : K → K) (pms : List (PointMass K))
    (t s : Spring K)
    (ha : (t.pm_a ≠ s.pm_a ∧ t.pm_b ≠ s.pm_a) ∨
      ∃ pk, pms[s.pm_a]? = some pk ∧ pk.pinned = true)
    (hb : (t.pm_a ≠ s.pm_b ∧ t.pm_b ≠ s.pm_b) ∨
      ∃ pk, pms[s.pm_b]? = some pk ∧ pk.pinned = true) :
    leavesEndpoints sqrt pms t s :=
  ⟨lengthConstraintStep_positionAt sqrt pms t s.pm_a ha,
   lengthConstraintStep_positionAt sqrt pms t s.pm_b hb⟩

/-- C3 (amended): at the end of the length-constraint pass, a spring with
both endpoints in the array, not both pinned, with non-negative rest length,
none of whose endpoints is moved by the correction of a spring processed after
it (each correction taken in the state in which the loop applies it),
satisfies `distance(pm_a.position, pm_b.position) <= 1.1 * rest_length`. -/
theorem lengthConstraint_stretch_bound (c : Cloth ℝ) (pre post : List (Spring ℝ))
    (s : Spring ℝ) (hs : c.springs = pre ++ s :: post)
    (pa pb : PointMass ℝ) (ha : c.point_masses[s.pm_a]? = some pa)
    (hb : c.point_masses[s.pm_b]? = some pb)
    (hrest : 0 ≤ s.rest_length)
    (hpin : ¬ (pa.pinned = true ∧ pb.pinned = true))
    (hlater : ∀ p1 t p2, post = p1 ++ t :: p2 →
      leavesEndpoints Real.sqrt
        ((pre ++ s :: p1).foldl (lengthConstraintStep Real.sqrt) c.point_masses) t s) :
    stretchBound Real.sqrt (c.lengthConstraint Real.sqrt).point_masses s := by
  by_cases hab : s.pm_a = s.pm_b
  · unfold stretchBound distance
    rw [hab, norm_self_sub]
    positivity
  have hfold : (c.lengthConstraint Real.sqrt).point_masses
      = post.foldl (lengthConstraintStep Real.sqrt)
          (lengthConstraintStep Real.sqrt
            (pre.foldl (lengthConstraintStep Real.sqrt) c.point_masses) s) := by
    simp [Cloth.lengthConstraint, hs, List.foldl_append]
  have hpa := foldl_lengthConstraintStep_pinned Real.sqrt pre c.point_masses s.pm_a
  have hpb := foldl_lengthConstraintStep_pinned Real.sqrt pre c.point_masses s.pm_b
  rw [ha] at hpa
  rw [hb] at hpb
  obtain ⟨qa, hqa, hqap⟩ := Option.map_eq_some'.mp hpa
  obtain ⟨qb, hqb, hqbp⟩ := Option.map_eq_some'.mp hpb
  have hstep := lengthConstraintStep_bound
    (pre.foldl (lengthConstraintStep Real.sqrt) c.point_masses) s qa qb hqa hqb hab hrest
    (by rw [hqap, hqbp]; exact hpin)
  have hl : ∀ p1 t p2, post = p1 ++ t :: p2 →
      leavesEndpoints Real.sqrt (p1.foldl (lengthConstraintStep Real.sqrt)
        (lengthConstraintStep Real.sqrt
          (pre.foldl (lengthConstraintStep Real.sqrt) c.point_masses) s)) t s := by
    intro p1 t p2 e
    have := hlater p1 t p2 e
    rwa [List.foldl_append, List.foldl_cons] at this
  unfold stretchBound at hstep ⊢
  rw [hfold,
    foldl_lengthConstraintStep_positionAt Real.sqrt post _ s.pm_a
      (fun p1 t p2 e => (hl p1 t p2 e).1),
    foldl_lengthConstraintStep_positionAt Real.sqrt post _ s.pm_b
      (fun p1 t p2 e => (hl p1 t p2 e).2)]
  exact hstep

/-- Witness of C3 (amended): in the row example with the middle point mass
moved onto the third, the second spring is corrected; the third spring, which
shares the middle point mass with it, is then within its bound and moves
nothing. -/
theorem lengthConstraint_stretch_bound_witness :
    stretchBound Real.sqrt ((exRowPulled : Cloth ℝ).lengthConstraint Real.sqrt).point_masses
      ⟨1, 0, e_spring_type.STRUCTURAL, 1⟩ :=
  lengthConstraint_stretch_bound exRowPulled [⟨0, 2, e_spring_type.BENDING, 2⟩]
    [⟨2, 1, e_spring_type.STRUCTURAL, 1⟩]
    ⟨1, 0, e_spring_type.STRUCTURAL, 1⟩ rfl ⟨⟨2, 0, 0⟩, ⟨1, 0, 0⟩, ⟨1, 0, 0⟩, ⟨0, 0, 0⟩, false⟩
    (PointMass.new ⟨0, 0, 0⟩ false) rfl rfl (by norm_num)
    (by simp [PointMass.new]) (by
      intro p1 t p2 e
      have e1 : p1 = [] ∧ t = ⟨2, 1, e_spring_type.STRUCTURAL, 1⟩ := by
        cases p1 with
        | nil =>
          simp only [List.nil_append, List.cons.injEq] at e
          exact ⟨rfl, e.1.symm⟩
        | cons a p1 =>
          simp only [List.cons_append, List.cons.injEq] at e
          exact absurd e.2 (by simp)
      obtain ⟨rfl, rfl⟩ := e1
      apply leavesEndpoints_of_within
      have s1 : Real.sqrt (81 / 400) = 9 / 20 := by
        rw [show (81 / 400 : ℝ) = (9 / 20) * (9 / 20) by norm_num]
        exact Real.sqrt_mul_self (by norm_num)
      norm_num [stretchBound, distance, positionAt, exRowPulled, PointMass.new,
        lengthConstraintStep, Vector3D.norm, Vector3D.norm2, Vector3D.unit, List.modify,
        sqrt_four, s1, Vector3D.mk_add_mk, Vector3D.mk_sub_mk, Vector3D.mk_smul,
        Vector3D.mk_sdiv, Vector3D.zero_eq])

/-! ## Separation of a pair among far bucket members -/

/-- A filter that lets through at most the one element `j` of a list without
repetition keeps what it gives for `j`. -/
theorem filterMap_unique {α β : Type} (f : α → Option β) (b : List α) (j : α) (hj : j ∈ b)
    (hnd : b.Nodup) (h : ∀ k ∈ b, k ≠ j → f k = none) : b.filterMap f = (f j).toList := by
  induction b with
  | nil => exact absurd hj (by simp)
  | cons a b ih =>
    obtain ⟨hab, hnb⟩ := List.nodup_cons.mp hnd
    by_cases haj : a = j
    · subst haj
      have hrest : b.filterMap f = [] :=
        List.filterMap_eq_nil_iff.mpr (fun k hk =>
          h k (List.mem_cons_of_mem _ hk) (fun e => hab (e ▸ hk)))
      cases hfa : f a with
      | none => rw [List.filterMap_cons_none hfa, hrest]; rfl
      | some x => rw [List.filterMap_cons_some hfa, hrest]; rfl
    · have hjb : j ∈ b := by
        rcases List.mem_cons.mp hj with e | e
        · exact absurd e.symm haj
        · exact e
      rw [List.filterMap_cons_none (h a (List.mem_cons_self _ _) haj)]
      exact ih hjb hnb (fun k hk hkj => h k (List.mem_cons_of_mem _ hk) hkj)

/-- `self_collide` on a point mass `i` whose bucket holds `j` and members that
are all farther than `2 * thickness` from `i`: `i` is pushed away from `j`. -/
theorem self_collide_one_close [FloorRing K] (sqrt : K → K) (c : Cloth K) (i j : Nat)
    (steps : K) (pi pj : PointMass K) (hij : i ≠ j)
    (hi : c.point_masses[i]? = some pi) (hj : c.point_masses[j]? = some pj)
    (b : List Nat) (hmap : mapLookup c.map (c.hash_position pi.position) = some b)
    (hjb : j ∈ b) (hnd : b.Nodup)
    (hfar : ∀ k ∈ b, k ≠ i → k ≠ j → ∀ pk, c.point_masses[k]? = some pk →
      2 * c.thickness < (pi.position - pk.position).norm sqrt) :
    (c.self_collide sqrt i steps).point_masses[i]?
      = some { pi with position := pushApart sqrt c.thickness steps pi.position pj.position } := by
  have hlt : i < c.point_masses.length := lt_length_of_getElem? hi
  have hji : j ≠ i := Ne.symm hij
  have hcn : closeNeighbours sqrt c.point_masses c.thickness i pi.position b
      = if (pi.position - pj.position).norm sqrt ≤ 2 * c.thickness then [pj.position]
        else [] := by
    unfold closeNeighbours
    rw [filterMap_unique _ b j hjb hnd]
    · simp only [hji, if_false, hj]
      split_ifs <;> rfl
    · intro k hk hkj
      by_cases hki : k = i
      · simp [hki]
      · simp only [hki, if_false]
        cases hpk : c.point_masses[k]? with
        | none => rfl
        | some pk =>
          dsimp only
          rw [if_neg (not_le.mpr (hfar k hk hki hkj pk hpk))]
  rw [self_collide_formula sqrt c i steps pi b hi hmap, hcn]
  unfold pushApart
  by_cases hd : (pi.position - pj.position).norm sqrt ≤ 2 * c.thickness
  · simp only [if_pos hd, List.length_singleton, zero_lt_one, if_true]
    rw [List.getElem?_set_self hlt]
    congr 2
    unfold pushSum
    simp only [List.foldl_cons, List.foldl_nil]
    ext <;> simp <;> ring
  · simp only [if_neg hd, List.length_nil, lt_irrefl, if_false]
    exact hi

/-- The hash rebuild and self-collision pass on two point masses `i < j` of one
cell, when no other member of the cell is within `2 * thickness` of either at
the moment the pass reaches it: `i` is pushed from the old position of `j`,
then `j` from the new position of `i`. -/
theorem selfCollidePass_pair_far [FloorRing K] (sqrt : K → K) (c : Cloth K) (steps : K)
    (i j : Nat) (pi pj : PointMass K) (hij : i < j)
    (hi : c.point_masses[i]? = some pi) (hj : c.point_masses[j]? = some pj)
    (hkey : c.hash_position pi.position = c.hash_position pj.position)
    (hfar_i : ∀ k pk, c.point_masses[k]? = some pk →
      c.hash_position pk.position = c.hash_position pi.position → k ≠ i → k ≠ j →
      2 * c.thickness < distance sqrt pi.position
        (positionAt (c.build_spatial_map.selfCollideInOrder sqrt steps
          (List.range i)).point_masses k))
    (hfar_j : ∀ k pk, c.point_masses[k]? = some pk →
      c.hash_position pk.position = c.hash_position pi.position → k ≠ i → k ≠ j →
      2 * c.thickness < distance sqrt pj.position
        (positionAt (c.build_spatial_map.selfCollideInOrder sqrt steps
          (List.range j)).point_masses k)) :
    (c.build_spatial_map.selfCollidePass sqrt steps).point_masses[i]?
        = some { pi with position := pushApart sqrt c.thickness steps pi.position pj.position }
    ∧ (c.build_spatial_map.selfCollidePass sqrt steps).point_masses[j]?
        = some { pj with position := (pushApart sqrt c.thickness steps pj.position
            (pushApart sqrt c.thickness steps pi.position pj.position)) } := by
  have hjn : j < c.point_masses.length := lt_length_of_getElem? hj
  have hne : i ≠ j := Nat.ne_of_lt hij
  -- the bucket of the two
  have hbi : i ∈ bucketFrom c.hash_position c.point_masses 0 (c.hash_position pi.position) :=
    (mem_bucketFrom _ _ _ _ _).mpr ⟨Nat.zero_le _, pi, hi, rfl⟩
  have hbj : j ∈ bucketFrom c.hash_position c.point_masses 0 (c.hash_position pi.position) :=
    (mem_bucketFrom _ _ _ _ _).mpr ⟨Nat.zero_le _, pj, hj, hkey.symm⟩
  have hnd : (bucketFrom c.hash_position c.point_masses 0
      (c.hash_position pi.position)).Nodup :=
    (bucketFrom_sorted c.hash_position c.point_masses 0 _).imp (fun h => Nat.ne_of_lt h)
  have hmap : mapLookup c.build_spatial_map.map (c.hash_position pi.position)
      = some (bucketFrom c.hash_position c.point_masses 0 (c.hash_position pi.position)) := by
    rw [mapLookup_build_spatial_map, if_neg]
    intro h; rw [h] at hbi; exact absurd hbi (by simp)
  have hmem : ∀ k, k ∈ bucketFrom c.hash_position c.point_masses 0
      (c.hash_position pi.position) →
      ∃ pk, c.point_masses[k]? = some pk ∧
        c.hash_position pk.position = c.hash_position pi.position := by
    intro k hk
    obtain ⟨_, pk, h1, h2⟩ := (mem_bucketFrom _ _ _ _ _).mp hk
    exact ⟨pk, h1, h2⟩
  -- the pass up to `i`
  obtain ⟨P1, e1, f1⟩ := foldl_self_collide_frame sqrt (List.range i) c.build_spatial_map steps
  have e1' : c.build_spatial_map.selfCollideInOrder sqrt steps (List.range i)
      = { c.build_spatial_map with point_masses := P1 } := e1
  have hi1 : P1[i]? = some pi := (f1 i (by simp)).trans hi
  have hj1 : P1[j]? = some pj := (f1 j (by simp only [List.mem_range]; omega)).trans hj
  -- the call for `i`
  have hi2 := self_collide_one_close sqrt { c.build_spatial_map with point_masses := P1 }
    i j steps pi pj hne hi1 hj1 _ hmap hbj hnd (by
      intro k hk hki hkj pk hpk
      obtain ⟨pk0, h1, h2⟩ := hmem k hk
      have := hfar_i k pk0 h1 h2 hki hkj
      rw [e1'] at this
      unfold distance positionAt at this
      simp only at this
      rw [show P1[k]? = some pk from hpk] at this
      exact this)
  obtain ⟨P2, e2, f2⟩ := self_collide_frame sqrt
    { c.build_spatial_map with point_masses := P1 } i steps
  rw [e2] at hi2
  have hj2 : P2[j]? = some pj := (f2 j (Ne.symm hne)).trans hj1
  -- the pass from `i` to `j`
  obtain ⟨P3, e3, f3⟩ := foldl_self_collide_frame sqrt (List.range' (i + 1) (j - i - 1))
    { c.build_spatial_map with point_masses := P2 } steps
  have hi3 : P3[i]? = _ := (f3 i (by simp only [List.mem_range'_1]; omega)).trans hi2
  have hj3 : P3[j]? = some pj :=
    (f3 j (by simp only [List.mem_range'_1]; omega)).trans hj2
  have eJ : c.build_spatial_map.selfCollideInOrder sqrt steps (List.range j)
      = { c.build_spatial_map with point_masses := P3 } := by
    unfold Cloth.selfCollideInOrder
    rw [range_split_one j i hij, List.foldl_append, List.foldl_cons, e1, e2]
    exact e3
  -- the call for `j`
  have hmapj : mapLookup c.build_spatial_map.map (c.hash_position pj.position)
      = some (bucketFrom c.hash_position c.point_masses 0 (c.hash_position pi.position)) := by
    rw [← hkey]; exact hmap
  have hj4 := self_collide_one_close sqrt { c.build_spatial_map with point_masses := P3 }
    j i steps pj _ (Ne.symm hne) hj3 hi3 _ hmapj hbi hnd (by
      intro k hk hkj hki pk hpk
      obtain ⟨pk0, h1, h2⟩ := hmem k hk
      have := hfar_j k pk0 h1 h2 hki hkj
      rw [eJ] at this
      unfold distance positionAt at this
      simp only at this
      rw [show P3[k]? = some pk from hpk] at this
      exact this)
  obtain ⟨P4, e4, f4⟩ := self_collide_frame sqrt
    { c.build_spatial_map with point_masses := P3 } j steps
  rw [e4] at hj4
  have hi4 : P4[i]? = _ := (f4 i hne).trans hi3
  -- the rest of the pass
  obtain ⟨P5, e5, f5⟩ := foldl_self_collide_frame sqrt
    (List.range' (j + 1) (c.point_masses.length - j - 1))
    { c.build_spatial_map with point_masses := P4 } steps
  have hpass : c.build_spatial_map.selfCollidePass sqrt steps
      = { c.build_spatial_map with point_masses := P5 } := by
    unfold Cloth.selfCollidePass
    have hlen : c.build_spatial_map.point_masses.length = c.point_masses.length := rfl
    rw [hlen, range_split_one _ j hjn, List.foldl_append, List.foldl_cons]
    have eJ' : (List.range j).foldl (fun (c : Cloth K) k => c.self_collide sqrt k steps)
        c.build_spatial_map = { c.build_spatial_map with point_masses := P3 } := eJ
    rw [eJ', e4]
    exact e5
  rw [hpass]
  exact ⟨(f5 i (by simp only [List.mem_range'_1]; omega)).trans hi4,
    (f5 j (by simp only [List.mem_range'_1]; omega)).trans hj4⟩

/-- C7 (amended): two point masses at different positions that share a hash
cell when the self-collision pass starts, and such that no other member of
the cell is within `2 * thickness` of either of them at the moment the pass
reaches it, are after the pass (positive substep count) at least as far apart
as before. -/
theorem self_collide_pair_monotone (c : Cloth ℝ) (steps : ℝ)
    (i j : Nat) (pi pj : PointMass ℝ) (hij : i < j)
    (hi : c.point_masses[i]? = some pi) (hj : c.point_masses[j]? = some pj)
    (hkey : c.hash_position pi.position = c.hash_position pj.position)
    (hfar_i : ∀ k pk, c.point_masses[k]? = some pk →
      c.hash_position pk.position = c.hash_position pi.position → k ≠ i → k ≠ j →
      2 * c.thickness < distance Real.sqrt pi.position
        (positionAt (c.build_spatial_map.selfCollideInOrder Real.sqrt steps
          (List.range i)).point_masses k))
    (hfar_j : ∀ k pk, c.point_masses[k]? = some pk →
      c.hash_position pk.position = c.hash_position pi.position → k ≠ i → k ≠ j →
      2 * c.thickness < distance Real.sqrt pj.position
        (positionAt (c.build_spatial_map.selfCollideInOrder Real.sqrt steps
          (List.range j)).point_masses k))
    (hs : 0 < steps) (hd : 0 < distance Real.sqrt pi.position pj.position) :
    distance Real.sqrt pi.position pj.position
      ≤ distance Real.sqrt
        (positionAt (c.build_spatial_map.selfCollidePass Real.sqrt steps).point_masses i)
        (positionAt (c.build_spatial_map.selfCollidePass Real.sqrt steps).point_masses j) := by
  obtain ⟨h1, h2⟩ := selfCollidePass_pair_far Real.sqrt c steps i j pi pj hij hi hj hkey
    hfar_i hfar_j
  have hfinal : distance Real.sqrt
        (positionAt (c.build_spatial_map.selfCollidePass Real.sqrt steps).point_masses i)
        (positionAt (c.build_spatial_map.selfCollidePass Real.sqrt steps).point_masses j)
      = pushedDistance c.thickness steps
          (pushedDistance c.thickness steps (distance Real.sqrt pi.position pj.position)) := by
    unfold positionAt
    rw [h1, h2]
    dsimp only
    have d1 := distance_pushApart c.thickness steps pi.position pj.position hs hd
    have hd1 : 0 < distance Real.sqrt pj.position
        (pushApart Real.sqrt c.thickness steps pi.position pj.position) := by
      have := pushedDistance_ge c.thickness steps (distance Real.sqrt pi.position pj.position) hs
      unfold distance at *
      rw [Vector3D.norm_sub_comm]; linarith
    have d2 := distance_pushApart c.thickness steps pj.position
      (pushApart Real.sqrt c.thickness steps pi.position pj.position) hs hd1
    unfold distance at *
    rw [Vector3D.norm_sub_comm, d2, Vector3D.norm_sub_comm, d1]
  rw [hfinal]
  exact le_trans (pushedDistance_ge _ _ _ hs) (pushedDistance_ge _ _ _ hs)

/-- Witness of C7 (amended): the first two point masses of the three-point
example, at x = 1 and x = 0, whose cell also holds the point mass at x = 4. -/
theorem self_collide_pair_monotone_witness :
    distance Real.sqrt (PointMass.new (⟨1, 0, 0⟩ : Vector3D ℝ) false).position
        (PointMass.new (⟨0, 0, 0⟩ : Vector3D ℝ) false).position
      ≤ distance Real.sqrt
        (positionAt ((exThree : Cloth ℝ).build_spatial_map.selfCollidePass
          Real.sqrt 1).point_masses 0)
        (positionAt ((exThree : Cloth ℝ).build_spatial_map.selfCollidePass
          Real.sqrt 1).point_masses 1) :=
  self_collide_pair_monotone exThree 1 0 1 (PointMass.new ⟨1, 0, 0⟩ false)
    (PointMass.new ⟨0, 0, 0⟩ false) (by decide) rfl rfl
    (by
      have f0 : fmod (0 : ℝ) 30 = 0 := fmod_of_nonneg_of_lt (by norm_num) (by norm_num)
      have f1 : fmod (1 : ℝ) 30 = 1 := fmod_of_nonneg_of_lt (by norm_num) (by norm_num)
      norm_num [exThree, PointMass.new, Cloth.hash_position, f0, f1])
    (by
      intro k pk hk _ h0 h1
      have hk3 : k < 3 := lt_length_of_getElem? hk
      obtain rfl : k = 2 := by omega
      norm_num [exThree, PointMass.new, Cloth.build_spatial_map, Cloth.selfCollideInOrder,
        positionAt, distance, Vector3D.norm, Vector3D.norm2, Vector3D.mk_sub_mk, sqrt_nine])
    (by
      intro k pk hk _ h0 h1
      have hk3 : k < 3 := lt_length_of_getElem? hk
      obtain rfl : k = 2 := by omega
      have f0 : fmod (0 : ℝ) 30 = 0 := fmod_of_nonneg_of_lt (by norm_num) (by norm_num)
      have f1 : fmod (1 : ℝ) 30 = 1 := fmod_of_nonneg_of_lt (by norm_num) (by norm_num)
      have f4 : fmod (4 : ℝ) 30 = 4 := fmod_of_nonneg_of_lt (by norm_num) (by norm_num)
      norm_num [exThree, PointMass.new, Cloth.build_spatial_map, Cloth.selfCollideInOrder,
        buildMapFrom, mapPush, Cloth.hash_position, f0, f1, f4, List.range_succ,
        Cloth.self_collide, mapLookup, selfCollideAcc,
        positionAt, distance, Vector3D.norm, Vector3D.norm2, Vector3D.unit, sqrt_four,
        sqrt_nine, sqrt_sixteen, Vector3D.mk_add_mk, Vector3D.mk_sub_mk, Vector3D.mk_smul,
        Vector3D.mk_sdiv, Vector3D.zero_eq])
    (by norm_num)
    (by norm_num [PointMass.new, distance, Vector3D.norm, Vector3D.norm2, Vector3D.mk_sub_mk])

/-! ## Where the step with partial normalisation fails -/

/-- A fold of steps that each fail or agree with a total step fails exactly
when some step fails in the state the total steps before it reach. -/
theorem foldlM_eq_none_iff {α β : Type} (g : β → α → Option β) (f : β → α → β)
    (h : ∀ b a, g b a = none ∨ g b a = some (f b a)) (l : List α) (b : β) :
    l.foldlM g b = none ↔ ∃ pre a post, l = pre ++ a :: post ∧ g (pre.foldl f b) a = none := by
  induction l generalizing b with
  | nil =>
    constructor
    · intro h0; exact absurd h0 (by simp [List.foldlM_nil])
    · rintro ⟨pre, a, post, e, _⟩
      exact absurd e (by simp)
  | cons a l ih =>
    rw [List.foldlM_cons]
    rcases h b a with h1 | h1
    · rw [h1]
      constructor
      · intro _; exact ⟨[], a, l, rfl, h1⟩
      · intro _; rfl
    · rw [h1]
      show l.foldlM g (f b a) = none ↔ _
      rw [ih]
      constructor
      · rintro ⟨pre, a2, post, e, hn⟩
        exact ⟨a :: pre, a2, post, by rw [e]; rfl, hn⟩
      · rintro ⟨pre, a2, post, e, hn⟩
        cases pre with
        | nil =>
          simp only [List.nil_append, List.cons.injEq] at e
          obtain ⟨rfl, _⟩ := e
          rw [List.foldl_nil, h1] at hn
          exact absurd hn (by simp)
        | cons a3 pre =>
          simp only [List.cons_append, List.cons.injEq] at e
          obtain ⟨rfl, e⟩ := e
          exact ⟨pre, a2, post, e, hn⟩

/-- A map of steps that each fail or agree with a total step fails exactly
when some step fails. -/
theorem mapM_eq_none_iff {α β : Type} (g : α → Option β) (f : α → β)
    (h : ∀ a, g a = none ∨ g a = some (f a)) (l : List α) :
    l.mapM g = none ↔ ∃ a ∈ l, g a = none := by
  induction l with
  | nil =>
    constructor
    · intro h0
      rw [show ([] : List α).mapM g = some [] from rfl] at h0
      exact absurd h0 (by simp)
    · rintro ⟨a, ha, _⟩
      exact absurd ha (by simp)
  | cons a l ih =>
    rw [List.mapM_cons]
    rcases h a with h1 | h1
    · rw [h1]
      constructor
      · intro _; exact ⟨a, List.mem_cons_self _ _, h1⟩
      · intro _; rfl
    · rw [h1]
      rcases mapM_total g f h l with h2 | h2
      · rw [h2]
        constructor
        · intro _
          obtain ⟨x, hx, hxn⟩ := ih.mp h2
          exact ⟨x, List.mem_cons_of_mem _ hx, hxn⟩
        · intro _; rfl
      · rw [h2]
        constructor
        · intro h0; exact absurd h0 (by simp)
        · rintro ⟨x, hx, hxn⟩
          rcases List.mem_cons.mp hx with rfl | hx
          · rw [h1] at hxn; exact absurd hxn (by simp)
          · have := ih.mpr ⟨x, hx, hxn⟩
            rw [h2] at this; exact absurd this (by simp)

/-- One step of the spring-force loop changes no position. -/
theorem springForceStep_positions (sqrt : K → K) (cp : ClothParameters K)
    (pms : List (PointMass K)) (s : Spring K) :
    (springForceStep sqrt cp pms s).map (fun pm => pm.position)
      = pms.map (fun pm => pm.position) := by
  unfold springForceStep
  split_ifs
  · rfl
  · cases pms[s.pm_a]? <;> cases pms[s.pm_b]? <;> try rfl
    dsimp only
    refine (map_modify_of_inv (fun pm : PointMass K => pm.position) _ ?_ _ _).trans
      (map_modify_of_inv (fun pm : PointMass K => pm.position) _ ?_ _ _) <;> intro _ <;> rfl
  · cases pms[s.pm_a]? <;> cases pms[s.pm_b]? <;> try rfl
    dsimp only
    refine (map_modify_of_inv (fun pm : PointMass K => pm.position) _ ?_ _ _).trans
      (map_modify_of_inv (fun pm : PointMass K => pm.position) _ ?_ _ _) <;> intro _ <;> rfl

/-- The spring-force loop changes no position. -/
theorem foldl_springForceStep_positions (sqrt : K → K) (cp : ClothParameters K)
    (springs : List (Spring K)) (pms : List (PointMass K)) :
    (springs.foldl (springForceStep sqrt cp) pms).map (fun pm => pm.position)
      = pms.map (fun pm => pm.position) := by
  induction springs generalizing pms with
  | nil => rfl
  | cons s springs ih => rw [List.foldl_cons, ih, springForceStep_positions]

/-- Lists of point masses with the same positions give the same reads. -/
theorem positionAt_congr {p q : List (PointMass K)}
    (h : p.map (fun pm => pm.position) = q.map (fun pm => pm.position)) (i : Nat) :
    positionAt p i = positionAt q i := by
  rw [positionAt_eq_of_map h, positionAt_eq_of_map rfl]

/-- The spring-force loop with partial normalisation, started from point
masses with the positions of `pms`, fails exactly when an enabled spring has
its endpoints at separation 0. -/
theorem springLoop_eq_none_iff (sqrt : K → K) (cp : ClothParameters K)
    (springs : List (Spring K)) (pms pms1 : List (PointMass K))
    (hpos : pms1.map (fun pm => pm.position) = pms.map (fun pm => pm.position)) :
    springs.foldlM (springForceStepChecked sqrt cp) pms1 = none
      ↔ springLoopFails sqrt cp pms springs := by
  rw [foldlM_eq_none_iff (springForceStepChecked sqrt cp) (springForceStep sqrt cp)
    (fun b a => by rw [springForceStepChecked_eq]; split_ifs; exacts [Or.inl rfl, Or.inr rfl])]
  have key : ∀ (pre : List (Spring K)) (s : Spring K),
      springForceStepChecked sqrt cp (pre.foldl (springForceStep sqrt cp) pms1) s = none
        ↔ springEnabled cp s ∧ s.pm_a < pms.length ∧ s.pm_b < pms.length ∧
          (positionAt pms s.pm_b - positionAt pms s.pm_a).norm sqrt = 0 := by
    intro pre s
    have hp := (foldl_springForceStep_positions sqrt cp pre pms1).trans hpos
    have hl : (pre.foldl (springForceStep sqrt cp) pms1).length = pms.length := by
      have := congrArg List.length hp
      simpa using this
    rw [springForceStepChecked_eq, positionAt_congr hp, positionAt_congr hp, hl]
    unfold springEnabled
    constructor
    · intro h
      split_ifs at h with h1
      exact ⟨h1.1, h1.2.2.1, h1.2.2.2, h1.2.1⟩
    · intro h
      rw [if_pos ⟨h.1, h.2.2.2, h.2.1, h.2.2.1⟩]
  unfold springLoopFails
  constructor
  · rintro ⟨pre, s, post, e, hn⟩
    exact ⟨s, by rw [e]; simp, (key pre s).mp hn⟩
  · rintro ⟨s, hs, hc⟩
    obtain ⟨pre, post, e⟩ := List.append_of_mem hs
    exact ⟨pre, s, post, e, (key pre s).mpr hc⟩

/-! ## Force accumulation away from zero separations -/

/-- Force accumulation with partial normalisation fails exactly when an
enabled spring has its endpoints at separation 0, and gives the result of the
source otherwise. -/
theorem accumulateForcesChecked_eq_none_iff (sqrt : K → K) (c : Cloth K)
    (cp : ClothParameters K) (accs : List (Vector3D K)) :
    (c.accumulateForcesChecked sqrt cp accs = none
      ↔ springLoopFails sqrt cp c.point_masses c.springs)
    ∧ (c.accumulateForcesChecked sqrt cp accs = none
      ∨ c.accumulateForcesChecked sqrt cp accs = some (c.accumulateForces sqrt cp accs)) := by
  unfold Cloth.accumulateForcesChecked Cloth.accumulateForces
  dsimp only
  have hiff := springLoop_eq_none_iff sqrt cp c.springs c.point_masses
    (c.point_masses.map (fun pm => { pm with forces :=
      ⟨(accs.foldl (fun f accel => f + accel.smul (c.mass cp)) Vector3D.zero).x,
       (accs.foldl (fun f accel => f + accel.smul (c.mass cp)) Vector3D.zero).y,
       (accs.foldl (fun f accel => f + accel.smul (c.mass cp)) Vector3D.zero).z⟩ }))
    (by rw [List.map_map]; rfl)
  rcases foldlM_total (springForceStepChecked sqrt cp) (springForceStep sqrt cp)
    (fun b a => by rw [springForceStepChecked_eq]; split_ifs; exacts [Or.inl rfl, Or.inr rfl])
    c.springs (c.point_masses.map (fun pm => { pm with forces :=
      ⟨(accs.foldl (fun f accel => f + accel.smul (c.mass cp)) Vector3D.zero).x,
       (accs.foldl (fun f accel => f + accel.smul (c.mass cp)) Vector3D.zero).y,
       (accs.foldl (fun f accel => f + accel.smul (c.mass cp)) Vector3D.zero).z⟩ }))
    with h | h
  · rw [h]
    exact ⟨⟨fun _ => hiff.mp h, fun _ => rfl⟩, Or.inl rfl⟩
  · rw [h]
    refine ⟨⟨fun h0 => absurd h0 (by simp), fun hf => ?_⟩, Or.inr rfl⟩
    have := hiff.mpr hf
    rw [h] at this
    exact absurd this (by simp)

/-- Counterexample to C19 as stated: on the 2 x 1 grid whose two point masses
coincide, with every spring type enabled, stiffness 0 and no external
acceleration, force accumulation normalises the zero separation of the
spring's endpoints: with normalisation a partial operation the stage has no
result, so there are no forces whose sum could be `N * mass * (sum of the
external accelerations)`. -/
theorem accumulateForces_coincident_counterexample :
    (exCoincident : Cloth ℝ).accumulateForcesChecked Real.sqrt exParams [] = none
    ∧ ¬ ∃ c2, (exCoincident : Cloth ℝ).accumulateForcesChecked Real.sqrt exParams [] = some c2
        ∧ sumForces c2.point_masses = (sumVectors ([] : List (Vector3D ℝ))).smul
            (((exCoincident : Cloth ℝ).point_masses.length : ℝ)
              * (exCoincident : Cloth ℝ).mass exParams) := by
  have h : (exCoincident : Cloth ℝ).accumulateForcesChecked Real.sqrt exParams [] = none := by
    simp [Cloth.accumulateForcesChecked, exCoincident, exParams, springForceStepChecked,
      PointMass.new, Vector3D.unitChecked, Vector3D.norm, Vector3D.norm2, Vector3D.mk_sub_mk]
  refine ⟨h, ?_⟩
  rintro ⟨c2, h2, _⟩
  rw [h] at h2
  exact absurd h2 (by simp)

/-- C19 (amended): in a cloth state in which no enabled spring has its two
endpoints at separation 0, force accumulation normalises no vector of length 0
(with partial normalisation it gives the result of the source), after it the
sum of the forces of all point masses is `N * mass * (sum of the external
accelerations)`, `N` the number of point masses, for every stiffness, enable
flags and external accelerations; and the stage gives the same result whatever
forces the point masses held before. -/
theorem accumulateForces_sum (sqrt : K → K) (c : Cloth K) (cp : ClothParameters K)
    (external_accelerations : List (Vector3D K))
    (hsep : ∀ s ∈ c.springs, springEnabled cp s → s.pm_a < c.point_masses.length →
      s.pm_b < c.point_masses.length →
      (positionAt c.point_masses s.pm_b - positionAt c.point_masses s.pm_a).norm sqrt ≠ 0) :
    c.accumulateForcesChecked sqrt cp external_accelerations
        = some (c.accumulateForces sqrt cp external_accelerations)
    ∧ sumForces (c.accumulateForces sqrt cp external_accelerations).point_masses
        = (sumVectors external_accelerations).smul
            ((c.point_masses.length : K) * c.mass cp)
    ∧ ∀ g : PointMass K → Vector3D K,
        ({ c with point_masses := c.point_masses.map (fun pm => { pm with forces := g pm }) }
            : Cloth K).accumulateForces sqrt cp external_accelerations
          = c.accumulateForces sqrt cp external_accelerations := by
  refine ⟨?_, ?_, ?_⟩
  · obtain ⟨hiff, htot⟩ := accumulateForcesChecked_eq_none_iff sqrt c cp external_accelerations
    rcases htot with h | h
    · obtain ⟨s, hs, he, ha, hb, hz⟩ := hiff.mp h
      exact absurd hz (hsep s hs he ha hb)
    · exact h
  · unfold Cloth.accumulateForces
    simp only
    rw [foldl_springForceStep_sumForces, foldl_external_forces]
    unfold sumForces sumVectors
    simp only [List.map_map]
    ext <;> simp [Function.comp_def, List.map_const', List.sum_replicate] <;> ring
  · intro g
    unfold Cloth.accumulateForces Cloth.mass
    simp only [List.map_map, Function.comp_def]

/-- Witness of C19 (amended): the two-point example under gravity. -/
theorem accumulateForces_sum_witness :
    (exTwo : Cloth ℝ).accumulateForcesChecked Real.sqrt exParams [⟨0, -1, 0⟩]
        = some ((exTwo : Cloth ℝ).accumulateForces Real.sqrt exParams [⟨0, -1, 0⟩])
    ∧ sumForces ((exTwo : Cloth ℝ).accumulateForces Real.sqrt exParams
        [⟨0, -1, 0⟩]).point_masses
        = (sumVectors [(⟨0, -1, 0⟩ : Vector3D ℝ)]).smul
            (((exTwo : Cloth ℝ).point_masses.length : ℝ) * (exTwo : Cloth ℝ).mass exParams) :=
  ⟨(accumulateForces_sum Real.sqrt exTwo exParams [⟨0, -1, 0⟩] (by
      intro s hs _ _ _
      simp only [exTwo, List.mem_singleton] at hs
      subst hs
      norm_num [exTwo, positionAt, PointMass.new, Vector3D.norm, Vector3D.norm2,
        Vector3D.mk_sub_mk])).1,
   (accumulateForces_sum Real.sqrt exTwo exParams [⟨0, -1, 0⟩] (by
      intro s hs _ _ _
      simp only [exTwo, List.mem_singleton] at hs
      subst hs
      norm_num [exTwo, positionAt, PointMass.new, Vector3D.norm, Vector3D.norm2,
        Vector3D.mk_sub_mk])).2.1⟩

/-! ## The error branch of a whole step -/

/-- A prefix of the list of indices below `n` is the list of indices below the
element that follows it. -/
theorem range_eq_append_cons (n i : Nat) (pre post : List Nat)
    (h : List.range n = pre ++ i :: post) : pre = List.range i ∧ i < n := by
  have hl := congrArg List.length h
  simp only [List.length_range, List.length_append, List.length_cons] at hl
  have hlt : pre.length < n := by omega
  have h1 : (List.range n)[pre.length]? = some i := by
    rw [h, List.getElem?_append_right (le_refl _)]
    simp
  rw [List.getElem?_range hlt] at h1
  have h2 : pre.length = i := by injection h1
  have hp : pre = List.take pre.length (List.range n) := by rw [h, List.take_left]
  rw [List.take_range, h2, Nat.min_eq_left (by omega)] at hp
  exact ⟨hp, by omega⟩

/-- `self_collide` keeps the number of point masses. -/
theorem self_collide_length [FloorRing K] (sqrt : K → K) (c : Cloth K) (i : Nat) (steps : K) :
    (c.self_collide sqrt i steps).point_masses.length = c.point_masses.length := by
  obtain ⟨p, e, hs⟩ := self_collide_static sqrt c i steps
  rw [e]
  simpa using congrArg List.length hs

/-- Calls of `self_collide` in any order change only the list of point masses
and keep their number. -/
theorem selfCollideInOrder_frame [FloorRing K] (sqrt : K → K) (c : Cloth K) (steps : K)
    (l : List Nat) :
    ∃ pms, c.selfCollideInOrder sqrt steps l = { c with point_masses := pms }
      ∧ pms.length = c.point_masses.length := by
  unfold Cloth.selfCollideInOrder
  induction l generalizing c with
  | nil => exact ⟨c.point_masses, rfl, rfl⟩
  | cons i l ih =>
    obtain ⟨p1, e1, _⟩ := self_collide_static sqrt c i steps
    have l1 := self_collide_length sqrt c i steps
    obtain ⟨p2, e2, l2⟩ := ih (c.self_collide sqrt i steps)
    refine ⟨p2, ?_, l2.trans l1⟩
    rw [List.foldl_cons, e2, e1]

/-- `self_collide` with partial normalisation fails exactly when a member of
the bucket other than the point mass itself is at separation 0 from it, the
thickness not being negative. -/
theorem self_collide_checked_eq_none_iff [FloorRing K] (sqrt : K → K) (c : Cloth K) (i : Nat)
    (steps : K) :
    c.self_collide_checked sqrt i steps = none ↔
      ∃ pm b j, c.point_masses[i]? = some pm ∧
        mapLookup c.map (c.hash_position pm.position) = some b ∧ j ∈ b ∧ j ≠ i ∧
        j < c.point_masses.length ∧
        (pm.position - positionAt c.point_masses j).norm sqrt = 0 ∧ 0 ≤ 2 * c.thickness := by
  have hacc : ∀ (pm : PointMass K) (acc : Vector3D K × Nat) (j : Nat),
      selfCollideAccChecked sqrt c.point_masses c.thickness i pm.position acc j = none ∨
      selfCollideAccChecked sqrt c.point_masses c.thickness i pm.position acc j
        = some (selfCollideAcc sqrt c.point_masses c.thickness i pm.position acc j) := by
    intro pm acc j
    rw [selfCollideAccChecked_eq]; split_ifs; exacts [Or.inl rfl, Or.inr rfl]
  have hfold : ∀ (pm : PointMass K) (b : List Nat),
      b.foldlM (selfCollideAccChecked sqrt c.point_masses c.thickness i pm.position)
          (Vector3D.zero, 0) = none ↔
        ∃ j, j ∈ b ∧ j ≠ i ∧ j < c.point_masses.length ∧
          (pm.position - positionAt c.point_masses j).norm sqrt = 0 ∧ 0 ≤ 2 * c.thickness := by
    intro pm b
    rw [foldlM_eq_none_iff _ _ (hacc pm)]
    constructor
    · rintro ⟨pre, j, post, e, hn⟩
      rw [selfCollideAccChecked_eq] at hn
      split_ifs at hn with h1
      exact ⟨j, by rw [e]; simp, h1⟩
    · rintro ⟨j, hj, hc⟩
      obtain ⟨pre, post, e⟩ := List.append_of_mem hj
      refine ⟨pre, j, post, e, ?_⟩
      rw [selfCollideAccChecked_eq, if_pos hc]
  unfold Cloth.self_collide_checked
  cases hi : c.point_masses[i]? with
  | none =>
    constructor
    · intro h0; exact absurd h0 (by simp)
    · rintro ⟨pm, b, j, h1, _⟩; exact absurd h1 (by simp)
  | some pm =>
    dsimp only
    cases hb : mapLookup c.map (c.hash_position pm.position) with
    | none =>
      constructor
      · intro h0; exact absurd h0 (by simp)
      · rintro ⟨pm2, b, j, h1, h2, _⟩
        cases h1
        rw [hb] at h2
        exact absurd h2 (by simp)
    | some b =>
      dsimp only
      rcases foldlM_total _ _ (hacc pm) b (Vector3D.zero, 0) with h | h
      · rw [h]
        constructor
        · intro _
          obtain ⟨j, hj⟩ := (hfold pm b).mp h
          exact ⟨pm, b, j, rfl, hb, hj⟩
        · intro _; rfl
      · rw [h]
        dsimp only
        constructor
        · intro h0
          split_ifs at h0
        · rintro ⟨pm2, b2, j, h1, h2, hj⟩
          cases h1
          rw [hb] at h2
          cases h2
          have := (hfold pm b).mpr ⟨j, hj⟩
          rw [h] at this
          exact absurd this (by simp)

/-- The self-collision pass with partial normalisation fails exactly when, as
the pass reaches some point mass, a member of its bucket other than itself is
at separation 0 from it. -/
theorem selfCollidePassChecked_eq_none_iff [FloorRing K] (sqrt : K → K) (c : Cloth K)
    (steps : K) :
    (List.range c.point_masses.length).foldlM
        (fun c i => c.self_collide_checked sqrt i steps) c = none
      ↔ selfCollideFails sqrt c steps := by
  rw [foldlM_eq_none_iff (fun (c : Cloth K) i => c.self_collide_checked sqrt i steps)
    (fun (c : Cloth K) i => c.self_collide sqrt i steps)
    (fun b a => self_collide_checked_total sqrt b a steps)]
  unfold selfCollideFails
  constructor
  · rintro ⟨pre, i, post, e, hn⟩
    obtain ⟨rfl, hi⟩ := range_eq_append_cons _ _ _ _ e
    obtain ⟨p, ep, lp⟩ := selfCollideInOrder_frame sqrt c steps (List.range i)
    have ep2 : (List.range i).foldl (fun (c : Cloth K) i => c.self_collide sqrt i steps) c
        = { c with point_masses := p } := ep
    rw [ep2, self_collide_checked_eq_none_iff] at hn
    obtain ⟨pm, b, j, h1, h2, h3, h4, h5, h6, h7⟩ := hn
    refine ⟨i, pm, b, j, hi, ?_, h2, h3, h4, ?_, ?_, h7⟩
    · rw [ep]; exact h1
    · rw [← lp]; exact h5
    · rw [ep]; exact h6
  · rintro ⟨i, pm, b, j, hi, h1, h2, h3, h4, h5, h6, h7⟩
    refine ⟨List.range i, i, List.range' (i + 1) (c.point_masses.length - i - 1),
      range_split_one _ i hi, ?_⟩
    obtain ⟨p, ep, lp⟩ := selfCollideInOrder_frame sqrt c steps (List.range i)
    have ep2 : (List.range i).foldl (fun (c : Cloth K) i => c.self_collide sqrt i steps) c
        = { c with point_masses := p } := ep
    rw [ep2, self_collide_checked_eq_none_iff]
    rw [ep] at h1 h6
    exact ⟨pm, b, j, h1, h2, h3, h4, by rw [lp]; exact h5, h6, h7⟩

/-- A collision with partial normalisation fails exactly for a point mass at
separation 0 from the centre of a sphere of positive radius. -/
theorem collideChecked_eq_none_iff (sqrt : K → K) (co : CollisionObject K) (pm : PointMass K) :
    co.collideChecked sqrt pm = none ↔
      ∃ s, co = CollisionObject.sphere s ∧ (pm.position - s.origin).norm sqrt = 0 ∧
        0 < s.radius := by
  cases co with
  | plane p =>
    constructor
    · intro h; exact absurd h (by simp [CollisionObject.collideChecked])
    · rintro ⟨s, h, _⟩; exact absurd h (by simp)
  | sphere s =>
    show s.collideChecked sqrt pm = none ↔ _
    rw [sphere_collideChecked_eq]
    constructor
    · intro h
      split_ifs at h with h1
      exact ⟨s, rfl, h1⟩
    · rintro ⟨s2, h, hc⟩
      cases h
      rw [if_pos hc]

/-- The collision loop with partial normalisation fails exactly when some point
mass comes to separation 0 from the centre of a sphere of positive radius. -/
theorem collideLoop_eq_none_iff (sqrt : K → K) (cos : List (CollisionObject K))
    (pms : List (PointMass K)) :
    pms.mapM (fun pm => cos.foldlM (fun pm co => co.collideChecked sqrt pm) pm) = none
      ↔ collideFails sqrt cos pms := by
  rw [mapM_eq_none_iff (fun pm => cos.foldlM (fun pm co => co.collideChecked sqrt pm) pm)
    (fun pm => cos.foldl (fun pm co => co.collide sqrt pm) pm)
    (fun pm => foldlM_total _ _ (fun b a => collideChecked_total sqrt a b) cos pm)]
  unfold collideFails
  constructor
  · rintro ⟨pm, hpm, hn⟩
    rw [foldlM_eq_none_iff (fun pm co => CollisionObject.collideChecked sqrt co pm)
      (fun pm co => CollisionObject.collide sqrt co pm)
      (fun b a => collideChecked_total sqrt a b)] at hn
    obtain ⟨pre, co, post, e, hc⟩ := hn
    obtain ⟨s, rfl, h1, h2⟩ := (collideChecked_eq_none_iff sqrt co _).mp hc
    exact ⟨pm, hpm, pre, s, post, e, h1, h2⟩
  · rintro ⟨pm, hpm, pre, s, post, e, h1, h2⟩
    refine ⟨pm, hpm, ?_⟩
    rw [foldlM_eq_none_iff (fun pm co => CollisionObject.collideChecked sqrt co pm)
      (fun pm co => CollisionObject.collide sqrt co pm)
      (fun b a => collideChecked_total sqrt a b)]
    exact ⟨pre, CollisionObject.sphere s, post, e,
      (collideChecked_eq_none_iff sqrt _ _).mpr ⟨s, rfl, h1, h2⟩⟩

/-- The length-constraint loop keeps the number of point masses. -/
theorem foldl_lengthConstraintStep_length (sqrt : K → K) (springs : List (Spring K))
    (pms : List (PointMass K)) :
    (springs.foldl (lengthConstraintStep sqrt) pms).length = pms.length := by
  induction springs generalizing pms with
  | nil => rfl
  | cons s springs ih => rw [List.foldl_cons, ih, lengthConstraintStep_length]

/-- The length-constraint loop with partial normalisation fails exactly when it
reaches a spring whose endpoints are at separation 0 and whose rest length is
negative. -/
theorem lengthLoop_eq_none_iff (sqrt : K → K) (springs : List (Spring K))
    (pms : List (PointMass K)) :
    springs.foldlM (lengthConstraintStepChecked sqrt) pms = none
      ↔ lengthLoopFails sqrt pms springs := by
  rw [foldlM_eq_none_iff (lengthConstraintStepChecked sqrt) (lengthConstraintStep sqrt)
    (fun b a => by
      rw [lengthConstraintStepChecked_eq]; split_ifs; exacts [Or.inl rfl, Or.inr rfl])]
  unfold lengthLoopFails
  constructor
  · rintro ⟨pre, s, post, e, hn⟩
    rw [lengthConstraintStepChecked_eq, foldl_lengthConstraintStep_length] at hn
    split_ifs at hn with h1
    exact ⟨pre, s, post, e, h1⟩
  · rintro ⟨pre, s, post, e, hc⟩
    refine ⟨pre, s, post, e, ?_⟩
    rw [lengthConstraintStepChecked_eq, foldl_lengthConstraintStep_length, if_pos hc]

/-- The step with partial normalisation fails exactly when one of its loops
meets a separation of length 0. -/
theorem simulateChecked_eq_none_iff [FloorRing K] (sqrt : K → K) (c : Cloth K) (fps steps : K)
    (cp : ClothParameters K) (accs : List (Vector3D K)) (cos : List (CollisionObject K)) :
    c.simulateChecked sqrt fps steps cp accs cos = none
      ↔ c.stepFails sqrt fps steps cp accs cos := by
  have hA : ∀ pms1 : List (PointMass K),
      pms1.map (fun pm => pm.position) = c.point_masses.map (fun pm => pm.position) →
      (c.springs.foldlM (springForceStepChecked sqrt cp) pms1 = none
        ↔ springLoopFails sqrt cp c.point_masses c.springs) :=
    fun pms1 h => springLoop_eq_none_iff sqrt cp c.springs c.point_masses pms1 h
  have hB := selfCollidePassChecked_eq_none_iff sqrt
    (((c.accumulateForces sqrt cp accs).integrate cp fps steps).build_spatial_map) steps
  have hC := collideLoop_eq_none_iff sqrt cos
    ((((c.accumulateForces sqrt cp accs).integrate cp fps steps).build_spatial_map).selfCollidePass
      sqrt steps).point_masses
  have hD := lengthLoop_eq_none_iff sqrt c.springs
    (((((c.accumulateForces sqrt cp accs).integrate cp fps steps).build_spatial_map).selfCollidePass
      sqrt steps).externalCollide sqrt cos).point_masses
  unfold Cloth.stepFails
  unfold Cloth.simulateChecked
  dsimp only
  rcases foldlM_total (springForceStepChecked sqrt cp) (springForceStep sqrt cp)
    (fun b a => by rw [springForceStepChecked_eq]; split_ifs; exacts [Or.inl rfl, Or.inr rfl])
    c.springs _ with h1 | h1
  · rw [h1]
    exact ⟨fun _ => Or.inl ((hA _ (by rw [List.map_map]; rfl)).mp h1), fun _ => rfl⟩
  have nA : ¬ springLoopFails sqrt cp c.point_masses c.springs := by
    intro hf
    have key : ∀ P : List (PointMass K),
        P.map (fun pm => pm.position) = c.point_masses.map (fun pm => pm.position) →
        ∀ Q, c.springs.foldlM (springForceStepChecked sqrt cp) P = some Q → False :=
      fun P hP Q hQ => by
        have := (hA P hP).mpr hf
        rw [hQ] at this
        exact absurd this (by simp)
    exact key _ (by rw [List.map_map]; rfl) _ h1
  rw [h1]
  simp only [Option.bind_eq_bind, Option.some_bind]
  rcases foldlM_total (fun (c : Cloth K) i => c.self_collide_checked sqrt i steps)
    (fun (c : Cloth K) i => c.self_collide sqrt i steps)
    (fun b a => self_collide_checked_total sqrt b a steps) _ _ with h2 | h2
  · rw [h2]
    exact ⟨fun _ => Or.inr (Or.inl (hB.mp h2)), fun _ => rfl⟩
  have nB : ¬ selfCollideFails sqrt
      (((c.accumulateForces sqrt cp accs).integrate cp fps steps).build_spatial_map) steps :=
    fun hf => by
      have := hB.mpr hf
      exact Option.noConfusion (this.symm.trans h2)
  rw [h2]
  simp only [Option.some_bind]
  rcases mapM_total (fun pm => cos.foldlM (fun pm co => co.collideChecked sqrt pm) pm)
    (fun pm => cos.foldl (fun pm co => co.collide sqrt pm) pm)
    (fun pm => foldlM_total _ _ (fun b a => collideChecked_total sqrt a b) cos pm) _ with h3 | h3
  · rw [h3]
    exact ⟨fun _ => Or.inr (Or.inr (Or.inl (hC.mp h3))), fun _ => rfl⟩
  have nC : ¬ collideFails sqrt cos
      ((((c.accumulateForces sqrt cp accs).integrate cp fps steps).build_spatial_map).selfCollidePass
        sqrt steps).point_masses :=
    fun hf => by
      have := hC.mpr hf
      exact Option.noConfusion (this.symm.trans h3)
  rw [h3]
  simp only [Option.some_bind]
  have hsp : ∀ (c4 : Cloth K) (l : List Nat),
      (List.foldl (fun (c : Cloth K) i => c.self_collide sqrt i steps) c4 l).springs
        = c4.springs := fun c4 l => by
    obtain ⟨p, e, _⟩ := foldl_self_collide_frame sqrt l c4 steps
    rw [e]
  rw [hsp]
  rcases foldlM_total (lengthConstraintStepChecked sqrt) (lengthConstraintStep sqrt)
    (fun b a => by
      rw [lengthConstraintStepChecked_eq]; split_ifs; exacts [Or.inl rfl, Or.inr rfl])
    _ _ with h4 | h4
  · rw [h4]
    exact ⟨fun _ => Or.inr (Or.inr (Or.inr (hD.mp h4))), fun _ => rfl⟩
  have nD : ¬ lengthLoopFails sqrt
      (((((c.accumulateForces sqrt cp accs).integrate cp fps steps).build_spatial_map).selfCollidePass
        sqrt steps).externalCollide sqrt cos).point_masses c.springs :=
    fun hf => by
      have := hD.mpr hf
      exact Option.noConfusion (this.symm.trans h4)
  rw [h4]
  constructor
  · intro h0; exact absurd h0 (by simp)
  · rintro (h | h | h | h)
    · exact absurd h nA
    · exact absurd h nB
    · exact absurd h nC
    · exact absurd h nD

/-- A monadic map that never fails is the identity. -/
theorem mapM_loop_some {α : Type} (l acc : List α) :
    List.mapM.loop (fun a => (some a : Option α)) l acc = some (acc.reverse ++ l) := by
  induction l generalizing acc with
  | nil => simp [List.mapM.loop]
  | cons a l ih => simp [List.mapM.loop, ih]

/-- C16, as amended: no loop of `Cloth::simulate` tests for a separation of
length 0 before normalising it. With normalisation a partial operation, the
step fails exactly when one of its loops meets such a separation: the
spring-force loop for an enabled spring whose endpoints are at separation 0 at
entry; `self_collide` when, as the pass reaches a point mass, another member
of its bucket is at separation 0 from it (thickness not negative); the
collision loop for a point mass at the centre of a sphere of positive radius;
the length-constraint loop only for a spring of negative rest length, since it
normalises only a separation longer than 1.1 times the rest length. Exactly
when none of this happens, the step is the step of `simulate`. -/
theorem normalisation_error_branch [FloorRing K] (sqrt : K → K) (c : Cloth K) (fps steps : K)
    (cp : ClothParameters K) (accs : List (Vector3D K)) (cos : List (CollisionObject K)) :
    (c.simulateChecked sqrt fps steps cp accs cos = none
      ↔ c.stepFails sqrt fps steps cp accs cos)
    ∧ (c.simulateChecked sqrt fps steps cp accs cos
        = some (c.simulate sqrt fps steps cp accs cos)
      ↔ ¬ c.stepFails sqrt fps steps cp accs cos)
    ∧ ¬ ((∀ s ∈ c.springs, 0 ≤ s.rest_length) ∧ lengthLoopFails sqrt
      (((((c.accumulateForces sqrt cp accs).integrate cp fps steps).build_spatial_map).selfCollidePass
        sqrt steps).externalCollide sqrt cos).point_masses c.springs) := by
  have h1 := simulateChecked_eq_none_iff sqrt c fps steps cp accs cos
  refine ⟨h1, ?_, ?_⟩
  · rcases simulateChecked_total sqrt c fps steps cp accs cos with h | h
    · constructor
      · intro h2
        rw [h] at h2
        exact absurd h2 (by simp)
      · intro h2
        exact absurd (h1.mp h) h2
    · constructor
      · intro _ hf
        have := h1.mpr hf
        rw [h] at this
        exact absurd this (by simp)
      · intro _
        exact h
  · rintro ⟨hrest, pre, s, post, e, _, _, _, hneg⟩
    have hs : 0 ≤ s.rest_length := hrest s (by rw [e]; simp)
    have : 0 ≤ s.rest_length * (11 / 10) := mul_nonneg hs (by norm_num)
    exact absurd hneg (not_lt.mpr this)

/-- Witness of C16 (amended): the step on the two-point example normalises no
vector of length 0 and is the step of `simulate`. -/
theorem normalisation_error_branch_witness :
    (exTwo : Cloth ℝ).simulateChecked Real.sqrt 1 1 exParams [] []
      = some ((exTwo : Cloth ℝ).simulate Real.sqrt 1 1 exParams [] []) :=
  (normalisation_error_branch Real.sqrt (exTwo : Cloth ℝ) 1 1 exParams [] []).2.1.mpr
    (fun hf => absurd
      ((normalisation_error_branch Real.sqrt (exTwo : Cloth ℝ) 1 1 exParams [] []).1.mpr hf)
      (by
        have f1 : fmod (1 : ℝ) 3 = 1 := fmod_of_nonneg_of_lt (by norm_num) (by norm_num)
        have f0 : fmod (0 : ℝ) 3 = 0 := fmod_of_nonneg_of_lt (by norm_num) (by norm_num)
        norm_num [Cloth.simulateChecked, exTwo, exParams, springForceStepChecked, verletStep,
          mapM_loop_some,
          PointMass.new, Cloth.build_spatial_map, buildMapFrom, mapPush, Cloth.hash_position,
          f0, f1, List.range_succ, Cloth.self_collide_checked, mapLookup,
          selfCollideAccChecked, lengthConstraintStepChecked, Vector3D.unitChecked,
          Vector3D.norm, Vector3D.norm2, Vector3D.unit, List.modify, sqrt_four,
          Vector3D.mk_add_mk, Vector3D.mk_sub_mk, Vector3D.mk_smul, Vector3D.mk_sdiv,
          Vector3D.zero_eq]
        exact Option.some_ne_none _))

end ClothSim
